import Mathlib

/-!
# Accounting core of backend-erp

A shallow embedding of the accounting routes of the repository
(`src/routes/transaction.js`, `src/routes/account.js`, `src/routes/report.js`)
together with the Mongoose schemas they persist through
(`src/models/transaction.js`, `src/models/account.js`).

Conventions of the embedding.

* A route handler is a pure function from the store, the platform, the per-call
  context and the request to a response and a new store.  The authentication
  and role middlewares run before the handler and are not part of it.
* Amounts are embedded in two layers.  The first takes every amount as a whole
  number (`Int`) with exact sums, a numeric request field being a JSON number,
  `null`, or absent.  The second (`Erp.Js`) takes the same handlers at the
  values JavaScript gives them: a Number is an IEEE 754 double and every
  addition rounds, and a request field may also be a string, which `+=`
  concatenates and the schema cast converts.  The theorems
  `recordTransaction_toJs`, `generateBalanceSheet_toJs` and
  `generateIncomeStatement_toJs` show that the two layers agree on whole
  numbers whose absolute values sum to at most `2 ^ 53`.
* An ObjectId is a natural number.  A request value in an ObjectId position is
  either falsy/absent, truthy but refused by `mongoose.Types.ObjectId.isValid`,
  or a well-formed id.
* A date is its time value in milliseconds since the epoch.
* Document fields that Mongoose adds on its own (`createdAt`, `updatedAt`,
  `__v`, the `_id` of each line sub-document) are not represented.
-/

namespace Erp

/-! ## Values -/

abbrev ObjectId := Nat

/-- A request value found where an ObjectId is expected. `missing` stands for
`undefined`/`null`, `malformed` for a truthy value that `ObjectId.isValid`
rejects, `oid` for a well-formed id. (A falsy value other than those two, such
as `''`, and a value that `ObjectId.isValid` accepts but the schema cast
refuses, such as a JSON number, are not represented.) -/
inductive IdValue where
  | missing
  | malformed
  | oid (id : ObjectId)
  deriving DecidableEq, Repr

/-- `const isValidObjectId = (id) => mongoose.Types.ObjectId.isValid(id)`. -/
def isValidObjectId : IdValue → Bool
  | .oid _ => true
  | _ => false

/-- JavaScript truthiness of a value in an ObjectId position. -/
def IdValue.truthy : IdValue → Bool
  | .missing => false
  | _ => true

/-- A request value found where a number is expected (`debit`, `credit`), in
the layer of whole numbers; `Js.NumValue` is the same position with doubles
and strings. -/
inductive NumValue where
  | absent
  | null
  | num (n : Int)
  deriving DecidableEq, Repr

/-- A request value found where a date is expected. -/
inductive DateValue where
  | absent
  | null
  | num (ms : Int)
  | str (s : String)
  deriving DecidableEq, Repr

/-- JavaScript truthiness of a date value: `undefined`, `null`, `0` and `''`
are falsy. -/
def DateValue.truthy : DateValue → Bool
  | .absent => false
  | .null => false
  | .num ms => ms != 0
  | .str s => s != ""

/-- Parts of the JavaScript platform that the handlers call and that are taken
as given: how a date string is parsed (`new Date(s)`, `none` for an invalid
date) and `String.prototype.toUpperCase`. -/
structure Platform where
  castDateString : String → Option Int
  toUpperCase : String → String

/-- Per-call inputs that do not come from the request body: the clock
(`new Date()`), the `_id` the driver gives a new document, and the acting
identity `req.user.id` decoded from the token. -/
structure Ctx where
  now : Int
  newId : ObjectId
  userId : IdValue

/-- Code points that `String.prototype.trim` strips (WhiteSpace and
LineTerminator of ECMAScript). -/
def isJsWhiteSpace (c : Char) : Bool :=
  [0x09, 0x0A, 0x0B, 0x0C, 0x0D, 0x20, 0xA0, 0x1680, 0x2000, 0x2001, 0x2002,
   0x2003, 0x2004, 0x2005, 0x2006, 0x2007, 0x2008, 0x2009, 0x200A, 0x2028,
   0x2029, 0x202F, 0x205F, 0x3000, 0xFEFF].contains c.toNat

/-- `String.prototype.trim`. -/
def jsTrim (s : String) : String :=
  String.mk ((s.data.dropWhile isJsWhiteSpace).reverse.dropWhile isJsWhiteSpace).reverse

/-! ## Stored documents (`src/models`) -/

/-- The `enum` of `accountSchema.type`. -/
inductive AccountType where
  | activo
  | pasivo
  | capital
  | ingreso
  | gasto
  deriving DecidableEq, Repr

/-- A stored Account document. -/
structure Account where
  _id : ObjectId
  code : String
  name : String
  type : AccountType
  parent : Option ObjectId
  isGroup : Bool
  description : Option String
  deriving DecidableEq, Repr

/-- A stored line of a Transaction, in the layer of whole numbers. `none` is a
stored `null`. -/
structure Line where
  account : ObjectId
  debit : Option Int
  credit : Option Int
  deriving DecidableEq, Repr

/-- A stored Transaction document. -/
structure Transaction where
  _id : ObjectId
  date : Int
  description : String
  lines : List Line
  createdBy : ObjectId
  deriving DecidableEq, Repr

/-- The two collections the accounting core reads and writes. -/
structure State where
  accounts : List Account
  transactions : List Transaction
  deriving DecidableEq, Repr

/-- The store before any request. -/
def State.empty : State := ⟨[], []⟩

/-- `Account.findById(id)`. -/
def findAccountById (s : State) (id : ObjectId) : Option Account :=
  s.accounts.find? (fun a => a._id == id)

/-- `Transaction.findById(id)`. -/
def findTransactionById (s : State) (id : ObjectId) : Option Transaction :=
  s.transactions.find? (fun t => t._id == id)

/-! ## `POST /api/transaction` (`src/routes/transaction.js`) -/

/-- A line of the request body. -/
structure LineInput where
  account : IdValue
  debit : NumValue
  credit : NumValue
  deriving DecidableEq, Repr

/-- The request body. `description = none` is an absent or `null` description,
`lines = none` a value for which `Array.isArray` is false. -/
structure TransactionBody where
  date : DateValue
  description : Option String
  lines : Option (List LineInput)
  deriving DecidableEq, Repr

/-- Responses of the transaction routes. The numbers carried are the ones
interpolated into the message (`index + 1`, the totals). -/
inductive TxResponse where
  | requiredFields
  | invalidAccountId (linea : Nat)
  | accountNotFound (linea : Nat)
  | lineNotOneSided (linea : Nat)
  | notBalanced (debitos creditos : Int)
  | created (transaccion : Transaction)
  | serverError
  | invalidTransactionId
  | transactionNotFound
  | deleted
  deriving DecidableEq, Repr

/-- The HTTP status each response is sent with. -/
def TxResponse.status : TxResponse → Nat
  | .requiredFields => 400
  | .invalidAccountId _ => 400
  | .accountNotFound _ => 404
  | .lineNotOneSided _ => 400
  | .notBalanced _ _ => 400
  | .created _ => 201
  | .serverError => 500
  | .invalidTransactionId => 400
  | .transactionNotFound => 404
  | .deleted => 200

/-- The value bound by `const { debit = 0 } = line`: the default replaces
`undefined` only; `none` is `null`. -/
def destructureDefault : NumValue → Option Int
  | .absent => some 0
  | .null => none
  | .num n => some n

/-- The comparison `v > 0`; `null > 0` is false. -/
def jsGtZero : Option Int → Bool
  | some n => decide (0 < n)
  | none => false

/-- The comparison `v === 0`; `null === 0` is false. -/
def jsStrictEqZero : Option Int → Bool
  | some n => decide (n = 0)
  | none => false

/-- The value `total += v` adds; `null` converts to `0`. -/
def jsToNumber : Option Int → Int
  | some n => n
  | none => 0

/-- The rejection test of line 35,
`(debit > 0 && credit > 0) || (debit === 0 && credit === 0)`. -/
def lineRejected (debit credit : Option Int) : Bool :=
  (jsGtZero debit && jsGtZero credit) || (jsStrictEqZero debit && jsStrictEqZero credit)

/-- The `for (const [index, line] of lines.entries())` loop of lines 23-43,
started at `index` with the running totals: the first response returned from
inside the loop, or the totals once every line has been visited. -/
def validateLines (s : State) :
    Nat → Int → Int → List LineInput → Except TxResponse (Int × Int)
  | _, totalDebit, totalCredit, [] => .ok (totalDebit, totalCredit)
  | index, totalDebit, totalCredit, line :: rest =>
    let debit := destructureDefault line.debit
    let credit := destructureDefault line.credit
    match line.account with
    | .oid account =>
      match findAccountById s account with
      | none => .error (.accountNotFound (index + 1))
      | some _ =>
        if lineRejected debit credit then
          .error (.lineNotOneSided (index + 1))
        else
          validateLines s (index + 1) (totalDebit + jsToNumber debit)
            (totalCredit + jsToNumber credit) rest
    | _ => .error (.invalidAccountId (index + 1))

/-- Mongoose casting of a `Date` path: a number is a time value, valid within
the range of ECMAScript dates; a string goes through the platform parser. -/
def castDate (P : Platform) : DateValue → Option Int
  | .num ms => if -8640000000000000 ≤ ms ∧ ms ≤ 8640000000000000 then some ms else none
  | .str s => P.castDateString s
  | _ => none

/-- The value of `date || new Date()` after casting; `none` is a cast error. -/
def resolveDate (P : Platform) (ctx : Ctx) (date : DateValue) : Option Int :=
  if date.truthy then castDate P date else some ctx.now

/-- Casting and validation of a `Number` path with `default: 0, min: 0`
(`debit`, `credit`): the default replaces an absent value, `null` is kept and
passes `min`, a negative number fails validation (`none`). -/
def castAmount : NumValue → Option (Option Int)
  | .absent => some (some 0)
  | .null => some none
  | .num n => if 0 ≤ n then some (some n) else none

/-- Casting and validation of one element of `lines`. -/
def castLine (l : LineInput) : Option Line :=
  match l.account, castAmount l.debit, castAmount l.credit with
  | .oid account, some debit, some credit => some ⟨account, debit, credit⟩
  | _, _, _ => none

/-- Casting and validation of the `lines` array; `none` as soon as one element
fails. -/
def castLines : List LineInput → Option (List Line)
  | [] => some []
  | l :: rest =>
    match castLine l, castLines rest with
    | some l', some rest' => some (l' :: rest')
    | _, _ => none

/-- The document built by `new Transaction({...})` at lines 51-56 as
`transaction.save()` validates it; `none` when casting or validation throws. -/
def buildTransaction (P : Platform) (ctx : Ctx) (date : DateValue) (description : String)
    (lines : List LineInput) : Option Transaction :=
  match resolveDate P ctx date, castLines lines, ctx.userId with
  | some d, some ls, .oid user =>
    if jsTrim description = "" then none
    else some ⟨ctx.newId, d, jsTrim description, ls, user⟩
  | _, _, _ => none

/-- The handler of `router.post('/')`. -/
def recordTransaction (P : Platform) (ctx : Ctx) (s : State) (body : TransactionBody) :
    TxResponse × State :=
  match body.description, body.lines with
  | some description, some lines =>
    if jsTrim description = "" ∨ lines.length < 2 then (.requiredFields, s)
    else
      match validateLines s 0 0 0 lines with
      | .error r => (r, s)
      | .ok (totalDebit, totalCredit) =>
        if totalDebit ≠ totalCredit then (.notBalanced totalDebit totalCredit, s)
        else
          match buildTransaction P ctx body.date description lines with
          | none => (.serverError, s)
          | some transaction =>
            (.created transaction, { s with transactions := s.transactions ++ [transaction] })
  | _, _ => (.requiredFields, s)

/-- The handler of `router.delete('/:id')` of the transaction routes:
`findByIdAndDelete` removes the first document with that `_id`. -/
def deleteTransaction (s : State) (id : IdValue) : TxResponse × State :=
  match id with
  | .oid tid =>
    match findTransactionById s tid with
    | none => (.transactionNotFound, s)
    | some t => (.deleted, { s with transactions := s.transactions.erase t })
  | _ => (.invalidTransactionId, s)

/-! ## `src/routes/account.js` -/

/-- The request body of `POST /api/account`. A string field is `none` when it
is absent or `null`. -/
structure AccountBody where
  code : Option String
  name : Option String
  type : Option String
  parent : IdValue
  isGroup : Option Bool
  description : Option String
  deriving DecidableEq, Repr

/-- The request body of `PUT /api/account/:id`. `none` is a field the body does
not have; `parent = some .missing` is an explicit `null`. -/
structure AccountPatch where
  code : Option String
  name : Option String
  type : Option String
  parent : Option IdValue
  isGroup : Option Bool
  description : Option String
  deriving DecidableEq, Repr

/-- Responses of the account routes. -/
inductive AccResponse where
  | requiredFields
  | invalidParentId
  | duplicateCode
  | parentNotFound
  | created (cuenta : Account)
  | serverError
  | invalidId
  | notFound
  | updated (cuenta : Account)
  | hasChildren
  | deleted
  deriving DecidableEq, Repr

/-- The HTTP status each response is sent with. -/
def AccResponse.status : AccResponse → Nat
  | .requiredFields => 400
  | .invalidParentId => 400
  | .duplicateCode => 409
  | .parentNotFound => 404
  | .created _ => 201
  | .serverError => 500
  | .invalidId => 400
  | .notFound => 404
  | .updated _ => 200
  | .hasChildren => 400
  | .deleted => 200

/-- JavaScript truthiness of a string field: absent, `null` and `''` are
falsy. -/
def strTruthy : Option String → Bool
  | some s => s != ""
  | none => false

/-- The setters of the `code` path (`trim: true`, `uppercase: true`), which
Mongoose runs on documents, on updates and on query filters. -/
def normalizeCode (P : Platform) (code : String) : String :=
  jsTrim (P.toUpperCase code)

/-- Validation of the `type` path against its `enum`. -/
def castAccountType (t : String) : Option AccountType :=
  if t = "activo" then some .activo
  else if t = "pasivo" then some .pasivo
  else if t = "capital" then some .capital
  else if t = "ingreso" then some .ingreso
  else if t = "gasto" then some .gasto
  else none

/-- `Account.findOne({ code })`. -/
def findAccountByCode (P : Platform) (s : State) (code : String) : Option Account :=
  s.accounts.find? (fun a => a.code == normalizeCode P code)

/-- The document built by `new Account({...})` as `newAccount.save()` casts and
validates it (`required`, `enum`) and as the unique index on `code` admits it;
`none` when the save throws. -/
def buildAccount (P : Platform) (ctx : Ctx) (s : State) (code name type : String)
    (parent : Option ObjectId) (isGroup : Option Bool) (description : Option String) :
    Option Account :=
  match castAccountType type with
  | none => none
  | some t =>
    if normalizeCode P code = "" ∨ jsTrim name = "" then none
    else if s.accounts.any (fun a => a.code == normalizeCode P code) then none
    else some ⟨ctx.newId, normalizeCode P code, jsTrim name, t, parent,
      isGroup.getD false, description.map jsTrim⟩

/-- Lines 34-37: `new Account({...})`, `newAccount.save()` and the answer. -/
def saveAccount (P : Platform) (ctx : Ctx) (s : State) (code name type : String)
    (parent : Option ObjectId) (isGroup : Option Bool) (description : Option String) :
    AccResponse × State :=
  match buildAccount P ctx s code name type parent isGroup description with
  | none => (.serverError, s)
  | some newAccount => (.created newAccount, { s with accounts := s.accounts ++ [newAccount] })

/-- The handler of `router.post('/')` of the account routes. -/
def createAccount (P : Platform) (ctx : Ctx) (s : State) (body : AccountBody) :
    AccResponse × State :=
  if !strTruthy body.code || !strTruthy body.name || !strTruthy body.type then
    (.requiredFields, s)
  else if body.parent.truthy && !isValidObjectId body.parent then (.invalidParentId, s)
  else
    match body.code, body.name, body.type with
    | some code, some name, some type =>
      match findAccountByCode P s code with
      | some _ => (.duplicateCode, s)
      | none =>
        match body.parent with
        | .oid parent =>
          match findAccountById s parent with
          | none => (.parentNotFound, s)
          | some _ => saveAccount P ctx s code name type (some parent) body.isGroup body.description
        | _ => saveAccount P ctx s code name type none body.isGroup body.description
    | _, _, _ => (.requiredFields, s)

/-- The `$set` that `findByIdAndUpdate(id, req.body, { runValidators: true })`
sends once the body is cast: for each path, `none` when the body leaves it
alone. -/
structure AccountUpdate where
  code : Option String
  name : Option String
  type : Option AccountType
  parent : Option (Option ObjectId)
  isGroup : Option Bool
  description : Option String
  deriving DecidableEq, Repr

/-- Casting of the update and its validators (`required`, `enum`, the ObjectId
cast of `parent`); `none` when one of them throws. No path is checked against
other documents. -/
def castPatch (P : Platform) (patch : AccountPatch) : Option AccountUpdate :=
  let code : Option (Option String) :=
    match patch.code with
    | none => some none
    | some c => if normalizeCode P c = "" then none else some (some (normalizeCode P c))
  let name : Option (Option String) :=
    match patch.name with
    | none => some none
    | some n => if jsTrim n = "" then none else some (some (jsTrim n))
  let type : Option (Option AccountType) :=
    match patch.type with
    | none => some none
    | some t => (castAccountType t).map some
  let parent : Option (Option (Option ObjectId)) :=
    match patch.parent with
    | none => some none
    | some .missing => some (some none)
    | some .malformed => none
    | some (.oid p) => some (some (some p))
  match code, name, type, parent with
  | some c, some n, some t, some p =>
    some ⟨c, n, t, p, patch.isGroup, patch.description.map jsTrim⟩
  | _, _, _, _ => none

/-- The document after the `$set`. -/
def applyUpdate (u : AccountUpdate) (a : Account) : Account :=
  ⟨a._id, u.code.getD a.code, u.name.getD a.name, u.type.getD a.type,
    u.parent.getD a.parent, u.isGroup.getD a.isGroup,
    match u.description with
    | none => a.description
    | some d => some d⟩

/-- The handler of `router.put('/:id')`. Casting and validation of the update
precede the lookup; the unique index on `code` refuses a code another document
holds. -/
def updateAccount (P : Platform) (s : State) (id : IdValue) (patch : AccountPatch) :
    AccResponse × State :=
  match id with
  | .oid aid =>
    match castPatch P patch with
    | none => (.serverError, s)
    | some u =>
      match findAccountById s aid with
      | none => (.notFound, s)
      | some a =>
        if s.accounts.any (fun b => b._id != aid && b.code == (applyUpdate u a).code) then
          (.serverError, s)
        else
          (.updated (applyUpdate u a),
            { s with accounts := s.accounts.map (fun b => if b._id = aid then applyUpdate u a else b) })
  | _ => (.invalidId, s)

/-- The handler of `router.delete('/:id')` of the account routes. -/
def deleteAccount (s : State) (id : IdValue) : AccResponse × State :=
  match id with
  | .oid aid =>
    if s.accounts.any (fun a => a.parent == some aid) then (.hasChildren, s)
    else
      match findAccountById s aid with
      | none => (.notFound, s)
      | some a => (.deleted, { s with accounts := s.accounts.erase a })
  | _ => (.invalidId, s)

/-- What `populate('parent', 'code name')` keeps of the parent document. -/
structure ParentRef where
  _id : ObjectId
  code : String
  name : String
  deriving DecidableEq, Repr

/-- An Account as the read routes send it: the stored document with `parent`
populated. `parent = none` is `null`, which is what `populate` leaves when the
document has no parent or the parent it names is not stored. -/
structure AccountView where
  _id : ObjectId
  code : String
  name : String
  type : AccountType
  parent : Option ParentRef
  isGroup : Bool
  description : Option String
  deriving DecidableEq, Repr

/-- `.populate('parent', 'code name')` on one document. -/
def populateParent (s : State) (a : Account) : AccountView :=
  ⟨a._id, a.code, a.name, a.type,
    match a.parent with
    | none => none
    | some p =>
      match findAccountById s p with
      | none => none
      | some x => some ⟨x._id, x.code, x.name⟩,
    a.isGroup, a.description⟩

/-- The handler of `router.get('/')` of the account routes:
`Account.find().populate('parent', 'code name')`. -/
def listAccounts (s : State) : List AccountView :=
  s.accounts.map (populateParent s)

/-- Responses of `GET /api/account/:id`. -/
inductive AccQueryResponse where
  | invalidId
  | notFound
  | found (cuenta : AccountView)
  deriving DecidableEq, Repr

/-- The HTTP status each response is sent with. -/
def AccQueryResponse.status : AccQueryResponse → Nat
  | .invalidId => 400
  | .notFound => 404
  | .found _ => 200

/-- The handler of `router.get('/:id')` of the account routes. -/
def getAccount (s : State) (id : IdValue) : AccQueryResponse :=
  match id with
  | .oid aid =>
    match findAccountById s aid with
    | none => .notFound
    | some a => .found (populateParent s a)
  | _ => .invalidId

/-! ## `src/routes/report.js` -/

/-- An element of a report array, `{ id, code, name, saldo }`. -/
structure ReportItem where
  id : ObjectId
  code : String
  name : String
  saldo : Int
  deriving DecidableEq, Repr

/-- The object `resultado` of `GET /balance-sheet`. -/
structure BalanceSheet where
  activo : List ReportItem
  pasivo : List ReportItem
  capital : List ReportItem
  totalActivo : Int
  totalPasivo : Int
  totalCapital : Int
  deriving DecidableEq, Repr

/-- The object `resultado` of `GET /income-statement`. -/
structure IncomeStatement where
  ingreso : List ReportItem
  gasto : List ReportItem
  totalIngreso : Int
  totalGasto : Int
  utilidadNeta : Int
  deriving DecidableEq, Repr

/-- The object `saldos`, keyed by `_id.toString()`; `none` is a key the object
does not own. -/
abbrev Saldos := ObjectId → Option Int

/-- The assignment `saldos[k] = v`. -/
def Saldos.set (m : Saldos) (k : ObjectId) (v : Int) : Saldos :=
  fun k' => if k' = k then some v else m k'

/-- The read `saldos[k] || 0`. -/
def Saldos.getOrZero (m : Saldos) (k : ObjectId) : Int :=
  (m k).getD 0

/-- `Account.find({ type: { $in: types } })`. -/
def findAccountsByType (s : State) (types : List AccountType) : List Account :=
  s.accounts.filter (fun a => types.contains a.type)

/-- `cuentas.forEach((c) => { saldos[c._id.toString()] = 0; })` on an empty
object. -/
def initSaldos (cuentas : List Account) : Saldos :=
  cuentas.foldl (fun m c => m.set c._id 0) (fun _ => none)

/-- The operand `(v || 0)`. -/
def orZero : Option Int → Int
  | some n => n
  | none => 0

/-- The body of `t.lines.forEach` in the balance sheet (lines 22-25). The line's
account is the document `populate` put there; `none` when it is `null` and
`l.account._id` throws. -/
def balanceSheetLine (s : State) (saldos : Saldos) (l : Line) : Option Saldos :=
  match findAccountById s l.account with
  | none => none
  | some account =>
    match saldos account._id with
    | some v => some (saldos.set account._id (v + (orZero l.debit - orZero l.credit)))
    | none => some saldos

/-- The body of `t.lines.forEach` in the income statement (lines 68-75). -/
def incomeStatementLine (s : State) (saldos : Saldos) (l : Line) : Option Saldos :=
  match findAccountById s l.account with
  | none => none
  | some account =>
    match saldos account._id with
    | some v =>
      let isIngreso := decide (account.type = .ingreso)
      let isGasto := decide (account.type = .gasto)
      let v1 := if isIngreso then v + (orZero l.credit - orZero l.debit) else v
      let v2 := if isGasto then v1 + (orZero l.debit - orZero l.credit) else v1
      some (saldos.set account._id v2)
    | none => some saldos

/-- A `forEach` whose body may throw: the fold stops at the first `none`. -/
def foldLines (f : Saldos → Line → Option Saldos) : Saldos → List Line → Option Saldos
  | m, [] => some m
  | m, l :: rest =>
    match f m l with
    | none => none
    | some m' => foldLines f m' rest

/-- `transacciones.forEach((t) => { t.lines.forEach(...) })`. -/
def foldTransactions (f : Saldos → Line → Option Saldos) :
    Saldos → List Transaction → Option Saldos
  | m, [] => some m
  | m, t :: rest =>
    match foldLines f m t.lines with
    | none => none
    | some m' => foldTransactions f m' rest

/-- The item pushed for account `c`. -/
def reportItem (saldos : Saldos) (c : Account) : ReportItem :=
  ⟨c._id, c.code, c.name, saldos.getOrZero c._id⟩

/-- The second `cuentas.forEach` of the balance sheet (lines 38-47):
`resultado[c.type].push(...)` and the matching total; a type the object has no
array for throws. -/
def balanceSheetPush (saldos : Saldos) : BalanceSheet → List Account → Option BalanceSheet
  | r, [] => some r
  | r, c :: rest =>
    match c.type with
    | .activo =>
      balanceSheetPush saldos
        { r with activo := r.activo ++ [reportItem saldos c],
                 totalActivo := r.totalActivo + saldos.getOrZero c._id } rest
    | .pasivo =>
      balanceSheetPush saldos
        { r with pasivo := r.pasivo ++ [reportItem saldos c],
                 totalPasivo := r.totalPasivo + saldos.getOrZero c._id } rest
    | .capital =>
      balanceSheetPush saldos
        { r with capital := r.capital ++ [reportItem saldos c],
                 totalCapital := r.totalCapital + saldos.getOrZero c._id } rest
    | _ => none

/-- The second `cuentas.forEach` of the income statement (lines 87-96). -/
def incomeStatementPush (saldos : Saldos) :
    IncomeStatement → List Account → Option IncomeStatement
  | r, [] => some r
  | r, c :: rest =>
    match c.type with
    | .ingreso =>
      incomeStatementPush saldos
        { r with ingreso := r.ingreso ++ [reportItem saldos c],
                 totalIngreso := r.totalIngreso + saldos.getOrZero c._id } rest
    | .gasto =>
      incomeStatementPush saldos
        { r with gasto := r.gasto ++ [reportItem saldos c],
                 totalGasto := r.totalGasto + saldos.getOrZero c._id } rest
    | _ => none

/-- The balance sheet types, `['activo', 'pasivo', 'capital']`. -/
def balanceSheetTypes : List AccountType := [.activo, .pasivo, .capital]

/-- The income statement types, `['ingreso', 'gasto']`. -/
def incomeStatementTypes : List AccountType := [.ingreso, .gasto]

/-- The `saldos` object of `GET /balance-sheet` after both loops of lines
14-27; `none` when a loop body throws. -/
def balanceSheetSaldos (s : State) : Option Saldos :=
  foldTransactions (balanceSheetLine s)
    (initSaldos (findAccountsByType s balanceSheetTypes)) s.transactions

/-- The `saldos` object of `GET /income-statement` after both loops of lines
61-77. -/
def incomeStatementSaldos (s : State) : Option Saldos :=
  foldTransactions (incomeStatementLine s)
    (initSaldos (findAccountsByType s incomeStatementTypes)) s.transactions

/-- The handler of `router.get('/balance-sheet')`: the JSON sent with status
200, or `none` for the status 500 of the `catch`. -/
def generateBalanceSheet (s : State) : Option BalanceSheet :=
  match balanceSheetSaldos s with
  | none => none
  | some saldos =>
    balanceSheetPush saldos ⟨[], [], [], 0, 0, 0⟩ (findAccountsByType s balanceSheetTypes)

/-- The handler of `router.get('/income-statement')`. -/
def generateIncomeStatement (s : State) : Option IncomeStatement :=
  match incomeStatementSaldos s with
  | none => none
  | some saldos =>
    match incomeStatementPush saldos ⟨[], [], 0, 0, 0⟩
        (findAccountsByType s incomeStatementTypes) with
    | none => none
    | some r => some { r with utilidadNeta := r.totalIngreso - r.totalGasto }

/-! ## Reachable states -/

/-- An `_id` the driver may hand out in state `s`: one no stored document
has. -/
def FreshId (s : State) (id : ObjectId) : Prop :=
  (∀ a ∈ s.accounts, a._id ≠ id) ∧ (∀ t ∈ s.transactions, t._id ≠ id)

/-- One request served by one of the state-changing handlers. -/
inductive Step (P : Platform) : State → State → Prop where
  | createAccount (s : State) (ctx : Ctx) (body : AccountBody) (h : FreshId s ctx.newId) :
      Step P s (Erp.createAccount P ctx s body).2
  | updateAccount (s : State) (id : IdValue) (patch : AccountPatch) :
      Step P s (Erp.updateAccount P s id patch).2
  | deleteAccount (s : State) (id : IdValue) :
      Step P s (Erp.deleteAccount s id).2
  | recordTransaction (s : State) (ctx : Ctx) (body : TransactionBody)
      (h : FreshId s ctx.newId) :
      Step P s (Erp.recordTransaction P ctx s body).2
  | deleteTransaction (s : State) (id : IdValue) :
      Step P s (Erp.deleteTransaction s id).2

/-- The states the system can be in: the empty store and whatever a sequence
of requests makes of it. -/
inductive Reachable (P : Platform) : State → Prop where
  | empty : Reachable P State.empty
  | step {s s' : State} (hs : Reachable P s) (h : Step P s s') : Reachable P s'


/-- A request to one of the state-changing handlers. -/
inductive Request where
  | createAccount (ctx : Ctx) (body : AccountBody)
  | updateAccount (id : IdValue) (patch : AccountPatch)
  | deleteAccount (id : IdValue)
  | recordTransaction (ctx : Ctx) (body : TransactionBody)
  | deleteTransaction (id : IdValue)

/-- The store after the request is served. -/
def Request.run (P : Platform) (s : State) : Request → State
  | .createAccount ctx body => (Erp.createAccount P ctx s body).2
  | .updateAccount id patch => (Erp.updateAccount P s id patch).2
  | .deleteAccount id => (Erp.deleteAccount s id).2
  | .recordTransaction ctx body => (Erp.recordTransaction P ctx s body).2
  | .deleteTransaction id => (Erp.deleteTransaction s id).2

/-- The `_id` a creating request brings is one the driver may hand out. -/
def Request.Admissible (s : State) : Request → Prop
  | .createAccount ctx _ => FreshId s ctx.newId
  | .recordTransaction ctx _ => FreshId s ctx.newId
  | _ => True

/-- The request is a `PUT /api/account/:id`. -/
def Request.isUpdateAccount : Request → Bool
  | .updateAccount _ _ => true
  | _ => false

/-- The request is a `DELETE /api/account/:id`. -/
def Request.isDeleteAccount : Request → Bool
  | .deleteAccount _ => true
  | _ => false

/-- The request is a `PUT /api/account/:id` whose body has a `type`. -/
def Request.setsType : Request → Bool
  | .updateAccount _ patch => patch.type.isSome
  | _ => false

/-- The states reached from the empty store by requests that all satisfy
`allowed`. -/
inductive ReachableBy (P : Platform) (allowed : Request → Prop) : State → Prop where
  | empty : ReachableBy P allowed State.empty
  | step {s : State} (hs : ReachableBy P allowed s) (r : Request) (ha : allowed r)
      (hf : r.Admissible s) : ReachableBy P allowed (r.run P s)

/-! ## Notions the statements use -/

/-- Sum of `debit` over the stored lines, a stored `null` counting as `0`. -/
def Transaction.totalDebit (t : Transaction) : Int :=
  (t.lines.map (fun l => orZero l.debit)).sum

/-- Sum of `credit` over the stored lines, a stored `null` counting as `0`. -/
def Transaction.totalCredit (t : Transaction) : Int :=
  (t.lines.map (fun l => orZero l.credit)).sum

/-- A stored transaction is balanced. -/
def Transaction.Balanced (t : Transaction) : Prop :=
  t.totalDebit = t.totalCredit

/-- Sum of the `debit` values of the request lines as the handler reads them
(absent and `null` add `0`). -/
def requestDebit (lines : List LineInput) : Int :=
  (lines.map (fun l => jsToNumber (destructureDefault l.debit))).sum

/-- Sum of the `credit` values of the request lines as the handler reads
them. -/
def requestCredit (lines : List LineInput) : Int :=
  (lines.map (fun l => jsToNumber (destructureDefault l.credit))).sum

/-- The line's `account` is a well-formed id of a stored Account. -/
def AccountResolves (s : State) (l : LineInput) : Prop :=
  ∃ id, l.account = .oid id ∧ (findAccountById s id).isSome = true

/-- The line passes both per-line checks of the loop. -/
def LinePasses (s : State) (l : LineInput) : Prop :=
  AccountResolves s l ∧
    lineRejected (destructureDefault l.debit) (destructureDefault l.credit) = false

/-- The stored line keeps what the request line says: the same account and the
same debit and credit, an absent one stored as the schema default `0`. -/
def StoredAs (l : LineInput) (l' : Line) : Prop :=
  l.account = .oid l'.account ∧ l'.debit = destructureDefault l.debit ∧
    l'.credit = destructureDefault l.credit

/-- Exactly one of `debit`/`credit` is strictly positive and the other is
exactly zero. -/
def Line.OneSided (l : Line) : Prop :=
  (∃ d : Int, l.debit = some d ∧ 0 < d ∧ l.credit = some 0) ∨
    (∃ c : Int, l.credit = some c ∧ 0 < c ∧ l.debit = some 0)

/-- The request line has both sides strictly positive, or both sides zero
(a zero written out or left absent), as in `{debit:100, credit:50}` and
`{debit:0, credit:0}`. -/
def BothOrNeither (l : LineInput) : Prop :=
  (∃ a b : Int, l.debit = .num a ∧ l.credit = .num b ∧ 0 < a ∧ 0 < b) ∨
    ((l.debit = .num 0 ∨ l.debit = .absent) ∧ (l.credit = .num 0 ∨ l.credit = .absent))

/-- The `_id` is the primary key of the Account collection. -/
def UniqueAccountIds (s : State) : Prop :=
  (s.accounts.map (fun a => a._id)).Nodup

/-- Every line of every stored transaction names a stored Account. -/
def LinesResolve (s : State) : Prop :=
  ∀ t ∈ s.transactions, ∀ l ∈ t.lines, (findAccountById s l.account).isSome = true

/-- All stored lines, transaction by transaction, in order. -/
def allLines (txs : List Transaction) : List Line :=
  txs.foldr (fun t acc => t.lines ++ acc) []

/-- Sum of `debit − credit` over the lines in `ls` that post to account `id`,
a stored `null` counting as `0`. -/
def debitMinusCredit (ls : List Line) (id : ObjectId) : Int :=
  ((ls.filter (fun l => l.account = id)).map (fun l => orZero l.debit - orZero l.credit)).sum

/-- Sum of `credit − debit` over the lines in `ls` that post to account
`id`. -/
def creditMinusDebit (ls : List Line) (id : ObjectId) : Int :=
  ((ls.filter (fun l => l.account = id)).map (fun l => orZero l.credit - orZero l.debit)).sum

/-- What one line adds to the balance of the account it posts to in the
balance sheet. -/
def balanceSheetDelta (_account : Account) (l : Line) : Int :=
  orZero l.debit - orZero l.credit

/-- What one line adds to the balance of the account it posts to in the
income statement. -/
def incomeStatementDelta (account : Account) (l : Line) : Int :=
  (if account.type = .ingreso then orZero l.credit - orZero l.debit else 0) +
    (if account.type = .gasto then orZero l.debit - orZero l.credit else 0)

/-- Sum over the lines of `ls` posting to `id` of what each adds, the account
being the one `populate` finds. -/
def posted (s : State) (delta : Account → Line → Int) (ls : List Line) (id : ObjectId) : Int :=
  ((ls.filter (fun l => l.account = id)).map (fun l =>
    match findAccountById s l.account with
    | some account => delta account l
    | none => 0)).sum

/-- Every line of every stored transaction posts to a stored account of type
`ingreso` or `gasto`. -/
def OnlyIncomeExpense (s : State) : Prop :=
  ∀ t ∈ s.transactions, ∀ l ∈ t.lines,
    ∃ a, findAccountById s l.account = some a ∧ (a.type = .ingreso ∨ a.type = .gasto)

/-- A required string field of the request is missing: absent, `null` or
empty. -/
def FieldMissing (v : Option String) : Prop :=
  v = none ∨ v = some ""

/-- Every parent a stored account names is the id of a stored account. -/
def ParentsExist (s : State) : Prop :=
  ∀ a ∈ s.accounts, ∀ p, a.parent = some p → (findAccountById s p).isSome = true

/-- The parent reference of the stored account with the given id. -/
def parentId (s : State) (id : ObjectId) : Option ObjectId :=
  match findAccountById s id with
  | none => none
  | some a => a.parent

/-- The id reached from `id` by following parent references `n` times. -/
def nthAncestor (s : State) : Nat → ObjectId → Option ObjectId
  | 0, id => some id
  | n + 1, id =>
    match parentId s id with
    | none => none
    | some p => nthAncestor s n p

/-- Following parent references from a stored account never returns to it. -/
def Forest (s : State) : Prop :=
  ∀ a ∈ s.accounts, ∀ n, 0 < n → nthAncestor s n a._id ≠ some a._id

/-- The stored codes are pairwise distinct. -/
def UniqueCodes (s : State) : Prop :=
  (s.accounts.map (fun a => a.code)).Nodup

/-- The request line has one of debit/credit strictly positive and the other
exactly zero, written out or left absent. -/
def LineInput.OneSided (l : LineInput) : Prop :=
  (∃ d : Int, 0 < d ∧ l.debit = .num d ∧ (l.credit = .num 0 ∨ l.credit = .absent)) ∨
    (∃ c : Int, 0 < c ∧ l.credit = .num c ∧ (l.debit = .num 0 ∨ l.debit = .absent))

/-- No stored debit or credit is a negative number. -/
def AmountsNonNegative (s : State) : Prop :=
  ∀ t ∈ s.transactions, ∀ l ∈ t.lines,
    (∀ n, l.debit = some n → 0 ≤ n) ∧ (∀ n, l.credit = some n → 0 ≤ n)

/-- The balance the balance sheet reports for the account of the given id. -/
def BalanceSheet.balanceOf (r : BalanceSheet) (id : ObjectId) : Option Int :=
  ((r.activo ++ r.pasivo ++ r.capital).find? (fun i => i.id = id)).map (fun i => i.saldo)

/-- The balance the income statement reports for the account of the given
id. -/
def IncomeStatement.balanceOf (r : IncomeStatement) (id : ObjectId) : Option Int :=
  ((r.ingreso ++ r.gasto).find? (fun i => i.id = id)).map (fun i => i.saldo)

/-- What the lines of one transaction add to the reported balance of an
account, under the sign rule of its type. -/
def contribution (a : Account) (ls : List Line) : Int :=
  match a.type with
  | .ingreso => creditMinusDebit ls a._id
  | _ => debitMinusCredit ls a._id

/-- The balance sheet built from the queried accounts and the `saldos`
object. -/
def balanceSheetFrom (cuentas : List Account) (m : Saldos) : BalanceSheet :=
  ⟨(cuentas.filter (fun c => c.type = .activo)).map (reportItem m),
    (cuentas.filter (fun c => c.type = .pasivo)).map (reportItem m),
    (cuentas.filter (fun c => c.type = .capital)).map (reportItem m),
    ((cuentas.filter (fun c => c.type = .activo)).map (fun c => m.getOrZero c._id)).sum,
    ((cuentas.filter (fun c => c.type = .pasivo)).map (fun c => m.getOrZero c._id)).sum,
    ((cuentas.filter (fun c => c.type = .capital)).map (fun c => m.getOrZero c._id)).sum⟩

/-- The income statement built from the queried accounts and the `saldos`
object. -/
def incomeStatementFrom (cuentas : List Account) (m : Saldos) : IncomeStatement :=
  ⟨(cuentas.filter (fun c => c.type = .ingreso)).map (reportItem m),
    (cuentas.filter (fun c => c.type = .gasto)).map (reportItem m),
    ((cuentas.filter (fun c => c.type = .ingreso)).map (fun c => m.getOrZero c._id)).sum,
    ((cuentas.filter (fun c => c.type = .gasto)).map (fun c => m.getOrZero c._id)).sum,
    ((cuentas.filter (fun c => c.type = .ingreso)).map (fun c => m.getOrZero c._id)).sum -
      ((cuentas.filter (fun c => c.type = .gasto)).map (fun c => m.getOrZero c._id)).sum⟩

/-! ## Sample data -/

/-- A platform for the examples: no date string parses, ASCII upper-casing. -/
def demoPlatform : Platform :=
  ⟨fun _ => none, fun s => String.mk (s.data.map Char.toUpper)⟩

/-- An asset account. -/
def cash : Account := ⟨1, "CASH", "Cash", .activo, none, false, none⟩

/-- A capital account. -/
def equity : Account := ⟨2, "EQUITY", "Equity", .capital, none, false, none⟩

/-- The request that creates `cash`. -/
def cashBody : AccountBody := ⟨some "cash", some "Cash", some "activo", .missing, none, none⟩

/-- The request that creates `equity`. -/
def equityBody : AccountBody :=
  ⟨some "equity", some "Equity", some "capital", .missing, none, none⟩

/-- A store holding `cash` and `equity` and no transaction. -/
def demoState : State := ⟨[cash, equity], []⟩

/-- The call context of the examples: clock at 5, next `_id` 10, acting
identity 77. -/
def demoCtx : Ctx := ⟨5, 10, .oid 77⟩

/-- The opening entry: 1000 debited to `cash`, 1000 credited to `equity`. -/
def openingBody : TransactionBody :=
  ⟨.absent, some "opening", some [⟨.oid 1, .num 1000, .num 0⟩, ⟨.oid 2, .num 0, .num 1000⟩]⟩

/-- The document the opening entry is stored as. -/
def openingTransaction : Transaction :=
  ⟨10, 5, "opening", [⟨1, some 1000, some 0⟩, ⟨2, some 0, some 1000⟩], 77⟩

/-- A request whose two lines each pair a `0` with a `null`. -/
def nullSidedBody : TransactionBody :=
  ⟨.absent, some "adjust", some [⟨.oid 1, .num 0, .null⟩, ⟨.oid 2, .null, .num 0⟩]⟩

/-- The document `nullSidedBody` is stored as. -/
def nullSidedTransaction : Transaction :=
  ⟨10, 5, "adjust", [⟨1, some 0, none⟩, ⟨2, none, some 0⟩], 77⟩

/-- A request whose first line is `{debit:100, credit:50}` on an account that
is not stored. -/
def bothSidedUnknownBody : TransactionBody :=
  ⟨.absent, some "sale", some [⟨.oid 3, .num 100, .num 50⟩, ⟨.oid 2, .num 0, .num 50⟩]⟩

/-- A request whose second line is `{debit:100, credit:50}` on a stored
account, after a line that passes. -/
def bothSidedBody : TransactionBody :=
  ⟨.absent, some "sale", some [⟨.oid 1, .num 50, .absent⟩, ⟨.oid 2, .num 100, .num 50⟩]⟩

/-- A request without description whose two lines pass the per-line checks
and do not balance. -/
def undescribedBody : TransactionBody :=
  ⟨.absent, none, some [⟨.oid 1, .num 100, .num 0⟩, ⟨.oid 2, .num 0, .num 40⟩]⟩

/-- The lines of `undescribedBody` under a description. -/
def unbalancedBody : TransactionBody :=
  ⟨.absent, some "sale", some [⟨.oid 1, .num 100, .num 0⟩, ⟨.oid 2, .num 0, .num 40⟩]⟩

/-- The opening entry dated with the number `0`. -/
def epochBody : TransactionBody :=
  ⟨.num 0, some "opening", some [⟨.oid 1, .num 1000, .num 0⟩, ⟨.oid 2, .num 0, .num 1000⟩]⟩

/-- The opening entry dated with the time value `86400000`. -/
def datedBody : TransactionBody :=
  ⟨.num 86400000, some "opening",
    some [⟨.oid 1, .num 1000, .num 0⟩, ⟨.oid 2, .num 0, .num 1000⟩]⟩

/-- A request with a blank description and a single line on an unknown
account. -/
def blankBody : TransactionBody :=
  ⟨.absent, some " \t\n", some [⟨.oid 3, .num 100, .num 50⟩]⟩

/-- A request whose first line has both sides positive on a stored account
and whose second line names an account that is not stored. -/
def firstLineBothBody : TransactionBody :=
  ⟨.absent, some "sale", some [⟨.oid 1, .num 100, .num 50⟩, ⟨.oid 3, .num 0, .num 50⟩]⟩

/-- A store with one account of each type and four balanced transactions. -/
def ledgerState : State :=
  ⟨[cash, equity,
      ⟨3, "LOAN", "Bank loan", .pasivo, none, false, none⟩,
      ⟨4, "SALES", "Sales", .ingreso, none, false, none⟩,
      ⟨5, "RENT", "Rent", .gasto, none, false, none⟩],
    [openingTransaction,
      ⟨11, 6, "loan", [⟨1, some 500, some 0⟩, ⟨3, some 0, some 500⟩], 77⟩,
      ⟨12, 7, "sale", [⟨1, some 300, none⟩, ⟨4, none, some 300⟩], 77⟩,
      ⟨13, 8, "rent", [⟨5, some 120, some 0⟩, ⟨1, some 0, some 120⟩], 77⟩]⟩

/-- The balance sheet of `ledgerState`. -/
def ledgerBalanceSheet : BalanceSheet :=
  ⟨[⟨1, "CASH", "Cash", 1680⟩], [⟨3, "LOAN", "Bank loan", -500⟩],
    [⟨2, "EQUITY", "Equity", -1000⟩], 1680, -500, -1000⟩

/-- The income statement of `ledgerState`. -/
def ledgerIncomeStatement : IncomeStatement :=
  ⟨[⟨4, "SALES", "Sales", 300⟩], [⟨5, "RENT", "Rent", 120⟩], 300, 120, 180⟩

/-- A store with an income and an expense account and one balanced
transaction between them. -/
def incomeState : State :=
  ⟨[⟨4, "SALES", "Sales", .ingreso, none, false, none⟩,
      ⟨5, "RENT", "Rent", .gasto, none, false, none⟩],
    [⟨20, 9, "rebate", [⟨5, some 120, some 0⟩, ⟨4, some 0, some 120⟩], 77⟩]⟩

/-- The income statement of `incomeState`. -/
def incomeStateStatement : IncomeStatement :=
  ⟨[⟨4, "SALES", "Sales", 120⟩], [⟨5, "RENT", "Rent", 120⟩], 120, 120, 0⟩

/-- A store holding the account `1000-A`. -/
def codedState : State :=
  ⟨[⟨1, "1000-A", "Bank", .activo, none, false, none⟩], []⟩

/-- A request for the code `1000-a`. -/
def lowerCodeBody : AccountBody :=
  ⟨some "1000-a", some "Bank two", some "activo", .missing, none, none⟩

/-- The request for the code `1000-a` without a name. -/
def lowerCodeUnnamedBody : AccountBody :=
  ⟨some "1000-a", none, some "activo", .missing, none, none⟩

/-- The request for the code `1000-a` under a parent that is not a well-formed
id. -/
def lowerCodeMalformedParentBody : AccountBody :=
  ⟨some "1000-a", some "Bank two", some "activo", .malformed, none, none⟩

/-- A request for a new code under a parent that is not stored. -/
def orphanBody : AccountBody :=
  ⟨some "1100", some "Petty cash", some "activo", .oid 9, none, none⟩

/-- A request for a new code under a parent that is not a well-formed id. -/
def malformedParentBody : AccountBody :=
  ⟨some "1100", some "Petty cash", some "activo", .malformed, none, none⟩

/-- A request whose code and name carry surrounding blanks, under the stored
parent `1000-A`. -/
def paddedBody : AccountBody :=
  ⟨some " 1100 ", some " Petty cash ", some "activo", .oid 1, none, none⟩

/-- The document `paddedBody` is stored as, with `_id` 10. -/
def pettyCash : Account :=
  ⟨10, "1100", "Petty cash", .activo, some 1, false, none⟩

/-- A store where `1000-A` has the child `1100`. -/
def familyState : State :=
  ⟨[⟨1, "1000-A", "Bank", .activo, none, false, none⟩, pettyCash], []⟩

/-- A patch that sets the parent to the id 9. -/
def parentNinePatch : AccountPatch := ⟨none, none, none, some (.oid 9), none, none⟩

/-- The store after `cash` is created and then given the parent 9, which no
account has as its id. -/
def danglingParentState : State :=
  ⟨[⟨1, "CASH", "Cash", .activo, some 9, false, none⟩], []⟩

/-- A patch that sets the parent to the id 1. -/
def parentOnePatch : AccountPatch := ⟨none, none, none, some (.oid 1), none, none⟩

/-- The store after `cash` is created and then made its own parent. -/
def selfParentState : State :=
  ⟨[⟨1, "CASH", "Cash", .activo, some 1, false, none⟩], []⟩

/-- A patch that sets the type to `pasivo`. -/
def typePatch : AccountPatch := ⟨none, none, some "pasivo", none, none, none⟩

/-- The store after `cash` is created and then retyped. -/
def retypedState : State :=
  ⟨[⟨1, "CASH", "Cash", .pasivo, none, false, none⟩], []⟩

/-- The store after the opening entry is recorded and `cash` is then
deleted. -/
def orphanLineState : State := ⟨[equity], [openingTransaction]⟩

/-- The opening entry dated with a number beyond the range of dates. -/
def farDateBody : TransactionBody :=
  ⟨.num 10000000000000000, some "opening",
    some [⟨.oid 1, .num 1000, .num 0⟩, ⟨.oid 2, .num 0, .num 1000⟩]⟩

/-- A second entry on the sample accounts: 250 credited to `cash`, 250 debited
to `equity`. -/
def drawingBody : TransactionBody :=
  ⟨.absent, some "drawing", some [⟨.oid 2, .num 250, .absent⟩, ⟨.oid 1, .absent, .num 250⟩]⟩

/-- The document `drawingBody` is stored as. -/
def drawingTransaction : Transaction :=
  ⟨11, 6, "drawing", [⟨2, some 250, some 0⟩, ⟨1, some 0, some 250⟩], 77⟩

/-- The request that creates the account `1000-A` of `codedState`. -/
def bankBody : AccountBody :=
  ⟨some "1000-a", some "Bank", some "activo", .missing, none, none⟩

/-! ## IEEE 754 doubles

The layer above computes with whole numbers and exact sums.  The definitions
from here to the sample data of this layer take the same handlers at the
values JavaScript gives them: a Number is an IEEE 754 binary64 value, every
addition rounds, and a string found where a number is expected is
concatenated by `+=` and converted by comparisons and by the schema cast. -/

/-- The power `2 ^ k`, computed by a shift. -/
def pow2 (k : Nat) : Nat := 1 <<< k

/-- Bisection for the position of the leading bit of `a`: `lo` is a position
known to be at most that of the leading bit, and `2 ^ (i - 1)`, ..., `2`, `1`
are added to it in turn whenever the sum still is. -/
def floorLog2Aux (a : Nat) : Nat → Nat → Nat
  | 0, lo => lo
  | i + 1, lo =>
    if pow2 (lo + pow2 i) ≤ a then floorLog2Aux a i (lo + pow2 i) else floorLog2Aux a i lo

/-- The position of the leading bit of `a`, that is `⌊log₂ a⌋`, for
`0 < a < 2 ^ 4096`. -/
def floorLog2 (a : Nat) : Nat := floorLog2Aux a 12 0

/-- A Number of JavaScript: an IEEE 754 binary64 value. Every finite double is
an integer multiple of the smallest subnormal `2 ^ -1074`, and `fin n` is the
value `n · 2 ^ -1074`; a finite double is a `fin n` whose `n` has at most 53
significant bits and is below `2 ^ 2098` in absolute value. The two zeros are
one value: no handler tells them apart. -/
inductive Double where
  | fin (n : Int)
  | inf (negative : Bool)
  | nan
  deriving DecidableEq, Repr

/-- Rounding to nearest, ties to even: the double nearest to the non-negative
rational `p / q` (`0 < q`), both the argument and the result counted in units
of `2 ^ -1074`. The result keeps the 53 leading bits of `p / q`; `none` is an
overflow, the rounded value reaching `2 ^ 1024`. -/
def roundUnits (p q : Nat) : Option Nat :=
  let k := if p / q < pow2 53 then 0 else floorLog2 (p / q) - 52
  let ulp := q * pow2 k
  let m := p / ulp
  let r := p % ulp
  let m' := if ulp < 2 * r ∨ (2 * r = ulp ∧ m % 2 = 1) then m + 1 else m
  if m' * pow2 k < pow2 2098 then some (m' * pow2 k) else none

/-- The double an exact result `n · 2 ^ -1074` is rounded to. -/
def Double.ofExact (n : Int) : Double :=
  match roundUnits n.natAbs 1 with
  | some a => .fin (if n < 0 then -(a : Int) else (a : Int))
  | none => .inf (decide (n < 0))

/-- The Number `0`. -/
def Double.zero : Double := .fin 0

/-- The double of a whole number `n` with `|n| ≤ 2 ^ 53`, which is `n`
itself. -/
def Double.ofInt (n : Int) : Double := .fin (n * (pow2 1074 : Nat))

/-- The double nearest to the fraction `p / q`, which is the Number a decimal
literal of that value denotes. -/
def Double.nearest (p q : Nat) : Double :=
  match roundUnits (p * pow2 1074) q with
  | some a => .fin (a : Int)
  | none => .inf false

/-- The sum `a + b` of two Numbers. -/
def Double.add : Double → Double → Double
  | .fin a, .fin b => Double.ofExact (a + b)
  | .fin _, .inf b => .inf b
  | .inf a, .fin _ => .inf a
  | .inf a, .inf b => if a = b then .inf a else .nan
  | _, _ => .nan

/-- The negation `-a`. -/
def Double.neg : Double → Double
  | .fin a => .fin (-a)
  | .inf a => .inf (!a)
  | .nan => .nan

/-- The difference `a - b`. -/
def Double.sub (a b : Double) : Double := a.add b.neg

/-- The comparison `a > 0`. -/
def Double.gtZero : Double → Bool
  | .fin a => decide (0 < a)
  | .inf a => !a
  | .nan => false

/-- The comparison `a >= 0`. -/
def Double.geZero : Double → Bool
  | .fin a => decide (0 ≤ a)
  | .inf a => !a
  | .nan => false

/-- The comparison `a === 0`. -/
def Double.isZero : Double → Bool
  | .fin a => decide (a = 0)
  | _ => false

/-- The comparison `a === b` of two Numbers; `NaN` equals nothing. -/
def Double.strictEq : Double → Double → Bool
  | .nan, _ => false
  | _, .nan => false
  | a, b => decide (a = b)

/-- JavaScript truthiness of a Number: `0` and `NaN` are falsy. -/
def Double.truthy : Double → Bool
  | .fin a => decide (a ≠ 0)
  | .inf _ => true
  | .nan => false

namespace Js

/-! ## The handlers over JavaScript values -/

/-- A request value found where a number is expected (`debit`, `credit`): the
JSON body gives a number, a string, `null`, or nothing. (A boolean, an array
or an object in that position is not represented.) -/
inductive NumValue where
  | absent
  | null
  | num (d : Double)
  | str (s : String)
  deriving DecidableEq, Repr

/-- A value held by `debit`, `credit`, `totalDebit` or `totalCredit` in the
handler. -/
inductive Value where
  | null
  | num (d : Double)
  | str (s : String)
  deriving DecidableEq, Repr

/-- The platform of the layer above, with the two conversions between Numbers
and Strings that the language applies on its own: `Number(s)` (`NaN` for a
string that is no numeric literal) and `String(d)`. -/
structure Platform extends Erp.Platform where
  stringToNumber : String → Double
  numberToString : Double → String

/-- A stored line of a Transaction. `none` is a stored `null`. -/
structure Line where
  account : ObjectId
  debit : Option Double
  credit : Option Double
  deriving DecidableEq, Repr

/-- A stored Transaction document. -/
structure Transaction where
  _id : ObjectId
  date : Int
  description : String
  lines : List Line
  createdBy : ObjectId
  deriving DecidableEq, Repr

/-- The two collections the accounting core reads and writes. -/
structure State where
  accounts : List Account
  transactions : List Transaction
  deriving DecidableEq, Repr

/-- The store before any request. -/
def State.empty : State := ⟨[], []⟩

/-- `Account.findById(id)`. -/
def findAccountById (s : State) (id : ObjectId) : Option Account :=
  s.accounts.find? (fun a => a._id == id)

/-- `Transaction.findById(id)`. -/
def findTransactionById (s : State) (id : ObjectId) : Option Transaction :=
  s.transactions.find? (fun t => t._id == id)

/-- A line of the request body. -/
structure LineInput where
  account : IdValue
  debit : NumValue
  credit : NumValue
  deriving DecidableEq, Repr

/-- The request body of `POST /api/transaction`. -/
structure TransactionBody where
  date : DateValue
  description : Option String
  lines : Option (List LineInput)
  deriving DecidableEq, Repr

/-- Responses of the transaction routes. The values carried by `notBalanced`
are the ones interpolated into the message. -/
inductive TxResponse where
  | requiredFields
  | invalidAccountId (linea : Nat)
  | accountNotFound (linea : Nat)
  | lineNotOneSided (linea : Nat)
  | notBalanced (debitos creditos : Value)
  | created (transaccion : Transaction)
  | serverError
  | invalidTransactionId
  | transactionNotFound
  | deleted
  deriving DecidableEq, Repr

/-- The HTTP status each response is sent with. -/
def TxResponse.status : TxResponse → Nat
  | .requiredFields => 400
  | .invalidAccountId _ => 400
  | .accountNotFound _ => 404
  | .lineNotOneSided _ => 400
  | .notBalanced _ _ => 400
  | .created _ => 201
  | .serverError => 500
  | .invalidTransactionId => 400
  | .transactionNotFound => 404
  | .deleted => 200

/-- The value bound by `const { debit = 0 } = line`: the default replaces
`undefined` only. -/
def destructureDefault : NumValue → Value
  | .absent => .num Double.zero
  | .null => .null
  | .num d => .num d
  | .str s => .str s

/-- The conversion ToNumber of the language: `null` is `0`, a string is
parsed. -/
def toNumber (P : Platform) : Value → Double
  | .null => Double.zero
  | .num d => d
  | .str s => P.stringToNumber s

/-- The conversion ToString of the language. -/
def toText (P : Platform) : Value → String
  | .null => "null"
  | .num d => P.numberToString d
  | .str s => s

/-- The comparison `v > 0`, which converts `v` to a Number. -/
def jsGtZero (P : Platform) (v : Value) : Bool :=
  (toNumber P v).gtZero

/-- The comparison `v === 0`, which converts nothing: a string or `null` is
not `0`. -/
def jsStrictEqZero : Value → Bool
  | .num d => d.isZero
  | _ => false

/-- The rejection test of line 35,
`(debit > 0 && credit > 0) || (debit === 0 && credit === 0)`. -/
def lineRejected (P : Platform) (debit credit : Value) : Bool :=
  (jsGtZero P debit && jsGtZero P credit) || (jsStrictEqZero debit && jsStrictEqZero credit)

/-- The operator `+` of `total += v`: string concatenation as soon as one
operand is a string, the sum of the two Numbers otherwise. -/
def jsAdd (P : Platform) : Value → Value → Value
  | .str a, v => .str (a ++ toText P v)
  | v, .str b => .str (toText P v ++ b)
  | a, b => .num ((toNumber P a).add (toNumber P b))

/-- The comparison `a !== b`: values of different types differ, strings are
compared as strings, Numbers as Numbers. -/
def jsStrictNe : Value → Value → Bool
  | .num a, .num b => !(a.strictEq b)
  | .str a, .str b => a != b
  | .null, .null => false
  | _, _ => true

/-- The `for (const [index, line] of lines.entries())` loop of lines 23-43,
started at `index` with the running totals: the first response returned from
inside the loop, or the totals once every line has been visited. -/
def validateLines (P : Platform) (s : State) :
    Nat → Value → Value → List LineInput → Except TxResponse (Value × Value)
  | _, totalDebit, totalCredit, [] => .ok (totalDebit, totalCredit)
  | index, totalDebit, totalCredit, line :: rest =>
    let debit := destructureDefault line.debit
    let credit := destructureDefault line.credit
    match line.account with
    | .oid account =>
      match findAccountById s account with
      | none => .error (.accountNotFound (index + 1))
      | some _ =>
        if lineRejected P debit credit then
          .error (.lineNotOneSided (index + 1))
        else
          validateLines P s (index + 1) (jsAdd P totalDebit debit)
            (jsAdd P totalCredit credit) rest
    | _ => .error (.invalidAccountId (index + 1))

/-- Casting and validation of a `Number` path with `default: 0, min: 0`
(`debit`, `credit`): the default replaces an absent value; `null` is kept and
the empty string is cast to `null`, both passing `min`; any other string is
cast by `Number(s)`; `NaN` fails the cast and a Number that is not `>= 0`
fails `min` (`none`). -/
def castAmount (P : Platform) : NumValue → Option (Option Double)
  | .absent => some (some Double.zero)
  | .null => some none
  | .num d => if d.geZero then some (some d) else none
  | .str s =>
    if s = "" then some none
    else if (P.stringToNumber s).geZero then some (some (P.stringToNumber s)) else none

/-- Casting and validation of one element of `lines`. -/
def castLine (P : Platform) (l : LineInput) : Option Line :=
  match l.account, castAmount P l.debit, castAmount P l.credit with
  | .oid account, some debit, some credit => some ⟨account, debit, credit⟩
  | _, _, _ => none

/-- Casting and validation of the `lines` array; `none` as soon as one element
fails. -/
def castLines (P : Platform) : List LineInput → Option (List Line)
  | [] => some []
  | l :: rest =>
    match castLine P l, castLines P rest with
    | some l', some rest' => some (l' :: rest')
    | _, _ => none

/-- The document built by `new Transaction({...})` at lines 51-56 as
`transaction.save()` validates it; `none` when casting or validation throws. -/
def buildTransaction (P : Platform) (ctx : Ctx) (date : DateValue) (description : String)
    (lines : List LineInput) : Option Transaction :=
  match resolveDate P.toPlatform ctx date, castLines P lines, ctx.userId with
  | some d, some ls, .oid user =>
    if jsTrim description = "" then none
    else some ⟨ctx.newId, d, jsTrim description, ls, user⟩
  | _, _, _ => none

/-- The handler of `router.post('/')`. -/
def recordTransaction (P : Platform) (ctx : Ctx) (s : State) (body : TransactionBody) :
    TxResponse × State :=
  match body.description, body.lines with
  | some description, some lines =>
    if jsTrim description = "" ∨ lines.length < 2 then (.requiredFields, s)
    else
      match validateLines P s 0 (.num Double.zero) (.num Double.zero) lines with
      | .error r => (r, s)
      | .ok (totalDebit, totalCredit) =>
        if jsStrictNe totalDebit totalCredit then (.notBalanced totalDebit totalCredit, s)
        else
          match buildTransaction P ctx body.date description lines with
          | none => (.serverError, s)
          | some transaction =>
            (.created transaction, { s with transactions := s.transactions ++ [transaction] })
  | _, _ => (.requiredFields, s)

/-- The handler of `router.delete('/:id')` of the transaction routes. -/
def deleteTransaction (s : State) (id : IdValue) : TxResponse × State :=
  match id with
  | .oid tid =>
    match findTransactionById s tid with
    | none => (.transactionNotFound, s)
    | some t => (.deleted, { s with transactions := s.transactions.erase t })
  | _ => (.invalidTransactionId, s)

/-- The handler of `router.post('/')` of the account routes, which reads and
writes the Account collection only. -/
def createAccount (P : Platform) (ctx : Ctx) (s : State) (body : AccountBody) :
    AccResponse × State :=
  ((Erp.createAccount P.toPlatform ctx ⟨s.accounts, []⟩ body).1,
    { s with accounts := (Erp.createAccount P.toPlatform ctx ⟨s.accounts, []⟩ body).2.accounts })

/-- The handler of `router.put('/:id')`, which reads and writes the Account
collection only. -/
def updateAccount (P : Platform) (s : State) (id : IdValue) (patch : AccountPatch) :
    AccResponse × State :=
  ((Erp.updateAccount P.toPlatform ⟨s.accounts, []⟩ id patch).1,
    { s with accounts := (Erp.updateAccount P.toPlatform ⟨s.accounts, []⟩ id patch).2.accounts })

/-- The handler of `router.delete('/:id')` of the account routes, which reads
and writes the Account collection only. -/
def deleteAccount (s : State) (id : IdValue) : AccResponse × State :=
  ((Erp.deleteAccount ⟨s.accounts, []⟩ id).1,
    { s with accounts := (Erp.deleteAccount ⟨s.accounts, []⟩ id).2.accounts })

/-- An element of a report array, `{ id, code, name, saldo }`. -/
structure ReportItem where
  id : ObjectId
  code : String
  name : String
  saldo : Double
  deriving DecidableEq, Repr

/-- The object `resultado` of `GET /balance-sheet`. -/
structure BalanceSheet where
  activo : List ReportItem
  pasivo : List ReportItem
  capital : List ReportItem
  totalActivo : Double
  totalPasivo : Double
  totalCapital : Double
  deriving DecidableEq, Repr

/-- The object `resultado` of `GET /income-statement`. -/
structure IncomeStatement where
  ingreso : List ReportItem
  gasto : List ReportItem
  totalIngreso : Double
  totalGasto : Double
  utilidadNeta : Double
  deriving DecidableEq, Repr

/-- The object `saldos`, keyed by `_id.toString()`; `none` is a key the object
does not own. -/
abbrev Saldos := ObjectId → Option Double

/-- The assignment `saldos[k] = v`. -/
def Saldos.set (m : Saldos) (k : ObjectId) (v : Double) : Saldos :=
  fun k' => if k' = k then some v else m k'

/-- The operand `(v || 0)`: `null`, `undefined`, `0` and `NaN` give `0`. -/
def orZero : Option Double → Double
  | some d => if d.truthy then d else Double.zero
  | none => Double.zero

/-- The read `saldos[k] || 0`. -/
def Saldos.getOrZero (m : Saldos) (k : ObjectId) : Double :=
  orZero (m k)

/-- `Account.find({ type: { $in: types } })`. -/
def findAccountsByType (s : State) (types : List AccountType) : List Account :=
  s.accounts.filter (fun a => types.contains a.type)

/-- `cuentas.forEach((c) => { saldos[c._id.toString()] = 0; })` on an empty
object. -/
def initSaldos (cuentas : List Account) : Saldos :=
  cuentas.foldl (fun m c => m.set c._id Double.zero) (fun _ => none)

/-- The body of `t.lines.forEach` in the balance sheet (lines 22-25). The line's
account is the document `populate` put there; `none` when it is `null` and
`l.account._id` throws. -/
def balanceSheetLine (s : State) (saldos : Saldos) (l : Line) : Option Saldos :=
  match findAccountById s l.account with
  | none => none
  | some account =>
    match saldos account._id with
    | some v => some (saldos.set account._id (v.add ((orZero l.debit).sub (orZero l.credit))))
    | none => some saldos

/-- The body of `t.lines.forEach` in the income statement (lines 68-75). -/
def incomeStatementLine (s : State) (saldos : Saldos) (l : Line) : Option Saldos :=
  match findAccountById s l.account with
  | none => none
  | some account =>
    match saldos account._id with
    | some v =>
      let isIngreso := decide (account.type = .ingreso)
      let isGasto := decide (account.type = .gasto)
      let v1 := if isIngreso then v.add ((orZero l.credit).sub (orZero l.debit)) else v
      let v2 := if isGasto then v1.add ((orZero l.debit).sub (orZero l.credit)) else v1
      some (saldos.set account._id v2)
    | none => some saldos

/-- A `forEach` whose body may throw: the fold stops at the first `none`. -/
def foldLines (f : Saldos → Line → Option Saldos) : Saldos → List Line → Option Saldos
  | m, [] => some m
  | m, l :: rest =>
    match f m l with
    | none => none
    | some m' => foldLines f m' rest

/-- `transacciones.forEach((t) => { t.lines.forEach(...) })`. -/
def foldTransactions (f : Saldos → Line → Option Saldos) :
    Saldos → List Transaction → Option Saldos
  | m, [] => some m
  | m, t :: rest =>
    match foldLines f m t.lines with
    | none => none
    | some m' => foldTransactions f m' rest

/-- The item pushed for account `c`. -/
def reportItem (saldos : Saldos) (c : Account) : ReportItem :=
  ⟨c._id, c.code, c.name, saldos.getOrZero c._id⟩

/-- The second `cuentas.forEach` of the balance sheet (lines 38-47):
`resultado[c.type].push(...)` and the matching total; a type the object has no
array for throws. -/
def balanceSheetPush (saldos : Saldos) : BalanceSheet → List Account → Option BalanceSheet
  | r, [] => some r
  | r, c :: rest =>
    match c.type with
    | .activo =>
      balanceSheetPush saldos
        { r with activo := r.activo ++ [reportItem saldos c],
                 totalActivo := r.totalActivo.add (saldos.getOrZero c._id) } rest
    | .pasivo =>
      balanceSheetPush saldos
        { r with pasivo := r.pasivo ++ [reportItem saldos c],
                 totalPasivo := r.totalPasivo.add (saldos.getOrZero c._id) } rest
    | .capital =>
      balanceSheetPush saldos
        { r with capital := r.capital ++ [reportItem saldos c],
                 totalCapital := r.totalCapital.add (saldos.getOrZero c._id) } rest
    | _ => none

/-- The second `cuentas.forEach` of the income statement (lines 87-96). -/
def incomeStatementPush (saldos : Saldos) :
    IncomeStatement → List Account → Option IncomeStatement
  | r, [] => some r
  | r, c :: rest =>
    match c.type with
    | .ingreso =>
      incomeStatementPush saldos
        { r with ingreso := r.ingreso ++ [reportItem saldos c],
                 totalIngreso := r.totalIngreso.add (saldos.getOrZero c._id) } rest
    | .gasto =>
      incomeStatementPush saldos
        { r with gasto := r.gasto ++ [reportItem saldos c],
                 totalGasto := r.totalGasto.add (saldos.getOrZero c._id) } rest
    | _ => none

/-- The `saldos` object of `GET /balance-sheet` after both loops of lines
14-27; `none` when a loop body throws. -/
def balanceSheetSaldos (s : State) : Option Saldos :=
  foldTransactions (balanceSheetLine s)
    (initSaldos (findAccountsByType s balanceSheetTypes)) s.transactions

/-- The `saldos` object of `GET /income-statement` after both loops of lines
61-77. -/
def incomeStatementSaldos (s : State) : Option Saldos :=
  foldTransactions (incomeStatementLine s)
    (initSaldos (findAccountsByType s incomeStatementTypes)) s.transactions

/-- The handler of `router.get('/balance-sheet')`: the object sent with status
200, or `none` for the status 500 of the `catch`. -/
def generateBalanceSheet (s : State) : Option BalanceSheet :=
  match balanceSheetSaldos s with
  | none => none
  | some saldos =>
    balanceSheetPush saldos ⟨[], [], [], Double.zero, Double.zero, Double.zero⟩
      (findAccountsByType s balanceSheetTypes)

/-- The handler of `router.get('/income-statement')`. -/
def generateIncomeStatement (s : State) : Option IncomeStatement :=
  match incomeStatementSaldos s with
  | none => none
  | some saldos =>
    match incomeStatementPush saldos ⟨[], [], Double.zero, Double.zero, Double.zero⟩
        (findAccountsByType s incomeStatementTypes) with
    | none => none
    | some r => some { r with utilidadNeta := r.totalIngreso.sub r.totalGasto }

/-- An `_id` the driver may hand out in state `s`: one no stored document
has. -/
def FreshId (s : State) (id : ObjectId) : Prop :=
  (∀ a ∈ s.accounts, a._id ≠ id) ∧ (∀ t ∈ s.transactions, t._id ≠ id)

/-- One request served by one of the state-changing handlers. -/
inductive Step (P : Platform) : State → State → Prop where
  | createAccount (s : State) (ctx : Ctx) (body : AccountBody) (h : FreshId s ctx.newId) :
      Step P s (Js.createAccount P ctx s body).2
  | updateAccount (s : State) (id : IdValue) (patch : AccountPatch) :
      Step P s (Js.updateAccount P s id patch).2
  | deleteAccount (s : State) (id : IdValue) :
      Step P s (Js.deleteAccount s id).2
  | recordTransaction (s : State) (ctx : Ctx) (body : TransactionBody)
      (h : FreshId s ctx.newId) :
      Step P s (Js.recordTransaction P ctx s body).2
  | deleteTransaction (s : State) (id : IdValue) :
      Step P s (Js.deleteTransaction s id).2

/-- The states the system can be in: the empty store and whatever a sequence
of requests makes of it. -/
inductive Reachable (P : Platform) : State → Prop where
  | empty : Reachable P State.empty
  | step {s s' : State} (hs : Reachable P s) (h : Step P s s') : Reachable P s'

/-- The total `totalDebit` the handler would accumulate over the stored lines:
the Numbers added in line order, a stored `null` adding `0`. -/
def Transaction.totalDebit (t : Transaction) : Double :=
  t.lines.foldl (fun acc l => acc.add (orZero l.debit)) Double.zero

/-- The total `totalCredit` over the stored lines. -/
def Transaction.totalCredit (t : Transaction) : Double :=
  t.lines.foldl (fun acc l => acc.add (orZero l.credit)) Double.zero

/-- A stored transaction is balanced: its two totals are equal Numbers. -/
def Transaction.Balanced (t : Transaction) : Prop :=
  t.totalDebit.strictEq t.totalCredit = true

/-- The balance the balance sheet reports for the account of the given id. -/
def BalanceSheet.balanceOf (r : BalanceSheet) (id : ObjectId) : Option Double :=
  ((r.activo ++ r.pasivo ++ r.capital).find? (fun i => i.id = id)).map (fun i => i.saldo)

/-- The balance the income statement reports for the account of the given
id. -/
def IncomeStatement.balanceOf (r : IncomeStatement) (id : ObjectId) : Option Double :=
  ((r.ingreso ++ r.gasto).find? (fun i => i.id = id)).map (fun i => i.saldo)

end Js

/-! ## Whole-number stores as stores of doubles -/

/-- The stored line with its whole-number amounts as Numbers. -/
def Line.toJs (l : Line) : Js.Line :=
  ⟨l.account, l.debit.map Double.ofInt, l.credit.map Double.ofInt⟩

/-- The stored transaction with its whole-number amounts as Numbers. -/
def Transaction.toJs (t : Transaction) : Js.Transaction :=
  ⟨t._id, t.date, t.description, t.lines.map Line.toJs, t.createdBy⟩

/-- The store with its whole-number amounts as Numbers. -/
def State.toJs (s : State) : Js.State :=
  ⟨s.accounts, s.transactions.map Transaction.toJs⟩

/-- The report item with its whole-number balance as a Number. -/
def ReportItem.toJs (i : ReportItem) : Js.ReportItem :=
  ⟨i.id, i.code, i.name, Double.ofInt i.saldo⟩

/-- The balance sheet with its whole numbers as Numbers. -/
def BalanceSheet.toJs (r : BalanceSheet) : Js.BalanceSheet :=
  ⟨r.activo.map ReportItem.toJs, r.pasivo.map ReportItem.toJs, r.capital.map ReportItem.toJs,
    Double.ofInt r.totalActivo, Double.ofInt r.totalPasivo, Double.ofInt r.totalCapital⟩

/-- The income statement with its whole numbers as Numbers. -/
def IncomeStatement.toJs (r : IncomeStatement) : Js.IncomeStatement :=
  ⟨r.ingreso.map ReportItem.toJs, r.gasto.map ReportItem.toJs,
    Double.ofInt r.totalIngreso, Double.ofInt r.totalGasto, Double.ofInt r.utilidadNeta⟩

/-- The request amount as the JSON body carries it. -/
def NumValue.toJs : NumValue → Js.NumValue
  | .absent => .absent
  | .null => .null
  | .num n => .num (Double.ofInt n)

/-- The request line as the JSON body carries it. -/
def LineInput.toJs (l : LineInput) : Js.LineInput :=
  ⟨l.account, l.debit.toJs, l.credit.toJs⟩

/-- The request body as the JSON body carries it. -/
def TransactionBody.toJs (b : TransactionBody) : Js.TransactionBody :=
  ⟨b.date, b.description, b.lines.map (fun ls => ls.map LineInput.toJs)⟩

/-- The response with its whole numbers as Numbers. -/
def TxResponse.toJs : TxResponse → Js.TxResponse
  | .requiredFields => .requiredFields
  | .invalidAccountId n => .invalidAccountId n
  | .accountNotFound n => .accountNotFound n
  | .lineNotOneSided n => .lineNotOneSided n
  | .notBalanced d c => .notBalanced (.num (Double.ofInt d)) (.num (Double.ofInt c))
  | .created t => .created t.toJs
  | .serverError => .serverError
  | .invalidTransactionId => .invalidTransactionId
  | .transactionNotFound => .transactionNotFound
  | .deleted => .deleted

/-- The sum of the absolute values of the two amounts of a stored line. -/
def Line.weight (l : Line) : Nat :=
  (orZero l.debit).natAbs + (orZero l.credit).natAbs

/-- The sum of the absolute values of all stored amounts. -/
def weight (txs : List Transaction) : Nat :=
  ((allLines txs).map Line.weight).sum

/-- The sum of the absolute values of the amounts of a request. -/
def requestWeight (lines : List LineInput) : Nat :=
  (lines.map (fun l => (jsToNumber (destructureDefault l.debit)).natAbs +
    (jsToNumber (destructureDefault l.credit)).natAbs)).sum

/-! ## Sample data of the layer of doubles -/

/-- Decimal digits of a natural number literal; `none` for any other
string. -/
def parseDigits : List Char → Option Nat
  | [] => none
  | cs => cs.foldl (fun acc c =>
      match acc with
      | none => none
      | some n => if c.isDigit then some (10 * n + (c.toNat - 48)) else none) (some 0)

/-- The decimal digits of `n`, most significant first, in front of `acc`. -/
def writeDigitsAux : Nat → Nat → List Char → List Char
  | 0, _, acc => acc
  | fuel + 1, n, acc =>
    if n < 10 then "0123456789".data.getD n '0' :: acc
    else writeDigitsAux fuel (n / 10) ("0123456789".data.getD (n % 10) '0' :: acc)

/-- A platform for the examples: `Number(s)` reads strings of decimal digits
and gives `NaN` for every other string; `String(d)` writes the whole numbers
from 0 to `10 ^ 21 - 1` and gives `?` for every other Number. -/
def jsDemoPlatform : Js.Platform :=
  { toPlatform := demoPlatform,
    stringToNumber := fun s =>
      match parseDigits s.data with
      | some n => Double.ofInt n
      | none => .nan,
    numberToString := fun d =>
      match d with
      | .fin n =>
        if 0 ≤ n ∧ n % (pow2 1074 : Nat) = 0 ∧ n / (pow2 1074 : Nat) < 1000000000000000000000 then
          String.mk (writeDigitsAux 21 (n / (pow2 1074 : Nat)).toNat [])
        else "?"
      | _ => "?" }

/-- A request whose amounts are strings: `"5"` debited to `cash`, `"50"`
credited to `equity`. -/
def stringBody : Js.TransactionBody :=
  ⟨.absent, some "sale", some [⟨.oid 1, .str "5", .absent⟩, ⟨.oid 2, .absent, .str "50"⟩]⟩

/-- The document `stringBody` is stored as: 5 against 50. -/
def stringTransaction : Js.Transaction :=
  ⟨10, 5, "sale",
    [⟨1, some (Double.ofInt 5), some Double.zero⟩, ⟨2, some Double.zero, some (Double.ofInt 50)⟩], 77⟩

/-- The `saldos` object with its whole-number balances as Numbers. -/
def Saldos.toJs (m : Saldos) : Js.Saldos := fun k => (m k).map Double.ofInt

/-- What the lines `ls` posting to account `a` add to its balance when the
report loop visits them in order starting from `0`, under the sign rule of the
type of `a`. -/
def Js.contribution (a : Account) (ls : List Js.Line) : Double :=
  (ls.filter (fun l => l.account = a._id)).foldl
    (fun acc l =>
      acc.add
        (match a.type with
        | .ingreso => (Js.orZero l.credit).sub (Js.orZero l.debit)
        | _ => (Js.orZero l.debit).sub (Js.orZero l.credit)))
    Double.zero

/-- A request that debits the decimal `p / q` to `cash` and credits it to
`equity`. -/
def decimalBody (description : String) (p q : Nat) : Js.TransactionBody :=
  ⟨.absent, some description,
    some [⟨.oid 1, .num (Double.nearest p q), .absent⟩,
      ⟨.oid 2, .absent, .num (Double.nearest p q)⟩]⟩

/-- The document `decimalBody` is stored as. -/
def decimalTransaction (id : ObjectId) (date : Int) (description : String) (p q : Nat) :
    Js.Transaction :=
  ⟨id, date, description,
    [⟨1, some (Double.nearest p q), some Double.zero⟩,
      ⟨2, some Double.zero, some (Double.nearest p q)⟩], 77⟩

/-- A request with two debits to `cash`, of 0.2 and of 0.3, and one credit of
0.5 to `equity`. -/
def splitBody : Js.TransactionBody :=
  ⟨.absent, some "split",
    some [⟨.oid 1, .num (Double.nearest 2 10), .absent⟩,
      ⟨.oid 1, .num (Double.nearest 3 10), .absent⟩,
      ⟨.oid 2, .absent, .num (Double.nearest 5 10)⟩]⟩

/-- The document `splitBody` is stored as. -/
def splitTransaction : Js.Transaction :=
  ⟨11, 6, "split",
    [⟨1, some (Double.nearest 2 10), some Double.zero⟩,
      ⟨1, some (Double.nearest 3 10), some Double.zero⟩,
      ⟨2, some Double.zero, some (Double.nearest 5 10)⟩], 77⟩

/-- A request with two debits to `cash`, of `2 ^ 53` and of 1, and one credit
of `2 ^ 53` to `equity`. -/
def roundedBody : Js.TransactionBody :=
  ⟨.absent, some "large",
    some [⟨.oid 1, .num (Double.ofInt 9007199254740992), .absent⟩,
      ⟨.oid 1, .num (Double.ofInt 1), .absent⟩,
      ⟨.oid 2, .absent, .num (Double.ofInt 9007199254740992)⟩]⟩

/-- The document `roundedBody` is stored as. -/
def roundedTransaction : Js.Transaction :=
  ⟨10, 5, "large",
    [⟨1, some (Double.ofInt 9007199254740992), some Double.zero⟩,
      ⟨1, some (Double.ofInt 1), some Double.zero⟩,
      ⟨2, some Double.zero, some (Double.ofInt 9007199254740992)⟩], 77⟩

/-! ## Lemmas on `recordTransaction` -/

theorem castAmount_eq {v : NumValue} {x : Option Int} (h : castAmount v = some x) :
    x = destructureDefault v ∧ ∀ n, x = some n → 0 ≤ n := by
  cases v with
  | absent =>
    simp only [castAmount, Option.some.injEq] at h
    subst h
    exact ⟨rfl, fun n hn => by cases hn; exact le_refl _⟩
  | null =>
    simp only [castAmount, Option.some.injEq] at h
    subst h
    exact ⟨rfl, fun n hn => by cases hn⟩
  | num n =>
    simp only [castAmount] at h
    split at h
    · rename_i hn
      simp only [Option.some.injEq] at h
      subst h
      exact ⟨rfl, fun m hm => by cases hm; exact hn⟩
    · cases h

theorem castLine_eq {l : LineInput} {l' : Line} (h : castLine l = some l') :
    StoredAs l l' ∧ (∀ n, l'.debit = some n → 0 ≤ n) ∧ (∀ n, l'.credit = some n → 0 ≤ n) := by
  unfold castLine at h
  split at h
  · rename_i account debit credit hacc hd hc
    simp only [Option.some.injEq] at h
    subst h
    obtain ⟨hd1, hd2⟩ := castAmount_eq hd
    obtain ⟨hc1, hc2⟩ := castAmount_eq hc
    exact ⟨⟨hacc, hd1, hc1⟩, hd2, hc2⟩
  · cases h

theorem castLines_forall₂ : ∀ {ls : List LineInput} {ls' : List Line},
    castLines ls = some ls' →
    List.Forall₂ (fun l l' => StoredAs l l' ∧ (∀ n, l'.debit = some n → 0 ≤ n) ∧
      (∀ n, l'.credit = some n → 0 ≤ n)) ls ls'
  | [], ls', h => by
    simp only [castLines, Option.some.injEq] at h
    subst h
    exact List.Forall₂.nil
  | l :: rest, ls', h => by
    unfold castLines at h
    split at h
    · rename_i l' rest' hl hrest
      simp only [Option.some.injEq] at h
      subst h
      exact List.Forall₂.cons (castLine_eq hl) (castLines_forall₂ hrest)
    · cases h

theorem orZero_eq_jsToNumber (x : Option Int) : orZero x = jsToNumber x := by
  cases x <;> rfl

theorem castLines_totals {ls : List LineInput} {ls' : List Line} (h : castLines ls = some ls') :
    (ls'.map (fun l => orZero l.debit)).sum = requestDebit ls ∧
      (ls'.map (fun l => orZero l.credit)).sum = requestCredit ls := by
  have h2 := castLines_forall₂ h
  clear h
  induction h2 with
  | nil => exact ⟨rfl, rfl⟩
  | cons hl _ ih =>
    obtain ⟨⟨_, hd, hc⟩, _, _⟩ := hl
    simp only [requestDebit, requestCredit, List.map_cons, List.sum_cons] at ih ⊢
    rw [ih.1, ih.2, hd, hc, orZero_eq_jsToNumber, orZero_eq_jsToNumber]
    exact ⟨rfl, rfl⟩

theorem validateLines_ok (s : State) : ∀ (ls : List LineInput) (i : Nat) (d c d' c' : Int),
    validateLines s i d c ls = .ok (d', c') →
    d' = d + requestDebit ls ∧ c' = c + requestCredit ls ∧ ∀ l ∈ ls, LinePasses s l
  | [], i, d, c, d', c', h => by
    simp only [validateLines, Except.ok.injEq, Prod.mk.injEq] at h
    simp [requestDebit, requestCredit, h.1, h.2]
  | l :: rest, i, d, c, d', c', h => by
    unfold validateLines at h
    simp only at h
    split at h
    · rename_i account hacc
      split at h
      · cases h
      · rename_i a hfind
        split at h
        · cases h
        · rename_i hrej
          obtain ⟨h1, h2, h3⟩ := validateLines_ok s rest _ _ _ _ _ h
          refine ⟨?_, ?_, ?_⟩
          · rw [h1]; simp only [requestDebit, List.map_cons, List.sum_cons]; ring
          · rw [h2]; simp only [requestCredit, List.map_cons, List.sum_cons]; ring
          · intro x hx
            rcases List.mem_cons.1 hx with rfl | hx
            · exact ⟨⟨account, hacc, by rw [hfind]; rfl⟩, by simpa using hrej⟩
            · exact h3 x hx
    · cases h

/-- A response from inside the loop is one of its three. -/
theorem validateLines_error_kind (s : State) :
    ∀ (ls : List LineInput) (i : Nat) (d c : Int) (r : TxResponse),
    validateLines s i d c ls = .error r →
    ∃ k, r = .invalidAccountId k ∨ r = .accountNotFound k ∨ r = .lineNotOneSided k
  | [], i, d, c, r, h => by cases h
  | l :: rest, i, d, c, r, h => by
    unfold validateLines at h
    simp only at h
    split at h
    · split at h
      · cases h; exact ⟨_, Or.inr (Or.inl rfl)⟩
      · split at h
        · cases h; exact ⟨_, Or.inr (Or.inr rfl)⟩
        · exact validateLines_error_kind s rest _ _ _ r h
    · cases h; exact ⟨_, Or.inl rfl⟩

theorem validateLines_error_ne_created (s : State) (ls : List LineInput) (i : Nat) (d c : Int)
    (r : TxResponse) (h : validateLines s i d c ls = .error r) : ∀ t, r ≠ .created t := by
  obtain ⟨k, hk | hk | hk⟩ := validateLines_error_kind s ls i d c r h <;>
    (subst hk; intro t ht; cases ht)

/-- Lines that pass both checks only move the index and the totals. -/
theorem validateLines_append (s : State) :
    ∀ (pre rest : List LineInput) (i : Nat) (d c : Int),
    (∀ x ∈ pre, LinePasses s x) →
    validateLines s i d c (pre ++ rest) =
      validateLines s (i + pre.length) (d + requestDebit pre) (c + requestCredit pre) rest
  | [], rest, i, d, c, _ => by
    simp [requestDebit, requestCredit]
  | l :: pre, rest, i, d, c, h => by
    obtain ⟨⟨a, ha, hfind⟩, hrej⟩ := h l (List.mem_cons_self _ _)
    have ih := validateLines_append s pre rest (i + 1)
      (d + jsToNumber (destructureDefault l.debit))
      (c + jsToNumber (destructureDefault l.credit))
      (fun x hx => h x (List.mem_cons_of_mem _ hx))
    obtain ⟨acc, hacc⟩ := Option.isSome_iff_exists.1 hfind
    rw [List.cons_append, validateLines]
    simp only [ha, hacc, hrej, Bool.false_eq_true, if_false]
    rw [ih]
    simp only [requestDebit, requestCredit, List.map_cons, List.sum_cons, List.length_cons]
    congr 1
    · omega
    · ring
    · ring

theorem validateLines_all_pass (s : State) (ls : List LineInput)
    (h : ∀ x ∈ ls, LinePasses s x) :
    validateLines s 0 0 0 ls = .ok (requestDebit ls, requestCredit ls) := by
  have := validateLines_append s ls [] 0 0 0 h
  simpa [validateLines] using this

/-- Every run of the handler either leaves the store as it was and answers
with something other than `created`, or passed every check and appended the
one document it built. -/
theorem recordTransaction_cases (P : Platform) (ctx : Ctx) (s : State) (body : TransactionBody) :
    ((recordTransaction P ctx s body).2 = s ∧
        ∀ t, (recordTransaction P ctx s body).1 ≠ .created t) ∨
      ∃ description lines t,
        body.description = some description ∧ body.lines = some lines ∧
        jsTrim description ≠ "" ∧ 2 ≤ lines.length ∧
        validateLines s 0 0 0 lines = .ok (requestDebit lines, requestCredit lines) ∧
        requestDebit lines = requestCredit lines ∧
        buildTransaction P ctx body.date description lines = some t ∧
        recordTransaction P ctx s body =
          (.created t, { s with transactions := s.transactions ++ [t] }) := by
  unfold recordTransaction
  split
  · rename_i description lines hd hl
    split
    · exact Or.inl ⟨rfl, fun t h => by cases h⟩
    · rename_i hpre
      split
      · rename_i r hv
        exact Or.inl ⟨rfl, validateLines_error_ne_created s lines 0 0 0 r hv⟩
      · rename_i totalDebit totalCredit hv
        obtain ⟨h1, h2, _⟩ := validateLines_ok s lines 0 0 0 _ _ hv
        simp only [zero_add] at h1 h2
        subst h1 h2
        split
        · exact Or.inl ⟨rfl, fun t h => by cases h⟩
        · rename_i hbal
          split
          · exact Or.inl ⟨rfl, fun t h => by cases h⟩
          · rename_i t hb
            right
            refine ⟨description, lines, t, hd, hl, ?_, ?_, hv, ?_, hb, rfl⟩
            · exact fun h => hpre (Or.inl h)
            · have : ¬ lines.length < 2 := fun h => hpre (Or.inr h)
              omega
            · exact not_not.1 hbal
  · exact Or.inl ⟨rfl, fun t h => by cases h⟩

theorem buildTransaction_eq {P : Platform} {ctx : Ctx} {date : DateValue} {description : String}
    {lines : List LineInput} {t : Transaction}
    (h : buildTransaction P ctx date description lines = some t) :
    ∃ d ls user, resolveDate P ctx date = some d ∧ castLines lines = some ls ∧
      ctx.userId = .oid user ∧ t = ⟨ctx.newId, d, jsTrim description, ls, user⟩ := by
  unfold buildTransaction at h
  split at h
  · rename_i d ls user hd hls hu
    split at h
    · cases h
    · simp only [Option.some.injEq] at h
      exact ⟨d, ls, user, hd, hls, hu, h.symm⟩
  · cases h

theorem createAccount_transactions (P : Platform) (ctx : Ctx) (s : State) (body : AccountBody) :
    (createAccount P ctx s body).2.transactions = s.transactions := by
  unfold createAccount saveAccount
  repeat' split
  all_goals rfl

theorem updateAccount_transactions (P : Platform) (s : State) (id : IdValue)
    (patch : AccountPatch) :
    (updateAccount P s id patch).2.transactions = s.transactions := by
  unfold updateAccount
  repeat' split
  all_goals rfl

theorem deleteAccount_transactions (s : State) (id : IdValue) :
    (deleteAccount s id).2.transactions = s.transactions := by
  unfold deleteAccount
  repeat' split
  all_goals rfl

theorem deleteTransaction_transactions_subset (s : State) (id : IdValue) :
    ∀ t ∈ (deleteTransaction s id).2.transactions, t ∈ s.transactions := by
  unfold deleteTransaction
  repeat' split
  all_goals intro t ht
  all_goals first
    | exact ht
    | exact List.mem_of_mem_erase ht

theorem recordTransaction_created_balanced {P : Platform} {ctx : Ctx} {s : State}
    {body : TransactionBody} {t : Transaction}
    (h : (recordTransaction P ctx s body).1 = .created t) : t.Balanced := by
  rcases recordTransaction_cases P ctx s body with ⟨_, hne⟩ | ⟨d, ls, t', _, _, _, _, _, hbal, hb, heq⟩
  · exact absurd h (hne t)
  · rw [heq] at h
    simp only [TxResponse.created.injEq] at h
    subst h
    obtain ⟨dt, ls', user, _, hls, _, rfl⟩ := buildTransaction_eq hb
    obtain ⟨h1, h2⟩ := castLines_totals hls
    unfold Transaction.Balanced Transaction.totalDebit Transaction.totalCredit
    simp only
    rw [h1, h2, hbal]

theorem recordTransaction_transactions (P : Platform) (ctx : Ctx) (s : State)
    (body : TransactionBody) :
    ∀ t ∈ (recordTransaction P ctx s body).2.transactions,
      t ∈ s.transactions ∨ (recordTransaction P ctx s body).1 = .created t := by
  intro t ht
  rcases recordTransaction_cases P ctx s body with ⟨hs, _⟩ | ⟨d, ls, t', _, _, _, _, _, _, _, heq⟩
  · rw [hs] at ht; exact Or.inl ht
  · rw [heq] at ht ⊢
    simp only [List.mem_append, List.mem_singleton] at ht
    rcases ht with ht | rfl
    · exact Or.inl ht
    · exact Or.inr rfl

theorem lineRejected_of_bothOrNeither {l : LineInput} (h : BothOrNeither l) :
    lineRejected (destructureDefault l.debit) (destructureDefault l.credit) = true := by
  rcases h with ⟨a, b, hd, hc, ha, hb⟩ | ⟨hd, hc⟩
  · simp [hd, hc, lineRejected, destructureDefault, jsGtZero, ha, hb]
  · rcases hd with hd | hd <;> rcases hc with hc | hc <;>
      simp [hd, hc, lineRejected, destructureDefault, jsStrictEqZero, jsGtZero]

theorem forall₂_exists_left {α β : Type} {R : α → β → Prop} {l₁ : List α} {l₂ : List β}
    (h : List.Forall₂ R l₁ l₂) : ∀ y ∈ l₂, ∃ x ∈ l₁, R x y := by
  induction h with
  | nil => intro y hy; cases hy
  | cons hxy _ ih =>
    intro y hy
    rcases List.mem_cons.1 hy with rfl | hy
    · exact ⟨_, List.mem_cons_self _ _, hxy⟩
    · obtain ⟨x, hx, hr⟩ := ih y hy
      exact ⟨x, List.mem_cons_of_mem _ hx, hr⟩

/-- What the loop answers at the first line that fails a check, the lines
before it passing: the account checks come before the debit/credit check and
the number in the answer is the position of the line, counted from 1. -/
theorem validateLines_first_failure (s : State) (pre post : List LineInput) (l : LineInput)
    (hpre : ∀ x ∈ pre, LinePasses s x) :
    ((∀ id, l.account ≠ .oid id) →
        validateLines s 0 0 0 (pre ++ l :: post) = .error (.invalidAccountId (pre.length + 1))) ∧
      (∀ id, l.account = .oid id → findAccountById s id = none →
        validateLines s 0 0 0 (pre ++ l :: post) = .error (.accountNotFound (pre.length + 1))) ∧
      (AccountResolves s l →
        lineRejected (destructureDefault l.debit) (destructureDefault l.credit) = true →
        validateLines s 0 0 0 (pre ++ l :: post) = .error (.lineNotOneSided (pre.length + 1))) := by
  rw [validateLines_append s pre (l :: post) 0 0 0 hpre]
  simp only [zero_add]
  refine ⟨fun h => ?_, fun id hid hfind => ?_, fun hres hrej => ?_⟩
  · unfold validateLines
    simp only
  · unfold validateLines
    simp only [hid, hfind]
  · obtain ⟨id, hid, hsome⟩ := hres
    obtain ⟨acc, hacc⟩ := Option.isSome_iff_exists.1 hsome
    unfold validateLines
    simp only [hid, hacc, hrej, if_true]

/-- Past the description/length check, an answer from inside the loop is the
answer of the request and the store is left as it was. -/
theorem recordTransaction_of_loop_error (P : Platform) (ctx : Ctx) (s : State)
    (body : TransactionBody) (description : String) (lines : List LineInput) (r : TxResponse)
    (hd : body.description = some description) (hl : body.lines = some lines)
    (hne : jsTrim description ≠ "") (hlen : 2 ≤ lines.length)
    (hv : validateLines s 0 0 0 lines = .error r) :
    recordTransaction P ctx s body = (r, s) := by
  unfold recordTransaction
  rw [hd, hl]
  simp only
  have : ¬ (jsTrim description = "" ∨ lines.length < 2) := by
    rintro (h | h)
    · exact hne h
    · omega
  rw [if_neg this, hv]

/-! ## The claims -/

/-- In the layer of whole numbers, where every amount of a request is a whole
number, `null` or absent and sums are exact, every stored Transaction of a
reachable state is balanced (total debit equals total credit, a stored null
counting as 0), and from such a state `recordTransaction` persists only a
balanced transaction. -/
theorem reachable_balanced (P : Platform) (s : State) (h : Reachable P s) :
    (∀ t ∈ s.transactions, t.Balanced) ∧
      ∀ (ctx : Ctx) (body : TransactionBody),
        ∀ t ∈ (recordTransaction P ctx s body).2.transactions, t.Balanced := by
  have inv : ∀ t ∈ s.transactions, t.Balanced := by
    induction h with
    | empty => intro t ht; cases ht
    | step _ hstep ih =>
      cases hstep with
      | createAccount ctx body _ => rw [createAccount_transactions]; exact ih
      | updateAccount id patch => rw [updateAccount_transactions]; exact ih
      | deleteAccount id => rw [deleteAccount_transactions]; exact ih
      | recordTransaction ctx body _ =>
        intro t ht
        rcases recordTransaction_transactions P ctx _ body t ht with h1 | h1
        · exact ih t h1
        · exact recordTransaction_created_balanced h1
      | deleteTransaction id =>
        intro t ht
        exact ih t (deleteTransaction_transactions_subset _ id t ht)
  refine ⟨inv, fun ctx body t ht => ?_⟩
  rcases recordTransaction_transactions P ctx s body t ht with h1 | h1
  · exact inv t h1
  · exact recordTransaction_created_balanced h1

theorem demoState_reachable : Reachable demoPlatform demoState :=
  Reachable.step
    (Reachable.step Reachable.empty
      (Step.createAccount State.empty ⟨0, 1, .oid 77⟩ cashBody
        (by unfold FreshId; decide)))
    (Step.createAccount ⟨[cash], []⟩ ⟨0, 2, .oid 77⟩ equityBody (by unfold FreshId; decide))

theorem demoState_opening_reachable :
    Reachable demoPlatform ⟨[cash, equity], [openingTransaction]⟩ :=
  Reachable.step demoState_reachable
    (Step.recordTransaction demoState demoCtx openingBody (by unfold FreshId; decide))

/-- C2, as stated, fails twice. A request whose lines pair a `0` with a `null`
is accepted and stored with a line that has no strictly positive side; and a
request containing the line `{debit:100, credit:50}` on an unknown account is
answered 404, not 400. -/
theorem C2_counterexample :
    (recordTransaction demoPlatform demoCtx demoState nullSidedBody =
        (.created nullSidedTransaction, ⟨[cash, equity], [nullSidedTransaction]⟩) ∧
      (⟨1, some 0, none⟩ : Line) ∈ nullSidedTransaction.lines ∧
      ¬ (⟨1, some 0, none⟩ : Line).OneSided) ∧
    ((⟨.oid 3, .num 100, .num 50⟩ : LineInput) ∈ [(⟨.oid 3, .num 100, .num 50⟩ : LineInput),
        ⟨.oid 2, .num 0, .num 50⟩] ∧
      recordTransaction demoPlatform demoCtx demoState bothSidedUnknownBody =
        (.accountNotFound 1, demoState) ∧
      (recordTransaction demoPlatform demoCtx demoState bothSidedUnknownBody).1.status = 404) := by
  refine ⟨⟨by decide, by decide, ?_⟩, by decide, by decide, by decide⟩
  rintro (⟨d, hd, hpos, _⟩ | ⟨c, hc, _, _⟩)
  · simp only [Option.some.injEq] at hd
    omega
  · cases hc

/-- C2, amended: when no line of the request gives `null` to debit or credit,
every line of an accepted and persisted transaction has exactly one of
debit/credit strictly positive and the other exactly zero, whatever numbers
(positive, zero, negative) or absences the request holds; a request containing
a line with both sides positive or both zero, such as `{debit:100, credit:50}`
or `{debit:0, credit:0}`, is never accepted and leaves the store as it was; and
it is answered 400 for that line when the description/length check passes,
the lines before it pass their checks and its account exists. -/
theorem C2_accepted_lines_one_sided (P : Platform) (ctx : Ctx) (s : State)
    (body : TransactionBody) (lines : List LineInput) (hl : body.lines = some lines) :
    ((∀ l ∈ lines, l.debit ≠ .null ∧ l.credit ≠ .null) →
        ∀ t, (recordTransaction P ctx s body).1 = .created t → ∀ l' ∈ t.lines, l'.OneSided) ∧
      ((∃ l ∈ lines, BothOrNeither l) →
        (∀ t, (recordTransaction P ctx s body).1 ≠ .created t) ∧
          (recordTransaction P ctx s body).2 = s) ∧
      (∀ description pre l post, body.description = some description →
        jsTrim description ≠ "" → 2 ≤ lines.length → lines = pre ++ l :: post →
        (∀ x ∈ pre, LinePasses s x) → AccountResolves s l → BothOrNeither l →
        recordTransaction P ctx s body = (.lineNotOneSided (pre.length + 1), s) ∧
          (recordTransaction P ctx s body).1.status = 400) := by
  refine ⟨fun hnull t ht l' hl' => ?_, fun ⟨l, hmem, hbn⟩ => ?_, ?_⟩
  · rcases recordTransaction_cases P ctx s body with
      ⟨_, hne⟩ | ⟨d, ls, t', _, hls, _, _, hv, _, hb, heq⟩
    · exact absurd ht (hne t)
    · rw [heq] at ht
      simp only [TxResponse.created.injEq] at ht
      subst ht
      rw [hl] at hls
      simp only [Option.some.injEq] at hls
      subst hls
      obtain ⟨dt, ls', user, _, hcast, _, rfl⟩ := buildTransaction_eq hb
      obtain ⟨l, hmem, ⟨_, hd, hc⟩, hdn, hcn⟩ :=
        forall₂_exists_left (castLines_forall₂ hcast) l' hl'
      obtain ⟨_, _, hpass⟩ := validateLines_ok s lines 0 0 0 _ _ hv
      obtain ⟨_, hrej⟩ := hpass l hmem
      obtain ⟨hnd, hnc⟩ := hnull l hmem
      rw [← hd, ← hc] at hrej
      have hd' : ∃ a, l'.debit = some a := by
        rw [hd]; cases hx : l.debit with
        | absent => exact ⟨0, rfl⟩
        | null => exact absurd hx hnd
        | num n => exact ⟨n, rfl⟩
      have hc' : ∃ b, l'.credit = some b := by
        rw [hc]; cases hx : l.credit with
        | absent => exact ⟨0, rfl⟩
        | null => exact absurd hx hnc
        | num n => exact ⟨n, rfl⟩
      obtain ⟨a, ha⟩ := hd'
      obtain ⟨b, hb'⟩ := hc'
      have ha0 := hdn a ha
      have hb0 := hcn b hb'
      rw [ha, hb'] at hrej
      simp only [lineRejected, jsGtZero, jsStrictEqZero, Bool.or_eq_false_iff,
        Bool.and_eq_false_iff, decide_eq_false_iff_not] at hrej
      obtain ⟨h1, h2⟩ := hrej
      unfold Line.OneSided
      rw [ha, hb']
      by_cases hapos : 0 < a
      · left
        refine ⟨a, rfl, hapos, ?_⟩
        have : ¬ 0 < b := by rcases h1 with h | h; exact absurd hapos h; exact h
        have : b = 0 := by omega
        rw [this]
      · right
        have ha' : a = 0 := by omega
        have : ¬ b = 0 := by rcases h2 with h | h; exact absurd ha' h; exact h
        refine ⟨b, rfl, by omega, by rw [ha']⟩
  · have hrej := lineRejected_of_bothOrNeither hbn
    rcases recordTransaction_cases P ctx s body with
      ⟨hs, hne⟩ | ⟨d, ls, t', _, hls, _, _, hv, _, _, _⟩
    · exact ⟨hne, hs⟩
    · rw [hl] at hls
      simp only [Option.some.injEq] at hls
      subst hls
      obtain ⟨_, _, hpass⟩ := validateLines_ok s lines 0 0 0 _ _ hv
      have := (hpass l hmem).2
      rw [hrej] at this
      cases this
  · intro description pre l post hd hne hlen hsplit hpre hres hbn
    have hv := (validateLines_first_failure s pre post l hpre).2.2 hres
      (lineRejected_of_bothOrNeither hbn)
    rw [← hsplit] at hv
    have := recordTransaction_of_loop_error P ctx s body description lines _ hd hl hne hlen hv
    rw [this]
    exact ⟨rfl, rfl⟩

/-- The second part of C2 amended where the offending line is the second of
two, and its first part on the opening entry. -/
theorem C2_accepted_lines_one_sided_witness :
    (∀ l' ∈ openingTransaction.lines, l'.OneSided) ∧
      recordTransaction demoPlatform demoCtx demoState bothSidedBody =
        (.lineNotOneSided 2, demoState) :=
  ⟨(C2_accepted_lines_one_sided demoPlatform demoCtx demoState openingBody
      [⟨.oid 1, .num 1000, .num 0⟩, ⟨.oid 2, .num 0, .num 1000⟩] rfl).1
      (by decide) openingTransaction (by decide),
    ((C2_accepted_lines_one_sided demoPlatform demoCtx demoState bothSidedBody
      [⟨.oid 1, .num 50, .absent⟩, ⟨.oid 2, .num 100, .num 50⟩] rfl).2.2
      "sale" [⟨.oid 1, .num 50, .absent⟩] ⟨.oid 2, .num 100, .num 50⟩ [] rfl (by decide)
      (by decide) rfl
      (fun x hx => by
        rw [List.mem_singleton.1 hx]
        exact ⟨⟨1, rfl, rfl⟩, rfl⟩)
      ⟨2, rfl, rfl⟩
      (Or.inl ⟨100, 50, rfl, rfl, by decide, by decide⟩)).1⟩

theorem jsTrim_eq_empty_of_all_whiteSpace (d : String)
    (h : d.data.all isJsWhiteSpace = true) : jsTrim d = "" := by
  have h1 : d.data.dropWhile isJsWhiteSpace = [] :=
    List.dropWhile_eq_nil_iff.2 (fun x hx => List.all_eq_true.1 h x hx)
  unfold jsTrim
  rw [h1]
  rfl

/-- C3: when the description is missing, empty or made of white space only, or
`lines` is not an array, or `lines` has fewer than 2 elements, the answer is the
400 asking for a description and two lines, whatever the lines hold and
whatever the store holds, and the store is left as it was. -/
theorem C3_required_fields (P : Platform) (ctx : Ctx) (s : State) (body : TransactionBody)
    (h : body.description = none ∨
      (∃ d, body.description = some d ∧ d.data.all isJsWhiteSpace = true) ∨
      body.lines = none ∨ (∃ ls, body.lines = some ls ∧ ls.length < 2)) :
    recordTransaction P ctx s body = (.requiredFields, s) ∧
      (recordTransaction P ctx s body).1.status = 400 := by
  have key : recordTransaction P ctx s body = (.requiredFields, s) := by
    unfold recordTransaction
    rcases h with h | ⟨d, hd, hw⟩ | h | ⟨ls, hls, hlen⟩
    · rw [h]
    · rw [hd]
      cases hl : body.lines with
      | none => rfl
      | some ls =>
        simp only
        rw [if_pos (Or.inl (jsTrim_eq_empty_of_all_whiteSpace d hw))]
    · rw [h]
      cases body.description <;> rfl
    · rw [hls]
      cases hd : body.description with
      | none => rfl
      | some d =>
        simp only
        rw [if_pos (Or.inr hlen)]
  rw [key]
  exact ⟨rfl, rfl⟩

/-- C3 on a blank description with one line whose account is unknown and whose
sides are both positive: neither is looked at. -/
theorem C3_required_fields_witness :
    recordTransaction demoPlatform demoCtx demoState blankBody = (.requiredFields, demoState) ∧
      (recordTransaction demoPlatform demoCtx demoState blankBody).1.status = 400 :=
  C3_required_fields demoPlatform demoCtx demoState blankBody
    (Or.inr (Or.inl ⟨" \t\n", rfl, by decide⟩))

/-- C4: past the description/length check the answer is that of the first line,
in list order, that fails a check, with the position of that line counted from
1 and the store left as it was. Within the line the account is decided first:
an id that is not well formed gives 400 and an unknown account gives 404,
whatever its debit and credit are; a line whose account exists and whose
debit/credit are both positive or both zero gives 400. The imbalance answer is
given only when every line passes both checks. -/
theorem C4_fail_fast_order (P : Platform) (ctx : Ctx) (s : State) (body : TransactionBody)
    (description : String) (lines : List LineInput)
    (hd : body.description = some description) (hl : body.lines = some lines)
    (hne : jsTrim description ≠ "") (hlen : 2 ≤ lines.length) :
    (∀ pre l post, lines = pre ++ l :: post → (∀ x ∈ pre, LinePasses s x) →
      ((∀ id, l.account ≠ .oid id) →
        recordTransaction P ctx s body = (.invalidAccountId (pre.length + 1), s)) ∧
      (∀ id, l.account = .oid id → findAccountById s id = none →
        recordTransaction P ctx s body = (.accountNotFound (pre.length + 1), s) ∧
          (recordTransaction P ctx s body).1.status = 404) ∧
      (AccountResolves s l →
        lineRejected (destructureDefault l.debit) (destructureDefault l.credit) = true →
        recordTransaction P ctx s body = (.lineNotOneSided (pre.length + 1), s) ∧
          (recordTransaction P ctx s body).1.status = 400)) ∧
    (∀ a b, (recordTransaction P ctx s body).1 = .notBalanced a b →
      ∀ l ∈ lines, LinePasses s l) := by
  refine ⟨fun pre l post hsplit hpre => ?_, fun a b hab => ?_⟩
  · obtain ⟨h1, h2, h3⟩ := validateLines_first_failure s pre post l hpre
    rw [← hsplit] at h1 h2 h3
    refine ⟨fun h => ?_, fun id hid hfind => ?_, fun hres hrej => ?_⟩
    · exact recordTransaction_of_loop_error P ctx s body description lines _ hd hl hne hlen (h1 h)
    · rw [recordTransaction_of_loop_error P ctx s body description lines _ hd hl hne hlen
        (h2 id hid hfind)]
      exact ⟨rfl, rfl⟩
    · rw [recordTransaction_of_loop_error P ctx s body description lines _ hd hl hne hlen
        (h3 hres hrej)]
      exact ⟨rfl, rfl⟩
  · cases hv : validateLines s 0 0 0 lines with
    | error r =>
      rw [recordTransaction_of_loop_error P ctx s body description lines r hd hl hne hlen hv] at hab
      simp only at hab
      obtain ⟨k, hk | hk | hk⟩ := validateLines_error_kind s lines 0 0 0 r hv <;>
        (rw [hk] at hab; cases hab)
    | ok totals =>
      obtain ⟨x, y⟩ := totals
      exact (validateLines_ok s lines 0 0 0 x y hv).2.2

/-- C4 on the example of the claim: line 1 has both sides positive on a stored
account, line 2 names an unknown account, and the answer is the 400 of
line 1. -/
theorem C4_fail_fast_order_witness :
    recordTransaction demoPlatform demoCtx demoState firstLineBothBody =
        (.lineNotOneSided 1, demoState) ∧
      (recordTransaction demoPlatform demoCtx demoState firstLineBothBody).1.status = 400 :=
  ((C4_fail_fast_order demoPlatform demoCtx demoState firstLineBothBody "sale"
      [⟨.oid 1, .num 100, .num 50⟩, ⟨.oid 3, .num 0, .num 50⟩] rfl rfl (by decide)
      (by decide)).1
    [] ⟨.oid 1, .num 100, .num 50⟩ [⟨.oid 3, .num 0, .num 50⟩] rfl
    (fun x hx => by cases hx)).2.2 ⟨1, rfl, rfl⟩ rfl

/-- C5, as stated, fails: each line of this request passes the per-line
checks and the totals differ (100 against 40), yet, the description being
absent, the answer is the 400 of the first check and not the imbalance
answer. -/
theorem C5_counterexample :
    (∀ l ∈ [(⟨.oid 1, .num 100, .num 0⟩ : LineInput), ⟨.oid 2, .num 0, .num 40⟩],
        (∃ id, l.account = .oid id ∧ (findAccountById demoState id).isSome = true) ∧
          lineRejected (destructureDefault l.debit) (destructureDefault l.credit) = false) ∧
      requestDebit [⟨.oid 1, .num 100, .num 0⟩, ⟨.oid 2, .num 0, .num 40⟩] ≠
        requestCredit [⟨.oid 1, .num 100, .num 0⟩, ⟨.oid 2, .num 0, .num 40⟩] ∧
      recordTransaction demoPlatform demoCtx demoState undescribedBody =
        (.requiredFields, demoState) := by
  refine ⟨?_, by decide, by decide⟩
  intro l hl
  simp only [List.mem_cons, List.mem_singleton, List.not_mem_nil, or_false] at hl
  rcases hl with rfl | rfl
  · exact ⟨⟨1, rfl, rfl⟩, rfl⟩
  · exact ⟨⟨2, rfl, rfl⟩, rfl⟩

/-- C5, amended: for every request that passes the description/length check,
whose lines each pass the per-line checks and whose total debit is not equal to
its total credit, the answer is the imbalance answer (400), it carries the sum
of the lines' debit values and the sum of the lines' credit values, and the
store is left as it was. -/
theorem C5_imbalance_reports_totals (P : Platform) (ctx : Ctx) (s : State)
    (body : TransactionBody) (description : String) (lines : List LineInput)
    (hd : body.description = some description) (hl : body.lines = some lines)
    (hne : jsTrim description ≠ "") (hlen : 2 ≤ lines.length)
    (hpass : ∀ l ∈ lines, LinePasses s l)
    (hbal : requestDebit lines ≠ requestCredit lines) :
    recordTransaction P ctx s body =
        (.notBalanced (requestDebit lines) (requestCredit lines), s) ∧
      (recordTransaction P ctx s body).1.status = 400 := by
  have key : recordTransaction P ctx s body =
      (.notBalanced (requestDebit lines) (requestCredit lines), s) := by
    unfold recordTransaction
    rw [hd, hl]
    simp only
    have : ¬ (jsTrim description = "" ∨ lines.length < 2) := by
      rintro (h | h)
      · exact hne h
      · omega
    rw [if_neg this, validateLines_all_pass s lines hpass]
    simp only
    rw [if_pos hbal]
  rw [key]
  exact ⟨rfl, rfl⟩

/-- C5 amended on the lines 100 debit / 40 credit under a description. -/
theorem C5_imbalance_reports_totals_witness :
    recordTransaction demoPlatform demoCtx demoState unbalancedBody =
        (.notBalanced 100 40, demoState) ∧
      (recordTransaction demoPlatform demoCtx demoState unbalancedBody).1.status = 400 :=
  C5_imbalance_reports_totals demoPlatform demoCtx demoState unbalancedBody "sale"
    [⟨.oid 1, .num 100, .num 0⟩, ⟨.oid 2, .num 0, .num 40⟩] rfl rfl (by decide) (by decide)
    (fun l hl => by
      simp only [List.mem_cons, List.mem_singleton, List.not_mem_nil, or_false] at hl
      rcases hl with rfl | rfl
      · exact ⟨⟨1, rfl, rfl⟩, rfl⟩
      · exact ⟨⟨2, rfl, rfl⟩, rfl⟩)
    (by decide)

/-- C6: whenever the answer of `recordTransaction` is anything other than the
201 (a 400, a 404, the imbalance answer, or the 500 of a failed save), the
store after the call is the store before it; and when a transaction is
persisted the accounts are untouched, the description/length check passed,
every line passed both per-line checks and the totals are equal. -/
theorem C6_record_atomic (P : Platform) (ctx : Ctx) (s : State) (body : TransactionBody) :
    ((∀ t, (recordTransaction P ctx s body).1 ≠ .created t) →
        (recordTransaction P ctx s body).2 = s) ∧
      (∀ t, (recordTransaction P ctx s body).1 = .created t →
        (recordTransaction P ctx s body).2.accounts = s.accounts ∧
        (recordTransaction P ctx s body).2.transactions = s.transactions ++ [t] ∧
        ∃ description lines, body.description = some description ∧
          body.lines = some lines ∧ jsTrim description ≠ "" ∧ 2 ≤ lines.length ∧
          (∀ l ∈ lines, LinePasses s l) ∧ requestDebit lines = requestCredit lines) := by
  rcases recordTransaction_cases P ctx s body with
    ⟨hs, hne⟩ | ⟨d, ls, t', hd, hls, hne, hlen, hv, hbal, _, heq⟩
  · exact ⟨fun _ => hs, fun t ht => absurd ht (hne t)⟩
  · refine ⟨fun h => absurd (by rw [heq]) (h t'), fun t ht => ?_⟩
    rw [heq] at ht ⊢
    simp only [TxResponse.created.injEq] at ht
    subst ht
    exact ⟨rfl, rfl, d, ls, hd, hls, hne, hlen, (validateLines_ok s ls 0 0 0 _ _ hv).2.2, hbal⟩

/-- C6 on a rejected request (imbalance) and on an accepted one. -/
theorem C6_record_atomic_witness :
    (recordTransaction demoPlatform demoCtx demoState unbalancedBody).2 = demoState ∧
      (recordTransaction demoPlatform demoCtx demoState openingBody).2.accounts =
        demoState.accounts :=
  ⟨(C6_record_atomic demoPlatform demoCtx demoState unbalancedBody).1
      (fun t h => by
        have h2 : (recordTransaction demoPlatform demoCtx demoState unbalancedBody).1 =
            .notBalanced 100 40 := by decide
        rw [h2] at h
        cases h),
    ((C6_record_atomic demoPlatform demoCtx demoState openingBody).2 openingTransaction
      (by decide)).1⟩

/-- C7, as stated, fails on the date: a request that supplies the date `0`
(the epoch, as a number) succeeds and the stored date is the current time of
the call, 5, not the supplied 0. -/
theorem C7_counterexample :
    epochBody.date = .num 0 ∧
      recordTransaction demoPlatform demoCtx demoState epochBody =
        (.created openingTransaction, ⟨[cash, equity], [openingTransaction]⟩) ∧
      openingTransaction.date = demoCtx.now ∧ openingTransaction.date ≠ 0 := by
  decide

/-- C7, amended: when `recordTransaction` succeeds, exactly one Transaction is
added to the store, after the ones already there, and it has: the supplied date
when that is truthy (a non-zero time value, or a non-empty date string, which
is stored as the platform parses it) and the current time otherwise (date
absent, `null`, `0` or `''`); `createdBy` equal to the acting identity
`req.user.id`; the trimmed description; and the request's lines in the same
order, each with the same account, debit and credit, an absent debit or credit
being stored as 0. The stored accounts are unchanged. -/
theorem C7_record_success (P : Platform) (ctx : Ctx) (s : State) (body : TransactionBody)
    (t : Transaction) (h : (recordTransaction P ctx s body).1 = .created t) :
    (recordTransaction P ctx s body).2.transactions = s.transactions ++ [t] ∧
      (recordTransaction P ctx s body).2.accounts = s.accounts ∧
      (∀ ms, body.date = .num ms → ms ≠ 0 → t.date = ms) ∧
      (∀ str, body.date = .str str → str ≠ "" → P.castDateString str = some t.date) ∧
      (body.date.truthy = false → t.date = ctx.now) ∧
      ctx.userId = .oid t.createdBy ∧
      t._id = ctx.newId ∧
      (∃ description, body.description = some description ∧
        t.description = jsTrim description) ∧
      (∃ lines, body.lines = some lines ∧ List.Forall₂ StoredAs lines t.lines) := by
  rcases recordTransaction_cases P ctx s body with
    ⟨_, hne⟩ | ⟨d, ls, t', hd, hls, _, _, _, _, hb, heq⟩
  · exact absurd h (hne t)
  · rw [heq] at h ⊢
    simp only [TxResponse.created.injEq] at h
    subst h
    obtain ⟨dt, ls', user, hdate, hcast, huser, rfl⟩ := buildTransaction_eq hb
    refine ⟨rfl, rfl, ?_, ?_, ?_, huser, rfl, ⟨d, hd, rfl⟩, ⟨ls, hls, ?_⟩⟩
    · intro ms hms hne
      rw [hms] at hdate
      have htr : (DateValue.num ms).truthy = true := by
        simp [DateValue.truthy, hne]
      simp only [resolveDate, htr, if_true, castDate] at hdate
      split at hdate
      · simp only [Option.some.injEq] at hdate
        exact hdate.symm
      · cases hdate
    · intro str hstr hne
      rw [hstr] at hdate
      have htr : (DateValue.str str).truthy = true := by
        simp [DateValue.truthy, hne]
      simp only [resolveDate, htr, if_true, castDate] at hdate
      exact hdate
    · intro hfalse
      simp only [resolveDate, hfalse, Bool.false_eq_true, if_false, Option.some.injEq] at hdate
      exact hdate.symm
    · exact (castLines_forall₂ hcast).imp (fun _ _ h => h.1)

/-- C7 amended on the opening entry dated `86400000`, stored with that date,
and on the same entry dated `0`, stored with the clock of the call. -/
theorem C7_record_success_witness :
    (recordTransaction demoPlatform demoCtx demoState datedBody).1 =
        .created ⟨10, 86400000, "opening", [⟨1, some 1000, some 0⟩, ⟨2, some 0, some 1000⟩], 77⟩ ∧
      (recordTransaction demoPlatform demoCtx demoState datedBody).2.transactions =
        demoState.transactions ++
          [⟨10, 86400000, "opening", [⟨1, some 1000, some 0⟩, ⟨2, some 0, some 1000⟩], 77⟩] ∧
      openingTransaction.date = demoCtx.now :=
  ⟨by decide,
    (C7_record_success demoPlatform demoCtx demoState datedBody
      ⟨10, 86400000, "opening", [⟨1, some 1000, some 0⟩, ⟨2, some 0, some 1000⟩], 77⟩
      (by decide)).1,
    (C7_record_success demoPlatform demoCtx demoState epochBody openingTransaction
      (by decide)).2.2.2.2.1 (by decide)⟩

/-! ## Lemmas on the reports -/

theorem findAccountById_id {s : State} {id : ObjectId} {a : Account}
    (h : findAccountById s id = some a) : a._id = id ∧ a ∈ s.accounts := by
  unfold findAccountById at h
  have h1 := List.find?_some h
  have h2 := List.mem_of_find?_eq_some h
  exact ⟨by simpa using h1, h2⟩

theorem balanceSheetLine_eq (s : State) (m : Saldos) (l : Line) :
    balanceSheetLine s m l =
      match findAccountById s l.account with
      | none => none
      | some account =>
        match m account._id with
        | some v => some (m.set account._id (v + balanceSheetDelta account l))
        | none => some m := rfl

theorem incomeStatementLine_eq (s : State) (m : Saldos) (l : Line) :
    incomeStatementLine s m l =
      match findAccountById s l.account with
      | none => none
      | some account =>
        match m account._id with
        | some v => some (m.set account._id (v + incomeStatementDelta account l))
        | none => some m := by
  unfold incomeStatementLine incomeStatementDelta
  cases findAccountById s l.account with
  | none => rfl
  | some account =>
    simp only
    cases m account._id with
    | none => rfl
    | some v =>
      simp only [decide_eq_true_eq]
      congr 2
      by_cases h1 : account.type = .ingreso
      · have h2 : account.type ≠ .gasto := by rw [h1]; decide
        simp [h1]
      · by_cases h2 : account.type = .gasto
        · simp [h2]
        · simp [h1, h2]

theorem posted_nil (s : State) (delta : Account → Line → Int) (k : ObjectId) :
    posted s delta [] k = 0 := rfl

theorem posted_cons (s : State) (delta : Account → Line → Int) (l : Line) (ls : List Line)
    (k : ObjectId) :
    posted s delta (l :: ls) k =
      (if l.account = k then
        (match findAccountById s l.account with
          | some account => delta account l
          | none => 0)
        else 0) + posted s delta ls k := by
  unfold posted
  by_cases h : l.account = k
  · simp [List.filter_cons, h]
  · simp [List.filter_cons, h]

theorem posted_append (s : State) (delta : Account → Line → Int) (l₁ l₂ : List Line)
    (k : ObjectId) :
    posted s delta (l₁ ++ l₂) k = posted s delta l₁ k + posted s delta l₂ k := by
  unfold posted
  simp [List.filter_append]

/-- The inner loop of a report adds to every key the object owns what the
lines posting to it contribute, and gives the object no new key. -/
theorem foldLines_posted (s : State) (delta : Account → Line → Int)
    (f : Saldos → Line → Option Saldos)
    (hf : ∀ m l, f m l =
      match findAccountById s l.account with
      | none => none
      | some account =>
        match m account._id with
        | some v => some (m.set account._id (v + delta account l))
        | none => some m) :
    ∀ (ls : List Line) (m : Saldos),
      (∀ l ∈ ls, (findAccountById s l.account).isSome = true) →
      ∃ m', foldLines f m ls = some m' ∧
        ∀ k, m' k = (m k).map (fun v => v + posted s delta ls k)
  | [], m, _ => ⟨m, rfl, fun k => by cases h : m k <;> simp [posted_nil]⟩
  | l :: rest, m, hres => by
    obtain ⟨acc, hacc⟩ := Option.isSome_iff_exists.1 (hres l (List.mem_cons_self _ _))
    have hid := (findAccountById_id hacc).1
    have hrest : ∀ x ∈ rest, (findAccountById s x.account).isSome = true :=
      fun x hx => hres x (List.mem_cons_of_mem _ hx)
    cases hm : m acc._id with
    | none =>
      have hstep : f m l = some m := by rw [hf, hacc]; simp only [hm]
      obtain ⟨m', h1, h2⟩ := foldLines_posted s delta f hf rest m hrest
      refine ⟨m', by rw [foldLines, hstep]; exact h1, fun k => ?_⟩
      rw [h2 k, posted_cons, hacc]
      by_cases hk : l.account = k
      · have : m k = none := by rw [← hk, ← hid]; exact hm
        simp [this]
      · simp [hk]
    | some v =>
      have hstep : f m l = some (m.set acc._id (v + delta acc l)) := by
        rw [hf, hacc]; simp only [hm]
      obtain ⟨m', h1, h2⟩ :=
        foldLines_posted s delta f hf rest (m.set acc._id (v + delta acc l)) hrest
      refine ⟨m', by rw [foldLines, hstep]; exact h1, fun k => ?_⟩
      rw [h2 k, posted_cons, hacc]
      by_cases hk : l.account = k
      · have hk' : k = acc._id := by rw [← hk, hid]
        subst hk'
        simp only [Saldos.set, if_true, hm, Option.map_some', hk]
        congr 1
        ring
      · have hk' : ¬ k = acc._id := by rw [hid]; exact fun h => hk h.symm
        simp [Saldos.set, hk', hk]

/-- The outer loop of a report. -/
theorem foldTransactions_posted (s : State) (delta : Account → Line → Int)
    (f : Saldos → Line → Option Saldos)
    (hf : ∀ m l, f m l =
      match findAccountById s l.account with
      | none => none
      | some account =>
        match m account._id with
        | some v => some (m.set account._id (v + delta account l))
        | none => some m) :
    ∀ (txs : List Transaction) (m : Saldos),
      (∀ t ∈ txs, ∀ l ∈ t.lines, (findAccountById s l.account).isSome = true) →
      ∃ m', foldTransactions f m txs = some m' ∧
        ∀ k, m' k = (m k).map (fun v => v + posted s delta (allLines txs) k)
  | [], m, _ => ⟨m, rfl, fun k => by cases h : m k <;> simp [allLines, posted_nil]⟩
  | t :: rest, m, hres => by
    obtain ⟨m1, h1, h2⟩ := foldLines_posted s delta f hf t.lines m
      (hres t (List.mem_cons_self _ _))
    obtain ⟨m', h3, h4⟩ := foldTransactions_posted s delta f hf rest m1
      (fun t' ht' => hres t' (List.mem_cons_of_mem _ ht'))
    refine ⟨m', by rw [foldTransactions, h1]; exact h3, fun k => ?_⟩
    rw [h4 k, h2 k]
    have : allLines (t :: rest) = t.lines ++ allLines rest := rfl
    rw [this, posted_append]
    cases m k with
    | none => rfl
    | some v => simp only [Option.map_some']; congr 1; ring

theorem initSaldos_fold (cuentas : List Account) :
    ∀ (m : Saldos) (k : ObjectId),
      cuentas.foldl (fun m c => m.set c._id 0) m k =
        if k ∈ cuentas.map (fun a => a._id) then some 0 else m k := by
  induction cuentas with
  | nil => intro m k; simp
  | cons c rest ih =>
    intro m k
    rw [List.foldl_cons, ih]
    by_cases h1 : k ∈ rest.map (fun a => a._id)
    · simp [h1]
    · by_cases h2 : k = c._id
      · simp [h1, h2, Saldos.set]
      · simp [h1, h2, Saldos.set]

theorem initSaldos_apply (cuentas : List Account) (k : ObjectId) :
    initSaldos cuentas k = if k ∈ cuentas.map (fun a => a._id) then some 0 else none :=
  initSaldos_fold cuentas (fun _ => none) k

theorem balanceSheetPush_eq (m : Saldos) :
    ∀ (cuentas : List Account) (r : BalanceSheet),
      (∀ c ∈ cuentas, c.type ∈ balanceSheetTypes) →
      balanceSheetPush m r cuentas = some
        ⟨r.activo ++ (cuentas.filter (fun c => c.type = .activo)).map (reportItem m),
          r.pasivo ++ (cuentas.filter (fun c => c.type = .pasivo)).map (reportItem m),
          r.capital ++ (cuentas.filter (fun c => c.type = .capital)).map (reportItem m),
          r.totalActivo +
            ((cuentas.filter (fun c => c.type = .activo)).map (fun c => m.getOrZero c._id)).sum,
          r.totalPasivo +
            ((cuentas.filter (fun c => c.type = .pasivo)).map (fun c => m.getOrZero c._id)).sum,
          r.totalCapital +
            ((cuentas.filter (fun c => c.type = .capital)).map (fun c => m.getOrZero c._id)).sum⟩
  | [], r, _ => by simp [balanceSheetPush]
  | c :: rest, r, h => by
    have hrest : ∀ x ∈ rest, x.type ∈ balanceSheetTypes :=
      fun x hx => h x (List.mem_cons_of_mem _ hx)
    have hc := h c (List.mem_cons_self _ _)
    unfold balanceSheetPush
    cases ht : c.type with
    | activo =>
      simp only
      rw [balanceSheetPush_eq m rest _ hrest]
      simp [List.filter_cons, ht, add_assoc]
    | pasivo =>
      simp only
      rw [balanceSheetPush_eq m rest _ hrest]
      simp [List.filter_cons, ht, add_assoc]
    | capital =>
      simp only
      rw [balanceSheetPush_eq m rest _ hrest]
      simp [List.filter_cons, ht, add_assoc]
    | ingreso => rw [ht] at hc; exact absurd hc (by decide)
    | gasto => rw [ht] at hc; exact absurd hc (by decide)

theorem incomeStatementPush_eq (m : Saldos) :
    ∀ (cuentas : List Account) (r : IncomeStatement),
      (∀ c ∈ cuentas, c.type ∈ incomeStatementTypes) →
      incomeStatementPush m r cuentas = some
        ⟨r.ingreso ++ (cuentas.filter (fun c => c.type = .ingreso)).map (reportItem m),
          r.gasto ++ (cuentas.filter (fun c => c.type = .gasto)).map (reportItem m),
          r.totalIngreso +
            ((cuentas.filter (fun c => c.type = .ingreso)).map (fun c => m.getOrZero c._id)).sum,
          r.totalGasto +
            ((cuentas.filter (fun c => c.type = .gasto)).map (fun c => m.getOrZero c._id)).sum,
          r.utilidadNeta⟩
  | [], r, _ => by simp [incomeStatementPush]
  | c :: rest, r, h => by
    have hrest : ∀ x ∈ rest, x.type ∈ incomeStatementTypes :=
      fun x hx => h x (List.mem_cons_of_mem _ hx)
    have hc := h c (List.mem_cons_self _ _)
    unfold incomeStatementPush
    cases ht : c.type with
    | ingreso =>
      simp only
      rw [incomeStatementPush_eq m rest _ hrest]
      simp [List.filter_cons, ht, add_assoc]
    | gasto =>
      simp only
      rw [incomeStatementPush_eq m rest _ hrest]
      simp [List.filter_cons, ht, add_assoc]
    | activo => rw [ht] at hc; exact absurd hc (by decide)
    | pasivo => rw [ht] at hc; exact absurd hc (by decide)
    | capital => rw [ht] at hc; exact absurd hc (by decide)

theorem findAccountsByType_type (s : State) (types : List AccountType) :
    ∀ c ∈ findAccountsByType s types, c.type ∈ types := by
  intro c hc
  unfold findAccountsByType at hc
  have := (List.mem_filter.1 hc).2
  simpa using this

theorem find?_of_nodup_ids : ∀ (L : List Account) (a : Account),
    (L.map (fun x => x._id)).Nodup → a ∈ L →
    L.find? (fun x => x._id == a._id) = some a
  | [], a, _, h => by cases h
  | b :: rest, a, hn, h => by
    rw [List.map_cons, List.nodup_cons] at hn
    rcases List.mem_cons.1 h with rfl | h
    · simp
    · have hne : b._id ≠ a._id := by
        intro heq
        exact hn.1 (by rw [heq]; exact List.mem_map_of_mem _ h)
      rw [List.find?_cons]
      have : (b._id == a._id) = false := by simpa using hne
      rw [this]
      exact find?_of_nodup_ids rest a hn.2 h

theorem findAccountById_of_unique {s : State} (hu : UniqueAccountIds s) {a : Account}
    (ha : a ∈ s.accounts) : findAccountById s a._id = some a :=
  find?_of_nodup_ids s.accounts a hu ha

theorem posted_balanceSheet (s : State) (ls : List Line) (k : ObjectId)
    (hres : ∀ l ∈ ls, (findAccountById s l.account).isSome = true) :
    posted s balanceSheetDelta ls k = debitMinusCredit ls k := by
  unfold posted debitMinusCredit
  congr 1
  apply List.map_congr_left
  intro l hl
  obtain ⟨acc, hacc⟩ := Option.isSome_iff_exists.1 (hres l (List.mem_of_mem_filter hl))
  rw [hacc]
  rfl

theorem posted_incomeStatement (s : State) (ls : List Line) (a : Account)
    (hfind : findAccountById s a._id = some a) :
    (a.type = .ingreso → posted s incomeStatementDelta ls a._id = creditMinusDebit ls a._id) ∧
      (a.type = .gasto → posted s incomeStatementDelta ls a._id = debitMinusCredit ls a._id) := by
  constructor
  · intro ht
    unfold posted creditMinusDebit
    congr 1
    apply List.map_congr_left
    intro l hl
    have hk : l.account = a._id := by simpa using (List.mem_filter.1 hl).2
    rw [hk, hfind]
    simp [incomeStatementDelta, ht]
  · intro ht
    unfold posted debitMinusCredit
    congr 1
    apply List.map_congr_left
    intro l hl
    have hk : l.account = a._id := by simpa using (List.mem_filter.1 hl).2
    rw [hk, hfind]
    simp [incomeStatementDelta, ht]

theorem allLines_resolve {s : State} (hr : LinesResolve s) :
    ∀ l ∈ allLines s.transactions, (findAccountById s l.account).isSome = true := by
  have : ∀ txs : List Transaction,
      (∀ t ∈ txs, ∀ l ∈ t.lines, (findAccountById s l.account).isSome = true) →
      ∀ l ∈ allLines txs, (findAccountById s l.account).isSome = true := by
    intro txs
    induction txs with
    | nil => intro _ l hl; cases hl
    | cons t rest ih =>
      intro h l hl
      have hsplit : allLines (t :: rest) = t.lines ++ allLines rest := rfl
      rw [hsplit, List.mem_append] at hl
      rcases hl with hl | hl
      · exact h t (List.mem_cons_self _ _) l hl
      · exact ih (fun t' ht' => h t' (List.mem_cons_of_mem _ ht')) l hl
  exact this s.transactions hr

theorem mem_findAccountsByType {s : State} {types : List AccountType} {a : Account}
    (ha : a ∈ s.accounts) (ht : a.type ∈ types) : a ∈ findAccountsByType s types := by
  unfold findAccountsByType
  exact List.mem_filter.2 ⟨ha, by simpa using ht⟩

/-- The `saldos` object of the balance sheet: it exists when every stored line
names a stored account, and owns exactly the ids of the filtered accounts,
each with debit minus credit over the lines posting to it. -/
theorem balanceSheetSaldos_eq (s : State) (hr : LinesResolve s) :
    ∃ m, balanceSheetSaldos s = some m ∧
      ∀ a ∈ s.accounts, a.type ∈ balanceSheetTypes →
        m.getOrZero a._id = debitMinusCredit (allLines s.transactions) a._id := by
  obtain ⟨m, h1, h2⟩ := foldTransactions_posted s balanceSheetDelta (balanceSheetLine s)
    (balanceSheetLine_eq s) s.transactions
    (initSaldos (findAccountsByType s balanceSheetTypes)) hr
  refine ⟨m, h1, fun a ha ht => ?_⟩
  have hmem : a._id ∈ (findAccountsByType s balanceSheetTypes).map (fun x => x._id) :=
    List.mem_map_of_mem _ (mem_findAccountsByType ha ht)
  unfold Saldos.getOrZero
  rw [h2, initSaldos_apply, if_pos hmem, posted_balanceSheet s _ _ (allLines_resolve hr)]
  simp

/-- The `saldos` object of the income statement. -/
theorem incomeStatementSaldos_eq (s : State) (hu : UniqueAccountIds s) (hr : LinesResolve s) :
    ∃ m, incomeStatementSaldos s = some m ∧
      ∀ a ∈ s.accounts,
        (a.type = .ingreso →
          m.getOrZero a._id = creditMinusDebit (allLines s.transactions) a._id) ∧
        (a.type = .gasto →
          m.getOrZero a._id = debitMinusCredit (allLines s.transactions) a._id) := by
  obtain ⟨m, h1, h2⟩ := foldTransactions_posted s incomeStatementDelta (incomeStatementLine s)
    (incomeStatementLine_eq s) s.transactions
    (initSaldos (findAccountsByType s incomeStatementTypes)) hr
  refine ⟨m, h1, fun a ha => ?_⟩
  have hp := posted_incomeStatement s (allLines s.transactions) a (findAccountById_of_unique hu ha)
  constructor
  · intro ht
    have hmem : a._id ∈ (findAccountsByType s incomeStatementTypes).map (fun x => x._id) :=
      List.mem_map_of_mem _ (mem_findAccountsByType ha (by rw [ht]; decide))
    unfold Saldos.getOrZero
    rw [h2, initSaldos_apply, if_pos hmem, hp.1 ht]
    simp
  · intro ht
    have hmem : a._id ∈ (findAccountsByType s incomeStatementTypes).map (fun x => x._id) :=
      List.mem_map_of_mem _ (mem_findAccountsByType ha (by rw [ht]; decide))
    unfold Saldos.getOrZero
    rw [h2, initSaldos_apply, if_pos hmem, hp.2 ht]
    simp

/-- The balance sheet sent, in terms of the `saldos` object. -/
theorem generateBalanceSheet_eq (s : State) (m : Saldos) (hm : balanceSheetSaldos s = some m) :
    generateBalanceSheet s = some
      ⟨((findAccountsByType s balanceSheetTypes).filter (fun c => c.type = .activo)).map
          (reportItem m),
        ((findAccountsByType s balanceSheetTypes).filter (fun c => c.type = .pasivo)).map
          (reportItem m),
        ((findAccountsByType s balanceSheetTypes).filter (fun c => c.type = .capital)).map
          (reportItem m),
        (((findAccountsByType s balanceSheetTypes).filter (fun c => c.type = .activo)).map
          (fun c => m.getOrZero c._id)).sum,
        (((findAccountsByType s balanceSheetTypes).filter (fun c => c.type = .pasivo)).map
          (fun c => m.getOrZero c._id)).sum,
        (((findAccountsByType s balanceSheetTypes).filter (fun c => c.type = .capital)).map
          (fun c => m.getOrZero c._id)).sum⟩ := by
  unfold generateBalanceSheet
  rw [hm]
  simp only
  rw [balanceSheetPush_eq m _ _ (findAccountsByType_type s balanceSheetTypes)]
  simp

/-- The income statement sent, in terms of the `saldos` object. -/
theorem generateIncomeStatement_eq (s : State) (m : Saldos)
    (hm : incomeStatementSaldos s = some m) :
    generateIncomeStatement s = some
      ⟨((findAccountsByType s incomeStatementTypes).filter (fun c => c.type = .ingreso)).map
          (reportItem m),
        ((findAccountsByType s incomeStatementTypes).filter (fun c => c.type = .gasto)).map
          (reportItem m),
        (((findAccountsByType s incomeStatementTypes).filter (fun c => c.type = .ingreso)).map
          (fun c => m.getOrZero c._id)).sum,
        (((findAccountsByType s incomeStatementTypes).filter (fun c => c.type = .gasto)).map
          (fun c => m.getOrZero c._id)).sum,
        (((findAccountsByType s incomeStatementTypes).filter (fun c => c.type = .ingreso)).map
          (fun c => m.getOrZero c._id)).sum -
        (((findAccountsByType s incomeStatementTypes).filter (fun c => c.type = .gasto)).map
          (fun c => m.getOrZero c._id)).sum⟩ := by
  unfold generateIncomeStatement
  rw [hm]
  simp only
  rw [incomeStatementPush_eq m _ _ (findAccountsByType_type s incomeStatementTypes)]
  simp

theorem filter_id_reportItems_of_not_mem (m : Saldos) (p : Account → Bool) (k : ObjectId) :
    ∀ (L : List Account), k ∉ L.map (fun x => x._id) →
      ((L.filter p).map (reportItem m)).filter (fun i => i.id = k) = []
  | [], _ => rfl
  | b :: rest, h => by
    rw [List.map_cons, List.mem_cons, not_or] at h
    have ih := filter_id_reportItems_of_not_mem m p k rest h.2
    have hb : ¬ b._id = k := fun e => h.1 e.symm
    by_cases hp : p b = true
    · rw [List.filter_cons_of_pos hp, List.map_cons, List.filter_cons_of_neg (by simpa [reportItem] using hb)]
      exact ih
    · rw [List.filter_cons_of_neg hp]
      exact ih

/-- Among the items built from accounts with distinct ids, those with the id of
a stored account are that account's item, once, if the account is selected,
and none otherwise. -/
theorem filter_id_reportItems (m : Saldos) (p : Account → Bool) :
    ∀ (L : List Account) (a : Account), (L.map (fun x => x._id)).Nodup → a ∈ L →
      ((L.filter p).map (reportItem m)).filter (fun i => i.id = a._id) =
        if p a = true then [reportItem m a] else []
  | [], a, _, h => by cases h
  | b :: rest, a, hn, h => by
    rw [List.map_cons, List.nodup_cons] at hn
    rcases List.mem_cons.1 h with rfl | h
    · have hrest := filter_id_reportItems_of_not_mem m p a._id rest hn.1
      by_cases hp : p a = true
      · rw [List.filter_cons_of_pos hp, List.map_cons,
          List.filter_cons_of_pos (by simp [reportItem]), hrest, if_pos hp]
      · rw [List.filter_cons_of_neg hp, hrest, if_neg hp]
    · have hne : ¬ b._id = a._id := by
        intro heq
        exact hn.1 (by rw [heq]; exact List.mem_map_of_mem _ h)
      have ih := filter_id_reportItems m p rest a hn.2 h
      by_cases hp : p b = true
      · rw [List.filter_cons_of_pos hp, List.map_cons,
          List.filter_cons_of_neg (by simpa [reportItem] using hne)]
        exact ih
      · rw [List.filter_cons_of_neg hp]
        exact ih

/-- The array a report keeps for type `ty`, filtered by the id of a stored
account. -/
theorem report_array_filter (s : State) (hu : UniqueAccountIds s) (m : Saldos)
    (types : List AccountType) (ty : AccountType) (hty : ty ∈ types)
    (a : Account) (ha : a ∈ s.accounts) :
    (((findAccountsByType s types).filter (fun c => c.type = ty)).map (reportItem m)).filter
        (fun i => i.id = a._id) =
      if a.type = ty then [reportItem m a] else [] := by
  unfold findAccountsByType
  rw [List.filter_filter, filter_id_reportItems m _ s.accounts a hu ha]
  by_cases h : a.type = ty
  · simp [h, hty]
  · simp [h]

theorem mem_report_array {s : State} {m : Saldos} {types : List AccountType}
    {ty : AccountType} {i : ReportItem}
    (h : i ∈ ((findAccountsByType s types).filter (fun c => c.type = ty)).map (reportItem m)) :
    ∃ a ∈ s.accounts, a.type = ty ∧ a.type ∈ types ∧ i = reportItem m a := by
  obtain ⟨a, ha, rfl⟩ := List.mem_map.1 h
  obtain ⟨ha1, ha2⟩ := List.mem_filter.1 ha
  unfold findAccountsByType at ha1
  obtain ⟨ha3, ha4⟩ := List.mem_filter.1 ha1
  exact ⟨a, ha3, by simpa using ha2, by simpa using ha4, rfl⟩

theorem reportItem_mem_report_array (s : State) (m : Saldos) (types : List AccountType)
    (ty : AccountType) (hty : ty ∈ types) {a : Account} (ha : a ∈ s.accounts)
    (ht : a.type = ty) :
    reportItem m a ∈
      ((findAccountsByType s types).filter (fun c => c.type = ty)).map (reportItem m) := by
  apply List.mem_map_of_mem
  apply List.mem_filter.2
  exact ⟨mem_findAccountsByType ha (by rw [ht]; exact hty), by simpa using ht⟩

theorem sum_filter_eq_zero_of_no_posting (ls : List Line) (id : ObjectId)
    (h : ∀ l ∈ ls, l.account ≠ id) :
    debitMinusCredit ls id = 0 ∧ creditMinusDebit ls id = 0 := by
  have : ls.filter (fun l => l.account = id) = [] := by
    apply List.filter_eq_nil_iff.2
    intro l hl
    simpa using h l hl
  unfold debitMinusCredit creditMinusDebit
  rw [this]
  exact ⟨rfl, rfl⟩

theorem buildAccount_id {P : Platform} {ctx : Ctx} {s : State} {code name type : String}
    {parent : Option ObjectId} {isGroup : Option Bool} {description : Option String}
    {a : Account}
    (h : buildAccount P ctx s code name type parent isGroup description = some a) :
    a._id = ctx.newId := by
  unfold buildAccount at h
  split at h
  · cases h
  · split at h
    · cases h
    · split at h
      · cases h
      · simp only [Option.some.injEq] at h
        rw [← h]

theorem saveAccount_accounts (P : Platform) (ctx : Ctx) (s : State) (code name type : String)
    (parent : Option ObjectId) (isGroup : Option Bool) (description : Option String) :
    (saveAccount P ctx s code name type parent isGroup description).2.accounts = s.accounts ∨
      ∃ a, a._id = ctx.newId ∧
        (saveAccount P ctx s code name type parent isGroup description).2.accounts =
          s.accounts ++ [a] := by
  unfold saveAccount
  split
  · exact Or.inl rfl
  · rename_i a h
    exact Or.inr ⟨a, buildAccount_id h, rfl⟩

theorem createAccount_accounts (P : Platform) (ctx : Ctx) (s : State) (body : AccountBody) :
    (createAccount P ctx s body).2.accounts = s.accounts ∨
      ∃ a, a._id = ctx.newId ∧ (createAccount P ctx s body).2.accounts = s.accounts ++ [a] := by
  unfold createAccount
  repeat' split
  all_goals first
    | exact Or.inl rfl
    | exact saveAccount_accounts P ctx s _ _ _ _ _ _

theorem updateAccount_account_ids (P : Platform) (s : State) (id : IdValue)
    (patch : AccountPatch) :
    (updateAccount P s id patch).2.accounts.map (fun a => a._id) =
      s.accounts.map (fun a => a._id) := by
  unfold updateAccount
  repeat' split
  all_goals first
    | rfl
    | (simp only [List.map_map]
       apply List.map_congr_left
       intro b _
       simp only [Function.comp]
       split
       · rename_i hfind _ _ h
         rw [h]
         exact (findAccountById_id hfind).1
       · rfl)

theorem deleteAccount_accounts_sublist (s : State) (id : IdValue) :
    ((deleteAccount s id).2.accounts).Sublist s.accounts := by
  unfold deleteAccount
  repeat' split
  all_goals first
    | exact List.Sublist.refl _
    | exact List.erase_sublist _ _

theorem recordTransaction_accounts (P : Platform) (ctx : Ctx) (s : State)
    (body : TransactionBody) : (recordTransaction P ctx s body).2.accounts = s.accounts := by
  rcases recordTransaction_cases P ctx s body with ⟨hs, _⟩ | ⟨_, _, _, _, _, _, _, _, _, _, heq⟩
  · rw [hs]
  · rw [heq]

theorem deleteTransaction_accounts (s : State) (id : IdValue) :
    (deleteTransaction s id).2.accounts = s.accounts := by
  unfold deleteTransaction
  repeat' split
  all_goals rfl

/-- The ids of the stored accounts are pairwise distinct in every reachable
state. -/
theorem reachable_uniqueAccountIds (P : Platform) (s : State) (h : Reachable P s) :
    UniqueAccountIds s := by
  induction h with
  | empty => exact List.nodup_nil
  | step _ hstep ih =>
    unfold UniqueAccountIds at ih ⊢
    cases hstep with
    | createAccount ctx body hfresh =>
      rcases createAccount_accounts P ctx _ body with h | ⟨a, ha, h⟩
      · rw [h]; exact ih
      · rw [h, List.map_append, List.map_singleton]
        apply List.Nodup.append ih (List.nodup_singleton _)
        intro x hx hx'
        rw [List.mem_singleton] at hx'
        subst hx'
        obtain ⟨b, hb, hbe⟩ := List.mem_map.1 hx
        exact hfresh.1 b hb (by rw [hbe, ha])
    | updateAccount id patch => rw [updateAccount_account_ids]; exact ih
    | deleteAccount id =>
      exact List.Nodup.sublist ((deleteAccount_accounts_sublist _ id).map _) ih
    | recordTransaction ctx body _ => rw [recordTransaction_accounts]; exact ih
    | deleteTransaction id => rw [deleteTransaction_accounts]; exact ih

/-- C8: in a store whose accounts have distinct ids and in which every line's
account exists, both reports are produced, and the balance reported for an
account is, over all lines of all stored transactions posting to it: the sum of
debit − credit if it is an `activo`, `pasivo` or `capital` account (no sign
flip) or a `gasto` account, and the sum of credit − debit if it is an
`ingreso` account. Each item of a report carries that sum for its own id, so
lines posting elsewhere do not enter it, and an account no line posts to has
balance 0. -/
theorem C8_reported_balances (s : State) (hu : UniqueAccountIds s) (hr : LinesResolve s) :
    ∃ bs inc, generateBalanceSheet s = some bs ∧ generateIncomeStatement s = some inc ∧
      (∀ a ∈ s.accounts,
        (a.type = .activo →
          ⟨a._id, a.code, a.name, debitMinusCredit (allLines s.transactions) a._id⟩
            ∈ bs.activo) ∧
        (a.type = .pasivo →
          ⟨a._id, a.code, a.name, debitMinusCredit (allLines s.transactions) a._id⟩
            ∈ bs.pasivo) ∧
        (a.type = .capital →
          ⟨a._id, a.code, a.name, debitMinusCredit (allLines s.transactions) a._id⟩
            ∈ bs.capital) ∧
        (a.type = .ingreso →
          ⟨a._id, a.code, a.name, creditMinusDebit (allLines s.transactions) a._id⟩
            ∈ inc.ingreso) ∧
        (a.type = .gasto →
          ⟨a._id, a.code, a.name, debitMinusCredit (allLines s.transactions) a._id⟩
            ∈ inc.gasto)) ∧
      (∀ i, i ∈ bs.activo ∨ i ∈ bs.pasivo ∨ i ∈ bs.capital ∨ i ∈ inc.gasto →
        i.saldo = debitMinusCredit (allLines s.transactions) i.id) ∧
      (∀ i ∈ inc.ingreso, i.saldo = creditMinusDebit (allLines s.transactions) i.id) ∧
      (∀ id, (∀ l ∈ allLines s.transactions, l.account ≠ id) →
        debitMinusCredit (allLines s.transactions) id = 0 ∧
          creditMinusDebit (allLines s.transactions) id = 0) := by
  obtain ⟨m, hm, hbal⟩ := balanceSheetSaldos_eq s hr
  obtain ⟨m', hm', hbal'⟩ := incomeStatementSaldos_eq s hu hr
  refine ⟨_, _, generateBalanceSheet_eq s m hm, generateIncomeStatement_eq s m' hm', ?_, ?_, ?_,
    fun id h => sum_filter_eq_zero_of_no_posting _ id h⟩
  · intro a ha
    refine ⟨fun ht => ?_, fun ht => ?_, fun ht => ?_, fun ht => ?_, fun ht => ?_⟩
    · have := reportItem_mem_report_array s m balanceSheetTypes .activo (by decide) ha ht
      rw [reportItem, hbal a ha (by rw [ht]; decide)] at this
      exact this
    · have := reportItem_mem_report_array s m balanceSheetTypes .pasivo (by decide) ha ht
      rw [reportItem, hbal a ha (by rw [ht]; decide)] at this
      exact this
    · have := reportItem_mem_report_array s m balanceSheetTypes .capital (by decide) ha ht
      rw [reportItem, hbal a ha (by rw [ht]; decide)] at this
      exact this
    · have := reportItem_mem_report_array s m' incomeStatementTypes .ingreso (by decide) ha ht
      rw [reportItem, (hbal' a ha).1 ht] at this
      exact this
    · have := reportItem_mem_report_array s m' incomeStatementTypes .gasto (by decide) ha ht
      rw [reportItem, (hbal' a ha).2 ht] at this
      exact this
  · rintro i (hi | hi | hi | hi)
    · obtain ⟨a, ha, _, ht, rfl⟩ := mem_report_array hi
      exact hbal a ha ht
    · obtain ⟨a, ha, _, ht, rfl⟩ := mem_report_array hi
      exact hbal a ha ht
    · obtain ⟨a, ha, _, ht, rfl⟩ := mem_report_array hi
      exact hbal a ha ht
    · obtain ⟨a, ha, ht, _, rfl⟩ := mem_report_array hi
      exact (hbal' a ha).2 ht
  · intro i hi
    obtain ⟨a, ha, ht, _, rfl⟩ := mem_report_array hi
    exact (hbal' a ha).1 ht

/-- C8 on a store with one account of each type and four transactions. -/
theorem C8_reported_balances_witness :
    UniqueAccountIds ledgerState ∧ LinesResolve ledgerState ∧
      ∃ bs inc, generateBalanceSheet ledgerState = some bs ∧
        generateIncomeStatement ledgerState = some inc ∧
        (∀ a ∈ ledgerState.accounts,
          (a.type = .activo →
            ⟨a._id, a.code, a.name, debitMinusCredit (allLines ledgerState.transactions) a._id⟩
              ∈ bs.activo) ∧
          (a.type = .pasivo →
            ⟨a._id, a.code, a.name, debitMinusCredit (allLines ledgerState.transactions) a._id⟩
              ∈ bs.pasivo) ∧
          (a.type = .capital →
            ⟨a._id, a.code, a.name, debitMinusCredit (allLines ledgerState.transactions) a._id⟩
              ∈ bs.capital) ∧
          (a.type = .ingreso →
            ⟨a._id, a.code, a.name, creditMinusDebit (allLines ledgerState.transactions) a._id⟩
              ∈ inc.ingreso) ∧
          (a.type = .gasto →
            ⟨a._id, a.code, a.name, debitMinusCredit (allLines ledgerState.transactions) a._id⟩
              ∈ inc.gasto)) ∧
        (∀ i, i ∈ bs.activo ∨ i ∈ bs.pasivo ∨ i ∈ bs.capital ∨ i ∈ inc.gasto →
          i.saldo = debitMinusCredit (allLines ledgerState.transactions) i.id) ∧
        (∀ i ∈ inc.ingreso,
          i.saldo = creditMinusDebit (allLines ledgerState.transactions) i.id) ∧
        (∀ id, (∀ l ∈ allLines ledgerState.transactions, l.account ≠ id) →
          debitMinusCredit (allLines ledgerState.transactions) id = 0 ∧
            creditMinusDebit (allLines ledgerState.transactions) id = 0) :=
  ⟨by unfold UniqueAccountIds; decide, by unfold LinesResolve; decide,
    C8_reported_balances ledgerState (by unfold UniqueAccountIds; decide)
      (by unfold LinesResolve; decide)⟩

/-- C9: from a store holding an `activo` account CASH and a `capital` account
EQUITY and no transaction, recording 1000 debited to CASH and 1000 credited to
EQUITY under a non-blank description, by a well-formed acting identity and with
a date that resolves, succeeds and stores that one transaction; the balance
sheet of the resulting store lists CASH with balance 1000 and EQUITY with
balance −1000, with `totalActivo = 1000`, `totalPasivo = 0` and
`totalCapital = −1000`. -/
theorem C9_opening_entry (P : Platform) (ctx : Ctx) (cashAcc equityAcc : Account)
    (date : DateValue) (description : String) (user : ObjectId) (d : Int)
    (hc : cashAcc.type = .activo) (he : equityAcc.type = .capital)
    (hne : cashAcc._id ≠ equityAcc._id) (hd : jsTrim description ≠ "")
    (hu : ctx.userId = .oid user) (hdate : resolveDate P ctx date = some d) :
    recordTransaction P ctx ⟨[cashAcc, equityAcc], []⟩
        ⟨date, some description,
          some [⟨.oid cashAcc._id, .num 1000, .num 0⟩, ⟨.oid equityAcc._id, .num 0, .num 1000⟩]⟩ =
      (.created ⟨ctx.newId, d, jsTrim description,
          [⟨cashAcc._id, some 1000, some 0⟩, ⟨equityAcc._id, some 0, some 1000⟩], user⟩,
        ⟨[cashAcc, equityAcc], [⟨ctx.newId, d, jsTrim description,
          [⟨cashAcc._id, some 1000, some 0⟩, ⟨equityAcc._id, some 0, some 1000⟩], user⟩]⟩) ∧
    generateBalanceSheet ⟨[cashAcc, equityAcc], [⟨ctx.newId, d, jsTrim description,
          [⟨cashAcc._id, some 1000, some 0⟩, ⟨equityAcc._id, some 0, some 1000⟩], user⟩]⟩ =
      some ⟨[⟨cashAcc._id, cashAcc.code, cashAcc.name, 1000⟩], [],
        [⟨equityAcc._id, equityAcc.code, equityAcc.name, -1000⟩], 1000, 0, -1000⟩ := by
  have hne' : equityAcc._id ≠ cashAcc._id := fun h => hne h.symm
  have hb : (cashAcc._id == equityAcc._id) = false := by simpa using hne
  constructor
  · simp [recordTransaction, hd, validateLines, findAccountById, List.find?, hne, hne', hb,
      destructureDefault, lineRejected, jsGtZero, jsStrictEqZero, jsToNumber, buildTransaction,
      hdate, castLines, castLine, castAmount, hu]
  · simp [generateBalanceSheet, balanceSheetSaldos, foldTransactions, foldLines,
      balanceSheetLine, findAccountById, List.find?, hne, hne', hb, findAccountsByType,
      balanceSheetTypes, hc, he, initSaldos, Saldos.set, orZero, balanceSheetPush,
      reportItem, Saldos.getOrZero, List.filter]

/-- C9 on the sample accounts, with no date in the request. -/
theorem C9_opening_entry_witness :
    recordTransaction demoPlatform demoCtx demoState openingBody =
        (.created openingTransaction, ⟨[cash, equity], [openingTransaction]⟩) ∧
      generateBalanceSheet ⟨[cash, equity], [openingTransaction]⟩ =
        some ⟨[⟨1, "CASH", "Cash", 1000⟩], [], [⟨2, "EQUITY", "Equity", -1000⟩],
          1000, 0, -1000⟩ :=
  C9_opening_entry demoPlatform demoCtx cash equity .absent "opening" 77 5 rfl rfl
    (by decide) (by decide) rfl rfl

/-- C10: in a store whose accounts have distinct ids, whenever the balance
sheet is produced, every stored account of type `activo`, `pasivo` or `capital`
appears exactly once in the array of its own type, as the item carrying its id,
code, name and balance, and in no other array, and no `ingreso` or `gasto`
account appears in any array; and whenever the income statement is produced,
every `ingreso` or `gasto` account appears exactly once in the array of its
type and in no other, and no `activo`, `pasivo` or `capital` account appears. -/
theorem C10_report_membership (s : State) (hu : UniqueAccountIds s) :
    (∀ bs, generateBalanceSheet s = some bs →
      ∃ m, balanceSheetSaldos s = some m ∧ ∀ a ∈ s.accounts,
        bs.activo.filter (fun i => i.id = a._id) =
          (if a.type = .activo then [⟨a._id, a.code, a.name, m.getOrZero a._id⟩] else []) ∧
        bs.pasivo.filter (fun i => i.id = a._id) =
          (if a.type = .pasivo then [⟨a._id, a.code, a.name, m.getOrZero a._id⟩] else []) ∧
        bs.capital.filter (fun i => i.id = a._id) =
          (if a.type = .capital then [⟨a._id, a.code, a.name, m.getOrZero a._id⟩] else [])) ∧
    (∀ inc, generateIncomeStatement s = some inc →
      ∃ m, incomeStatementSaldos s = some m ∧ ∀ a ∈ s.accounts,
        inc.ingreso.filter (fun i => i.id = a._id) =
          (if a.type = .ingreso then [⟨a._id, a.code, a.name, m.getOrZero a._id⟩] else []) ∧
        inc.gasto.filter (fun i => i.id = a._id) =
          (if a.type = .gasto then [⟨a._id, a.code, a.name, m.getOrZero a._id⟩] else [])) := by
  constructor
  · intro bs hbs
    cases hm : balanceSheetSaldos s with
    | none => simp [generateBalanceSheet, hm] at hbs
    | some m =>
      rw [generateBalanceSheet_eq s m hm] at hbs
      simp only [Option.some.injEq] at hbs
      subst hbs
      refine ⟨m, rfl, fun a ha => ⟨?_, ?_, ?_⟩⟩
      · exact report_array_filter s hu m balanceSheetTypes .activo (by decide) a ha
      · exact report_array_filter s hu m balanceSheetTypes .pasivo (by decide) a ha
      · exact report_array_filter s hu m balanceSheetTypes .capital (by decide) a ha
  · intro inc hinc
    cases hm : incomeStatementSaldos s with
    | none => simp [generateIncomeStatement, hm] at hinc
    | some m =>
      rw [generateIncomeStatement_eq s m hm] at hinc
      simp only [Option.some.injEq] at hinc
      subst hinc
      refine ⟨m, rfl, fun a ha => ⟨?_, ?_⟩⟩
      · exact report_array_filter s hu m incomeStatementTypes .ingreso (by decide) a ha
      · exact report_array_filter s hu m incomeStatementTypes .gasto (by decide) a ha

/-- C10 on a store with one account of each type: the reports are the two
written out, and each account is found once in the array of its type. -/
theorem C10_report_membership_witness :
    UniqueAccountIds ledgerState ∧
      generateBalanceSheet ledgerState = some ledgerBalanceSheet ∧
      generateIncomeStatement ledgerState = some ledgerIncomeStatement ∧
      (∃ m, balanceSheetSaldos ledgerState = some m ∧ ∀ a ∈ ledgerState.accounts,
        ledgerBalanceSheet.activo.filter (fun i => i.id = a._id) =
          (if a.type = .activo then [⟨a._id, a.code, a.name, m.getOrZero a._id⟩] else []) ∧
        ledgerBalanceSheet.pasivo.filter (fun i => i.id = a._id) =
          (if a.type = .pasivo then [⟨a._id, a.code, a.name, m.getOrZero a._id⟩] else []) ∧
        ledgerBalanceSheet.capital.filter (fun i => i.id = a._id) =
          (if a.type = .capital then [⟨a._id, a.code, a.name, m.getOrZero a._id⟩] else [])) ∧
      (∃ m, incomeStatementSaldos ledgerState = some m ∧ ∀ a ∈ ledgerState.accounts,
        ledgerIncomeStatement.ingreso.filter (fun i => i.id = a._id) =
          (if a.type = .ingreso then [⟨a._id, a.code, a.name, m.getOrZero a._id⟩] else []) ∧
        ledgerIncomeStatement.gasto.filter (fun i => i.id = a._id) =
          (if a.type = .gasto then [⟨a._id, a.code, a.name, m.getOrZero a._id⟩] else [])) :=
  ⟨by unfold UniqueAccountIds; decide, by decide, by decide,
    (C10_report_membership ledgerState (by unfold UniqueAccountIds; decide)).1
      ledgerBalanceSheet (by decide),
    (C10_report_membership ledgerState (by unfold UniqueAccountIds; decide)).2
      ledgerIncomeStatement (by decide)⟩

theorem map_saldo_reportItem (m : Saldos) (L : List Account) :
    ((L.map (reportItem m)).map (fun i => i.saldo)) = L.map (fun c => m.getOrZero c._id) := by
  rw [List.map_map]
  rfl

theorem generateBalanceSheet_saldos {s : State} {bs : BalanceSheet}
    (h : generateBalanceSheet s = some bs) : ∃ m, balanceSheetSaldos s = some m := by
  cases hm : balanceSheetSaldos s with
  | none => simp [generateBalanceSheet, hm] at h
  | some m => exact ⟨m, rfl⟩

theorem generateIncomeStatement_saldos {s : State} {inc : IncomeStatement}
    (h : generateIncomeStatement s = some inc) : ∃ m, incomeStatementSaldos s = some m := by
  cases hm : incomeStatementSaldos s with
  | none => simp [generateIncomeStatement, hm] at h
  | some m => exact ⟨m, rfl⟩

/-- C11: in every report produced, each total is the sum of the balances of the
items of the corresponding array (the empty sum being 0): `totalActivo`,
`totalPasivo` and `totalCapital` in the balance sheet, `totalIngreso` and
`totalGasto` in the income statement. -/
theorem C11_totals_sum_items (s : State) :
    (∀ bs, generateBalanceSheet s = some bs →
      bs.totalActivo = (bs.activo.map (fun i => i.saldo)).sum ∧
      bs.totalPasivo = (bs.pasivo.map (fun i => i.saldo)).sum ∧
      bs.totalCapital = (bs.capital.map (fun i => i.saldo)).sum ∧
      (bs.activo = [] → bs.totalActivo = 0) ∧ (bs.pasivo = [] → bs.totalPasivo = 0) ∧
      (bs.capital = [] → bs.totalCapital = 0)) ∧
    (∀ inc, generateIncomeStatement s = some inc →
      inc.totalIngreso = (inc.ingreso.map (fun i => i.saldo)).sum ∧
      inc.totalGasto = (inc.gasto.map (fun i => i.saldo)).sum ∧
      (inc.ingreso = [] → inc.totalIngreso = 0) ∧ (inc.gasto = [] → inc.totalGasto = 0)) := by
  constructor
  · intro bs hbs
    obtain ⟨m, hm⟩ := generateBalanceSheet_saldos hbs
    rw [generateBalanceSheet_eq s m hm] at hbs
    simp only [Option.some.injEq] at hbs
    subst hbs
    have h1 := map_saldo_reportItem m
      ((findAccountsByType s balanceSheetTypes).filter (fun c => c.type = .activo))
    have h2 := map_saldo_reportItem m
      ((findAccountsByType s balanceSheetTypes).filter (fun c => c.type = .pasivo))
    have h3 := map_saldo_reportItem m
      ((findAccountsByType s balanceSheetTypes).filter (fun c => c.type = .capital))
    simp only
    refine ⟨by rw [h1], by rw [h2], by rw [h3], fun h => ?_, fun h => ?_, fun h => ?_⟩
    · rw [← h1, h]; rfl
    · rw [← h2, h]; rfl
    · rw [← h3, h]; rfl
  · intro inc hinc
    obtain ⟨m, hm⟩ := generateIncomeStatement_saldos hinc
    rw [generateIncomeStatement_eq s m hm] at hinc
    simp only [Option.some.injEq] at hinc
    subst hinc
    have h1 := map_saldo_reportItem m
      ((findAccountsByType s incomeStatementTypes).filter (fun c => c.type = .ingreso))
    have h2 := map_saldo_reportItem m
      ((findAccountsByType s incomeStatementTypes).filter (fun c => c.type = .gasto))
    simp only
    refine ⟨by rw [h1], by rw [h2], fun h => ?_, fun h => ?_⟩
    · rw [← h1, h]; rfl
    · rw [← h2, h]; rfl

/-- C11 on the two reports of the sample ledger. -/
theorem C11_totals_sum_items_witness :
    generateBalanceSheet ledgerState = some ledgerBalanceSheet ∧
      ledgerBalanceSheet.totalActivo = (ledgerBalanceSheet.activo.map (fun i => i.saldo)).sum ∧
      generateIncomeStatement ledgerState = some ledgerIncomeStatement ∧
      ledgerIncomeStatement.totalGasto =
        (ledgerIncomeStatement.gasto.map (fun i => i.saldo)).sum :=
  ⟨by decide,
    ((C11_totals_sum_items ledgerState).1 ledgerBalanceSheet (by decide)).1,
    by decide,
    ((C11_totals_sum_items ledgerState).2 ledgerIncomeStatement (by decide)).2.1⟩

theorem linesResolve_of_onlyIncomeExpense {s : State} (h : OnlyIncomeExpense s) :
    LinesResolve s := by
  intro t ht l hl
  obtain ⟨a, ha, _⟩ := h t ht l hl
  rw [ha]
  rfl

/-- C12: every income statement produced has `utilidadNeta` equal to
`totalIngreso − totalGasto`; and for any accounts and any balanced transactions
whose lines all post to stored `ingreso` or `gasto` accounts the income
statement is produced. -/
theorem C12_net_income (s : State) :
    (∀ inc, generateIncomeStatement s = some inc →
      inc.utilidadNeta = inc.totalIngreso - inc.totalGasto) ∧
    ((∀ t ∈ s.transactions, t.Balanced) → OnlyIncomeExpense s →
      ∃ inc, generateIncomeStatement s = some inc ∧
        inc.utilidadNeta = inc.totalIngreso - inc.totalGasto) := by
  have key : ∀ inc, generateIncomeStatement s = some inc →
      inc.utilidadNeta = inc.totalIngreso - inc.totalGasto := by
    intro inc hinc
    obtain ⟨m, hm⟩ := generateIncomeStatement_saldos hinc
    rw [generateIncomeStatement_eq s m hm] at hinc
    simp only [Option.some.injEq] at hinc
    subst hinc
    rfl
  refine ⟨key, fun _ honly => ?_⟩
  obtain ⟨m, hm, _⟩ := foldTransactions_posted s incomeStatementDelta (incomeStatementLine s)
    (incomeStatementLine_eq s) s.transactions
    (initSaldos (findAccountsByType s incomeStatementTypes))
    (linesResolve_of_onlyIncomeExpense honly)
  have hgen := generateIncomeStatement_eq s m hm
  exact ⟨_, hgen, key _ hgen⟩

/-- C12 on a store with one income account, one expense account and one
balanced transaction between them. -/
theorem C12_net_income_witness :
    (∀ t ∈ incomeState.transactions, t.Balanced) ∧ OnlyIncomeExpense incomeState ∧
      generateIncomeStatement incomeState = some incomeStateStatement ∧
      incomeStateStatement.utilidadNeta =
        incomeStateStatement.totalIngreso - incomeStateStatement.totalGasto ∧
      ∃ inc, generateIncomeStatement incomeState = some inc ∧
        inc.utilidadNeta = inc.totalIngreso - inc.totalGasto :=
  have hbal : ∀ t ∈ incomeState.transactions, t.Balanced := by
    intro t ht
    rw [List.mem_singleton.1 ht]
    unfold Transaction.Balanced
    decide
  have honly : OnlyIncomeExpense incomeState := by
    intro t ht l hl
    rw [List.mem_singleton.1 ht] at hl
    simp only [List.mem_cons, List.mem_singleton, List.not_mem_nil, or_false] at hl
    rcases hl with rfl | rfl
    · exact ⟨⟨5, "RENT", "Rent", .gasto, none, false, none⟩, by decide, Or.inr rfl⟩
    · exact ⟨⟨4, "SALES", "Sales", .ingreso, none, false, none⟩, by decide, Or.inl rfl⟩
  ⟨hbal, honly, by decide,
    (C12_net_income incomeState).1 incomeStateStatement (by decide),
    (C12_net_income incomeState).2 hbal honly⟩

/-! ## Lemmas on `deleteTransaction` -/

theorem findTransactionById_at (s : State) (pre post : List Transaction) (t : Transaction)
    (hs : s.transactions = pre ++ t :: post) (hpre : ∀ t' ∈ pre, t'._id ≠ t._id) :
    findTransactionById s t._id = some t := by
  unfold findTransactionById
  rw [hs, List.find?_append]
  have h1 : pre.find? (fun x => x._id == t._id) = none := by
    rw [List.find?_eq_none]
    intro x hx
    simpa using hpre x hx
  rw [h1]
  simp

/-- Deleting by the id of a stored transaction that no earlier document
shares removes that document and nothing else. -/
theorem deleteTransaction_at (s : State) (pre post : List Transaction) (t : Transaction)
    (hs : s.transactions = pre ++ t :: post) (hpre : ∀ t' ∈ pre, t'._id ≠ t._id) :
    deleteTransaction s (.oid t._id) = (.deleted, ⟨s.accounts, pre ++ post⟩) := by
  have hnot : t ∉ pre := fun h => hpre t h rfl
  unfold deleteTransaction
  simp only [findTransactionById_at s pre post t hs hpre]
  rw [hs, List.erase_append_right _ hnot, List.erase_cons_head]

/-- C13: recording an accepted transaction T under an `_id` no stored
transaction has and then deleting T by that `_id` gives back the very store the
recording started from, so the balance sheet and the income statement are
exactly what they were. More generally, wherever T stands among the stored
transactions, deleting it leaves the accounts and the other transactions in
their order, and the reports are those of the store without T. -/
theorem C13_delete_after_record (P : Platform) (ctx : Ctx) (s : State) (body : TransactionBody)
    (t : Transaction) (hfresh : ∀ t' ∈ s.transactions, t'._id ≠ ctx.newId)
    (h : (recordTransaction P ctx s body).1 = .created t) :
    deleteTransaction (recordTransaction P ctx s body).2 (.oid t._id) = (.deleted, s) ∧
      generateBalanceSheet (deleteTransaction (recordTransaction P ctx s body).2 (.oid t._id)).2 =
        generateBalanceSheet s ∧
      generateIncomeStatement
          (deleteTransaction (recordTransaction P ctx s body).2 (.oid t._id)).2 =
        generateIncomeStatement s ∧
      ∀ (s' : State) (pre post : List Transaction), s'.transactions = pre ++ t :: post →
        (∀ t' ∈ pre, t'._id ≠ t._id) →
        (deleteTransaction s' (.oid t._id)).2 = ⟨s'.accounts, pre ++ post⟩ ∧
          generateBalanceSheet (deleteTransaction s' (.oid t._id)).2 =
            generateBalanceSheet ⟨s'.accounts, pre ++ post⟩ ∧
          generateIncomeStatement (deleteTransaction s' (.oid t._id)).2 =
            generateIncomeStatement ⟨s'.accounts, pre ++ post⟩ := by
  have key : deleteTransaction (recordTransaction P ctx s body).2 (.oid t._id) = (.deleted, s) := by
    rcases recordTransaction_cases P ctx s body with
      ⟨_, hne⟩ | ⟨d, ls, t', _, _, _, _, _, _, hb, heq⟩
    · exact absurd h (hne t)
    · rw [heq] at h ⊢
      simp only [TxResponse.created.injEq] at h
      subst h
      obtain ⟨_, _, _, _, _, _, ht⟩ := buildTransaction_eq hb
      have hid : t'._id = ctx.newId := by rw [ht]
      have := deleteTransaction_at ⟨s.accounts, s.transactions ++ [t']⟩ s.transactions [] t' rfl
        (fun x hx => by rw [hid]; exact hfresh x hx)
      rw [List.append_nil] at this
      exact this
  refine ⟨key, by rw [key], by rw [key], fun s' pre post hs hpre => ?_⟩
  have := deleteTransaction_at s' pre post t hs hpre
  rw [this]
  exact ⟨rfl, rfl, rfl⟩

/-- C13 on the opening entry recorded in, and deleted from, the sample store,
and deleted from the sample ledger where three transactions follow it. -/
theorem C13_delete_after_record_witness :
    deleteTransaction (recordTransaction demoPlatform demoCtx demoState openingBody).2
        (.oid openingTransaction._id) = (.deleted, demoState) ∧
      generateBalanceSheet (deleteTransaction ledgerState (.oid openingTransaction._id)).2 =
        generateBalanceSheet ⟨ledgerState.accounts, [] ++ ledgerState.transactions.tail⟩ :=
  have h := C13_delete_after_record demoPlatform demoCtx demoState openingBody
    openingTransaction (fun t' ht' => by cases ht') (by decide)
  ⟨h.1, (h.2.2.2 ledgerState [] ledgerState.transactions.tail rfl
    (fun t' ht' => by cases ht')).2.1⟩

/-- C14, as stated, fails on an id that is not well formed: it resolves to no
transaction, and the answer is the 400 of the id check, not the 404. -/
theorem C14_counterexample :
    isValidObjectId .malformed = false ∧
      deleteTransaction ⟨[cash, equity], [openingTransaction]⟩ .malformed =
        (.invalidTransactionId, ⟨[cash, equity], [openingTransaction]⟩) ∧
      (deleteTransaction ⟨[cash, equity], [openingTransaction]⟩ .malformed).1.status = 400 ∧
      (deleteTransaction ⟨[cash, equity], [openingTransaction]⟩ .malformed).1 ≠
        .transactionNotFound := by
  decide

/-- C14, amended: for every well-formed id that resolves to a stored
Transaction the delete succeeds (200), whatever the transaction holds and
whatever else is stored, removing exactly that transaction and leaving the
other transactions, in their order, and every account unchanged; for a
well-formed id that resolves to no transaction the answer is 404 and nothing
changes; an id that is not well formed is refused with 400 and nothing
changes. -/
theorem C14_delete_transaction (s : State) :
    (∀ tid t, findTransactionById s tid = some t →
      deleteTransaction s (.oid tid) = (.deleted, ⟨s.accounts, s.transactions.erase t⟩) ∧
        (deleteTransaction s (.oid tid)).1.status = 200 ∧ t._id = tid ∧
        ∃ pre post, s.transactions = pre ++ t :: post ∧ (∀ t' ∈ pre, t'._id ≠ tid) ∧
          (deleteTransaction s (.oid tid)).2.transactions = pre ++ post) ∧
    (∀ tid, findTransactionById s tid = none →
      deleteTransaction s (.oid tid) = (.transactionNotFound, s) ∧
        (deleteTransaction s (.oid tid)).1.status = 404) ∧
    (∀ id, isValidObjectId id = false →
      deleteTransaction s id = (.invalidTransactionId, s) ∧
        (deleteTransaction s id).1.status = 400) := by
  refine ⟨fun tid t hfind => ?_, fun tid hfind => ?_, fun id hid => ?_⟩
  · have hfind' := hfind
    unfold findTransactionById at hfind'
    obtain ⟨hp, pre, post, hs, hpre⟩ := List.find?_eq_some.1 hfind'
    have hid : t._id = tid := by simpa using hp
    have hpre' : ∀ t' ∈ pre, t'._id ≠ t._id := by
      intro t' ht'
      have := hpre t' ht'
      rw [hid]
      simpa using this
    have hdel := deleteTransaction_at s pre post t hs hpre'
    rw [hid] at hdel
    have herase : s.transactions.erase t = pre ++ post := by
      rw [hs, List.erase_append_right _ (fun h => hpre' t h rfl), List.erase_cons_head]
    rw [hdel, herase]
    exact ⟨rfl, rfl, hid, pre, post, hs, fun t' ht' => by rw [← hid]; exact hpre' t' ht', rfl⟩
  · have hdel : deleteTransaction s (.oid tid) = (.transactionNotFound, s) := by
      unfold deleteTransaction
      simp only [hfind]
    rw [hdel]
    exact ⟨rfl, rfl⟩
  · cases id with
    | missing => exact ⟨rfl, rfl⟩
    | malformed => exact ⟨rfl, rfl⟩
    | oid x => cases hid

/-- C14 amended on the sample ledger: deleting the second transaction, and
asking for an id no transaction has. -/
theorem C14_delete_transaction_witness :
    (deleteTransaction ledgerState (.oid 11)).1.status = 200 ∧
      deleteTransaction ledgerState (.oid 99) = (.transactionNotFound, ledgerState) :=
  ⟨((C14_delete_transaction ledgerState).1 11
      ⟨11, 6, "loan", [⟨1, some 500, some 0⟩, ⟨3, some 0, some 500⟩], 77⟩ (by decide)).2.1,
    ((C14_delete_transaction ledgerState).2.1 99 (by decide)).1⟩

/-! ## Lemmas on the account routes -/

theorem strTruthy_eq_false_of_missing {v : Option String} (h : FieldMissing v) :
    strTruthy v = false := by
  rcases h with h | h <;> (subst h; rfl)

theorem strTruthy_some {v : Option String} (h : strTruthy v = true) :
    ∃ x, v = some x ∧ x ≠ "" := by
  cases v with
  | none => cases h
  | some x => exact ⟨x, rfl, by simpa [strTruthy] using h⟩

/-- Past the first two checks the handler is the lookup by code, the lookup of
the parent and the save. -/
theorem createAccount_of_present (P : Platform) (ctx : Ctx) (s : State) (body : AccountBody)
    (code name type : String) (hc : body.code = some code) (hn : body.name = some name)
    (ht : body.type = some type) (hc' : code ≠ "") (hn' : name ≠ "") (ht' : type ≠ "")
    (hp : body.parent ≠ .malformed) :
    createAccount P ctx s body =
      match findAccountByCode P s code with
      | some _ => (.duplicateCode, s)
      | none =>
        match body.parent with
        | .oid parent =>
          match findAccountById s parent with
          | none => (.parentNotFound, s)
          | some _ => saveAccount P ctx s code name type (some parent) body.isGroup body.description
        | _ => saveAccount P ctx s code name type none body.isGroup body.description := by
  have h1 : (!strTruthy body.code || !strTruthy body.name || !strTruthy body.type) = false := by
    simp [hc, hn, ht, strTruthy, hc', hn', ht']
  have h2 : (body.parent.truthy && !isValidObjectId body.parent) = false := by
    cases hpar : body.parent with
    | missing => rfl
    | malformed => exact absurd hpar hp
    | oid p => rfl
  unfold createAccount
  rw [h1, h2]
  simp only [Bool.false_eq_true, if_false, hc, hn, ht]

/-- C15: when code, name or type is missing (absent, `null` or empty), whatever
the other arguments and the store, `createAccount` answers 400 and stores
nothing. -/
theorem C15_required_fields (P : Platform) (ctx : Ctx) (s : State) (body : AccountBody)
    (h : FieldMissing body.code ∨ FieldMissing body.name ∨ FieldMissing body.type) :
    createAccount P ctx s body = (.requiredFields, s) ∧
      (createAccount P ctx s body).1.status = 400 := by
  have key : (!strTruthy body.code || !strTruthy body.name || !strTruthy body.type) = true := by
    rcases h with h | h | h
    · simp [strTruthy_eq_false_of_missing h]
    · simp [strTruthy_eq_false_of_missing h]
    · simp [strTruthy_eq_false_of_missing h]
  have : createAccount P ctx s body = (.requiredFields, s) := by
    unfold createAccount
    rw [if_pos key]
  rw [this]
  exact ⟨rfl, rfl⟩

/-- C15 on a request without a name, whose code is moreover that of a stored
account. -/
theorem C15_required_fields_witness :
    createAccount demoPlatform demoCtx codedState lowerCodeUnnamedBody =
        (.requiredFields, codedState) ∧
      (createAccount demoPlatform demoCtx codedState lowerCodeUnnamedBody).1.status = 400 :=
  C15_required_fields demoPlatform demoCtx codedState lowerCodeUnnamedBody
    (Or.inr (Or.inl (Or.inl rfl)))

/-- C16, as stated, fails: `1000-a` and the stored `1000-A` normalize to the
same string, yet a request for `1000-a` that lacks a name, or that names a
parent that is not a well-formed id, is answered 400 by the earlier check and
not 409. -/
theorem C16_counterexample :
    normalizeCode demoPlatform "1000-a" = normalizeCode demoPlatform "1000-A" ∧
      (createAccount demoPlatform demoCtx codedState lowerCodeUnnamedBody =
          (.requiredFields, codedState) ∧
        (createAccount demoPlatform demoCtx codedState lowerCodeUnnamedBody).1.status = 400) ∧
      (createAccount demoPlatform demoCtx codedState lowerCodeMalformedParentBody =
          (.invalidParentId, codedState) ∧
        (createAccount demoPlatform demoCtx codedState
          lowerCodeMalformedParentBody).1.status = 400) := by
  decide

/-- C16, amended: for every stored Account with code c (stored codes are
normalized) and every requested code c' that normalizes to the same string,
`createAccount` with code c' stores nothing and creates no account; and when
the request also has a name and a type and its parent, if any, is a well-formed
id, the answer is the 409 of the duplicate code. -/
theorem C16_duplicate_code (P : Platform) (ctx : Ctx) (s : State) (body : AccountBody)
    (a : Account) (c' : String) (ha : a ∈ s.accounts)
    (hstored : normalizeCode P a.code = a.code) (hc : body.code = some c')
    (hsame : normalizeCode P c' = normalizeCode P a.code) :
    ((createAccount P ctx s body).2 = s ∧ ∀ x, (createAccount P ctx s body).1 ≠ .created x) ∧
      (c' ≠ "" → strTruthy body.name = true → strTruthy body.type = true →
        body.parent ≠ .malformed →
        createAccount P ctx s body = (.duplicateCode, s) ∧
          (createAccount P ctx s body).1.status = 409) := by
  have hfind : ∃ b, findAccountByCode P s c' = some b := by
    apply Option.isSome_iff_exists.1
    unfold findAccountByCode
    rw [List.find?_isSome]
    exact ⟨a, ha, by rw [hsame, hstored]; simp⟩
  obtain ⟨b, hb⟩ := hfind
  have main : c' ≠ "" → strTruthy body.name = true → strTruthy body.type = true →
      body.parent ≠ .malformed → createAccount P ctx s body = (.duplicateCode, s) := by
    intro hc' hn ht hp
    obtain ⟨name, hn1, hn2⟩ := strTruthy_some hn
    obtain ⟨type, ht1, ht2⟩ := strTruthy_some ht
    rw [createAccount_of_present P ctx s body c' name type hc hn1 ht1 hc' hn2 ht2 hp, hb]
  refine ⟨?_, fun hc' hn ht hp => by rw [main hc' hn ht hp]; exact ⟨rfl, rfl⟩⟩
  by_cases h1 : (!strTruthy body.code || !strTruthy body.name || !strTruthy body.type) = true
  · have : createAccount P ctx s body = (.requiredFields, s) := by
      unfold createAccount
      rw [if_pos h1]
    rw [this]
    exact ⟨rfl, fun x hx => by cases hx⟩
  · by_cases h2 : (body.parent.truthy && !isValidObjectId body.parent) = true
    · have : createAccount P ctx s body = (.invalidParentId, s) := by
        unfold createAccount
        rw [if_neg h1, if_pos h2]
      rw [this]
      exact ⟨rfl, fun x hx => by cases hx⟩
    · have hc' : c' ≠ "" := by
        intro h
        apply h1
        simp [hc, h, strTruthy]
      have hn : strTruthy body.name = true := by
        by_contra h
        apply h1
        have h' : strTruthy body.name = false := by simpa using h
        simp [h']
      have ht : strTruthy body.type = true := by
        by_contra h
        apply h1
        have h' : strTruthy body.type = false := by simpa using h
        simp [h']
      have hp : body.parent ≠ .malformed := by
        intro h
        apply h2
        rw [h]
        rfl
      rw [main hc' hn ht hp]
      exact ⟨rfl, fun x hx => by cases hx⟩

/-- C16 amended on the example of the claim: `1000-A` stored, `1000-a`
requested. -/
theorem C16_duplicate_code_witness :
    createAccount demoPlatform demoCtx codedState lowerCodeBody = (.duplicateCode, codedState) ∧
      (createAccount demoPlatform demoCtx codedState lowerCodeBody).1.status = 409 :=
  (C16_duplicate_code demoPlatform demoCtx codedState lowerCodeBody
    ⟨1, "1000-A", "Bank", .activo, none, false, none⟩ "1000-a"
    (List.mem_singleton.2 rfl) (by decide) rfl (by decide)).2 (by decide) rfl rfl
    (by decide)

/-- C17: when code, name and type are present and the code is not already
used, a parent that is not a well-formed id gives 400, a parent that is a
well-formed id of no stored Account gives 404, and in both cases the store is
left as it was. -/
theorem C17_parent_checks (P : Platform) (ctx : Ctx) (s : State) (body : AccountBody)
    (code : String) (hc : body.code = some code) (hc' : code ≠ "")
    (hn : strTruthy body.name = true) (ht : strTruthy body.type = true)
    (hfree : findAccountByCode P s code = none) :
    (body.parent = .malformed →
      createAccount P ctx s body = (.invalidParentId, s) ∧
        (createAccount P ctx s body).1.status = 400) ∧
    (∀ p, body.parent = .oid p → findAccountById s p = none →
      createAccount P ctx s body = (.parentNotFound, s) ∧
        (createAccount P ctx s body).1.status = 404) := by
  obtain ⟨name, hn1, hn2⟩ := strTruthy_some hn
  obtain ⟨type, ht1, ht2⟩ := strTruthy_some ht
  constructor
  · intro hp
    have h1 : (!strTruthy body.code || !strTruthy body.name || !strTruthy body.type) = false := by
      simp [hc, hn1, ht1, strTruthy, hc', hn2, ht2]
    have : createAccount P ctx s body = (.invalidParentId, s) := by
      unfold createAccount
      rw [h1, hp]
      rfl
    rw [this]
    exact ⟨rfl, rfl⟩
  · intro p hp hfind
    have : createAccount P ctx s body = (.parentNotFound, s) := by
      rw [createAccount_of_present P ctx s body code name type hc hn1 ht1 hc' hn2 ht2
        (by rw [hp]; exact fun h => by cases h), hfree, hp]
      simp only [hfind]
    rw [this]
    exact ⟨rfl, rfl⟩

/-- C17 on a parent that is not a well-formed id and on a parent that is not
stored. -/
theorem C17_parent_checks_witness :
    createAccount demoPlatform demoCtx codedState malformedParentBody =
        (.invalidParentId, codedState) ∧
      createAccount demoPlatform demoCtx codedState orphanBody =
        (.parentNotFound, codedState) :=
  ⟨((C17_parent_checks demoPlatform demoCtx codedState malformedParentBody "1100" rfl
      (by decide) rfl rfl (by decide)).1 rfl).1,
    ((C17_parent_checks demoPlatform demoCtx codedState orphanBody "1100" rfl
      (by decide) rfl rfl (by decide)).2 9 rfl (by decide)).1⟩

theorem buildAccount_eq {P : Platform} {ctx : Ctx} {s : State} {code name type : String}
    {parent : Option ObjectId} {isGroup : Option Bool} {description : Option String}
    {a : Account}
    (h : buildAccount P ctx s code name type parent isGroup description = some a) :
    ∃ t, castAccountType type = some t ∧
      a = ⟨ctx.newId, normalizeCode P code, jsTrim name, t, parent, isGroup.getD false,
        description.map jsTrim⟩ := by
  unfold buildAccount at h
  split at h
  · cases h
  · rename_i t ht
    split at h
    · cases h
    · split at h
      · cases h
      · simp only [Option.some.injEq] at h
        exact ⟨t, ht, h.symm⟩

theorem saveAccount_created {P : Platform} {ctx : Ctx} {s : State} {code name type : String}
    {parent : Option ObjectId} {isGroup : Option Bool} {description : Option String}
    {a : Account}
    (h : (saveAccount P ctx s code name type parent isGroup description).1 = .created a) :
    buildAccount P ctx s code name type parent isGroup description = some a ∧
      saveAccount P ctx s code name type parent isGroup description =
        (.created a, ⟨s.accounts ++ [a], s.transactions⟩) := by
  unfold saveAccount at h ⊢
  split at h
  · cases h
  · rename_i b hb
    simp only [AccResponse.created.injEq] at h
    subst h
    rw [hb]
    exact ⟨rfl, rfl⟩

/-- A run of `createAccount` that answers 201 passed every check and appended
the one document it built. -/
theorem createAccount_created (P : Platform) (ctx : Ctx) (s : State) (body : AccountBody)
    (a : Account) (h : (createAccount P ctx s body).1 = .created a) :
    ∃ code name type parent,
      body.code = some code ∧ body.name = some name ∧ body.type = some type ∧
      findAccountByCode P s code = none ∧
      ((body.parent = .missing ∧ parent = none) ∨
        (∃ p, body.parent = .oid p ∧ parent = some p ∧ (findAccountById s p).isSome = true)) ∧
      buildAccount P ctx s code name type parent body.isGroup body.description = some a ∧
      createAccount P ctx s body = (.created a, ⟨s.accounts ++ [a], s.transactions⟩) := by
  by_cases h1 : (!strTruthy body.code || !strTruthy body.name || !strTruthy body.type) = true
  · have : createAccount P ctx s body = (.requiredFields, s) := by
      unfold createAccount
      rw [if_pos h1]
    rw [this] at h
    cases h
  · by_cases h2 : (body.parent.truthy && !isValidObjectId body.parent) = true
    · have : createAccount P ctx s body = (.invalidParentId, s) := by
        unfold createAccount
        rw [if_neg h1, if_pos h2]
      rw [this] at h
      cases h
    · have hc : strTruthy body.code = true := by
        by_contra hx
        apply h1
        have h' : strTruthy body.code = false := by simpa using hx
        simp [h']
      have hn : strTruthy body.name = true := by
        by_contra hx
        apply h1
        have h' : strTruthy body.name = false := by simpa using hx
        simp [h']
      have ht : strTruthy body.type = true := by
        by_contra hx
        apply h1
        have h' : strTruthy body.type = false := by simpa using hx
        simp [h']
      have hp : body.parent ≠ .malformed := by
        intro hx
        apply h2
        rw [hx]
        rfl
      obtain ⟨code, hc1, hc2⟩ := strTruthy_some hc
      obtain ⟨name, hn1, hn2⟩ := strTruthy_some hn
      obtain ⟨type, ht1, ht2⟩ := strTruthy_some ht
      have heq := createAccount_of_present P ctx s body code name type hc1 hn1 ht1 hc2 hn2 ht2 hp
      rw [heq] at h
      cases hfind : findAccountByCode P s code with
      | some b =>
        rw [hfind] at h
        cases h
      | none =>
        rw [hfind] at h
        simp only at h
        cases hpar : body.parent with
        | malformed => exact absurd hpar hp
        | missing =>
          rw [hpar] at h
          simp only at h
          obtain ⟨hb, hsave⟩ := saveAccount_created h
          have hfinal : createAccount P ctx s body =
              saveAccount P ctx s code name type none body.isGroup body.description := by
            rw [heq, hfind, hpar]
          exact ⟨code, name, type, none, hc1, hn1, ht1, hfind, Or.inl ⟨rfl, rfl⟩, hb,
            hfinal.trans hsave⟩
        | oid p =>
          rw [hpar] at h
          simp only at h
          cases hpf : findAccountById s p with
          | none =>
            rw [hpf] at h
            cases h
          | some x =>
            rw [hpf] at h
            simp only at h
            obtain ⟨hb, hsave⟩ := saveAccount_created h
            have hfinal : createAccount P ctx s body =
                saveAccount P ctx s code name type (some p) body.isGroup body.description := by
              rw [heq, hfind, hpar]
              simp only [hpf]
            exact ⟨code, name, type, some p, hc1, hn1, ht1, hfind,
              Or.inr ⟨p, rfl, rfl, by rw [hpf]; rfl⟩, hb, hfinal.trans hsave⟩

theorem createAccount_state (P : Platform) (ctx : Ctx) (s : State) (body : AccountBody) :
    (createAccount P ctx s body).2 = s ∨ ∃ a, (createAccount P ctx s body).1 = .created a := by
  unfold createAccount saveAccount
  repeat' split
  all_goals first
    | exact Or.inl rfl
    | exact Or.inr ⟨_, rfl⟩

theorem castPatch_code {P : Platform} {patch : AccountPatch} {u : AccountUpdate}
    (h : castPatch P patch = some u) :
    u.code = none ∨ ∃ c, u.code = some (normalizeCode P c) := by
  unfold castPatch at h
  simp only at h
  split at h
  · rename_i c n t p hc _ _ _
    simp only [Option.some.injEq] at h
    subst h
    simp only
    split at hc
    · simp only [Option.some.injEq] at hc
      exact Or.inl hc.symm
    · rename_i x _
      split at hc
      · cases hc
      · simp only [Option.some.injEq] at hc
        exact Or.inr ⟨x, hc.symm⟩
  · cases h

/-- On a platform whose code normalization is idempotent, every stored code
is its own normal form in every reachable state. -/
theorem reachable_codes_normalized (P : Platform)
    (hidem : ∀ x, normalizeCode P (normalizeCode P x) = normalizeCode P x)
    (s : State) (h : Reachable P s) :
    ∀ a ∈ s.accounts, normalizeCode P a.code = a.code := by
  induction h with
  | empty => intro a ha; cases ha
  | step _ hstep ih =>
    cases hstep with
    | createAccount ctx body _ =>
      rcases createAccount_state P ctx _ body with h | ⟨b, hb⟩
      · rw [h]; exact ih
      · obtain ⟨code, _, _, _, _, _, _, _, _, hbuild, heq⟩ := createAccount_created P ctx _ body b hb
        obtain ⟨_, _, hb'⟩ := buildAccount_eq hbuild
        rw [heq]
        intro a ha
        simp only [List.mem_append, List.mem_singleton] at ha
        rcases ha with ha | rfl
        · exact ih a ha
        · rw [hb']
          exact hidem code
    | updateAccount id patch =>
      unfold Erp.updateAccount
      repeat' split
      all_goals first
        | exact ih
        | skip
      rename_i aid _ u hu _ a0 hfind _
      intro a ha
      simp only [List.mem_map] at ha
      obtain ⟨b, hb, rfl⟩ := ha
      split
      · rcases castPatch_code hu with hnone | ⟨c, hsome⟩
        · simp only [applyUpdate, hnone, Option.getD_none]
          exact ih a0 (findAccountById_id hfind).2
        · simp only [applyUpdate, hsome, Option.getD_some]
          exact hidem c
      · exact ih b hb
    | deleteAccount id =>
      intro a ha
      exact ih a ((deleteAccount_accounts_sublist _ id).subset ha)
    | recordTransaction ctx body _ => rw [recordTransaction_accounts]; exact ih
    | deleteTransaction id => rw [deleteTransaction_accounts]; exact ih

/-- C18, as stated, fails on the name: the request gives the name
`" Petty cash "` and the account is stored, and returned, with the name
`"Petty cash"`. -/
theorem C18_counterexample :
    paddedBody.name = some " Petty cash " ∧
      createAccount demoPlatform demoCtx codedState paddedBody =
        (.created pettyCash, familyState) ∧
      pettyCash.name = "Petty cash" ∧ pettyCash.name ≠ " Petty cash " := by
  decide

/-- C18, amended: when `createAccount` succeeds, exactly one Account is added,
after the ones already stored; its code is the requested code upper-cased and
trimmed, its name is the requested name trimmed, its type is the requested one
and its parent is the requested one, which is then a stored account (no parent
when none is requested); the stored transactions and the accounts already
stored are unchanged; and, its `_id` being a new one, it is in the answer of a
subsequent `listAccounts` and is the answer of `getAccount` on its `_id`. -/
theorem C18_create_success (P : Platform) (ctx : Ctx) (s : State) (body : AccountBody)
    (a : Account) (hfresh : ∀ b ∈ s.accounts, b._id ≠ ctx.newId)
    (h : (createAccount P ctx s body).1 = .created a) :
    (createAccount P ctx s body).2.accounts = s.accounts ++ [a] ∧
      (createAccount P ctx s body).2.transactions = s.transactions ∧
      a._id = ctx.newId ∧
      (∃ code name type, body.code = some code ∧ body.name = some name ∧
        body.type = some type ∧ a.code = normalizeCode P code ∧ a.name = jsTrim name ∧
        castAccountType type = some a.type) ∧
      ((body.parent = .missing ∧ a.parent = none) ∨
        (∃ p, body.parent = .oid p ∧ a.parent = some p ∧
          (findAccountById s p).isSome = true)) ∧
      populateParent (createAccount P ctx s body).2 a ∈
        listAccounts (createAccount P ctx s body).2 ∧
      getAccount (createAccount P ctx s body).2 (.oid a._id) =
        .found (populateParent (createAccount P ctx s body).2 a) := by
  obtain ⟨code, name, type, parent, hc, hn, ht, _, hpar, hb, heq⟩ :=
    createAccount_created P ctx s body a h
  obtain ⟨t, htype, ha⟩ := buildAccount_eq hb
  have hid : a._id = ctx.newId := by rw [ha]
  have hparent : a.parent = parent := by rw [ha]
  rw [heq]
  refine ⟨rfl, rfl, hid, ⟨code, name, type, hc, hn, ht, by rw [ha], by rw [ha], ?_⟩, ?_, ?_, ?_⟩
  · rw [htype, ha]
  · rcases hpar with ⟨h1, h2⟩ | ⟨p, h1, h2, h3⟩
    · exact Or.inl ⟨h1, by rw [hparent, h2]⟩
    · exact Or.inr ⟨p, h1, by rw [hparent, h2], h3⟩
  · unfold listAccounts
    apply List.mem_map_of_mem
    simp
  · have hfind : findAccountById ⟨s.accounts ++ [a], s.transactions⟩ a._id = some a := by
      unfold findAccountById
      simp only
      rw [List.find?_append]
      have h1 : s.accounts.find? (fun x => x._id == a._id) = none := by
        rw [List.find?_eq_none]
        intro x hx
        rw [hid]
        simpa using hfresh x hx
      rw [h1]
      simp
    unfold getAccount
    simp only [hfind]

/-- C18 amended on the request with padded code and name under a stored
parent. -/
theorem C18_create_success_witness :
    (createAccount demoPlatform demoCtx codedState paddedBody).2.accounts =
        codedState.accounts ++ [pettyCash] ∧
      getAccount (createAccount demoPlatform demoCtx codedState paddedBody).2
          (.oid pettyCash._id) =
        .found (populateParent (createAccount demoPlatform demoCtx codedState paddedBody).2
          pettyCash) ∧
      populateParent familyState pettyCash =
        ⟨10, "1100", "Petty cash", .activo, some ⟨1, "1000-A", "Bank"⟩, false, none⟩ :=
  have h := C18_create_success demoPlatform demoCtx codedState paddedBody pettyCash
    (by decide) (by decide)
  ⟨h.1, h.2.2.2.2.2.2, by decide⟩

/-- C19: for every id that some stored Account has as its parent,
`deleteAccount(id)` is refused because of the children (the handler sends this
refusal with status 400) and the store after the call is the store before
it. -/
theorem C19_delete_with_children (s : State) (id : ObjectId)
    (h : ∃ a ∈ s.accounts, a.parent = some id) :
    deleteAccount s (.oid id) = (.hasChildren, s) ∧
      (deleteAccount s (.oid id)).2.accounts = s.accounts ∧
      (deleteAccount s (.oid id)).1.status = 400 := by
  have hany : s.accounts.any (fun a => a.parent == some id) = true := by
    rw [List.any_eq_true]
    obtain ⟨a, ha, hp⟩ := h
    exact ⟨a, ha, by rw [hp]; simp⟩
  have : deleteAccount s (.oid id) = (.hasChildren, s) := by
    unfold deleteAccount
    simp only [hany, if_true]
  rw [this]
  exact ⟨rfl, rfl, rfl⟩

/-- C19 on the account `1000-A`, parent of `1100`. -/
theorem C19_delete_with_children_witness :
    deleteAccount familyState (.oid 1) = (.hasChildren, familyState) ∧
      (deleteAccount familyState (.oid 1)).2.accounts = familyState.accounts ∧
      (deleteAccount familyState (.oid 1)).1.status = 400 :=
  C19_delete_with_children familyState 1 ⟨pettyCash, by decide, rfl⟩

theorem find?_erase_of_ne (p : ObjectId) (a : Account) (hne : a._id ≠ p) :
    ∀ L : List Account,
      (L.erase a).find? (fun x => x._id == p) = L.find? (fun x => x._id == p)
  | [] => rfl
  | x :: L => by
    by_cases hx : x = a
    · subst hx
      rw [List.erase_cons_head, List.find?_cons]
      have : (x._id == p) = false := by simpa using hne
      rw [this]
    · have hb : ¬ (x == a) = true := by simpa using hx
      rw [List.erase_cons_tail hb, List.find?_cons, List.find?_cons,
        find?_erase_of_ne p a hne L]

/-- Removing an account that is nobody's parent leaves the populated view of
every stored account as it was. -/
theorem populateParent_erase (s : State) (a b : Account) (hb : b.parent ≠ some a._id) :
    populateParent ⟨s.accounts.erase a, s.transactions⟩ b = populateParent s b := by
  unfold populateParent
  cases hp : b.parent with
  | none => rfl
  | some p =>
    have hne : a._id ≠ p := by
      intro h
      apply hb
      rw [hp, h]
    have : findAccountById ⟨s.accounts.erase a, s.transactions⟩ p = findAccountById s p :=
      find?_erase_of_ne p a hne s.accounts
    simp only [this]

/-- C20: for every stored Account that is nobody's parent, in a store whose
accounts have distinct ids, `deleteAccount` on its id succeeds (200) and removes
that document only; the answer of `listAccounts` then has no account of that
id and has every other previously stored account exactly as `listAccounts`
gave it before, one account less in all; the transactions are untouched. -/
theorem C20_delete_childless (s : State) (a : Account) (hu : UniqueAccountIds s)
    (ha : a ∈ s.accounts) (hno : ∀ b ∈ s.accounts, b.parent ≠ some a._id) :
    deleteAccount s (.oid a._id) = (.deleted, ⟨s.accounts.erase a, s.transactions⟩) ∧
      (deleteAccount s (.oid a._id)).1.status = 200 ∧
      (∀ v ∈ listAccounts (deleteAccount s (.oid a._id)).2, v._id ≠ a._id) ∧
      (∀ b ∈ s.accounts, b ≠ a →
        b ∈ (deleteAccount s (.oid a._id)).2.accounts ∧
        populateParent (deleteAccount s (.oid a._id)).2 b = populateParent s b ∧
        populateParent s b ∈ listAccounts (deleteAccount s (.oid a._id)).2) ∧
      (listAccounts (deleteAccount s (.oid a._id)).2).length + 1 = (listAccounts s).length ∧
      (deleteAccount s (.oid a._id)).2.transactions = s.transactions := by
  have hany : s.accounts.any (fun b => b.parent == some a._id) = false := by
    rw [List.any_eq_false]
    intro b hb
    simpa using hno b hb
  have hfind := findAccountById_of_unique hu ha
  have hdel : deleteAccount s (.oid a._id) = (.deleted, ⟨s.accounts.erase a, s.transactions⟩) := by
    unfold deleteAccount
    simp only [hany, hfind, Bool.false_eq_true, if_false]
  have hnodup : s.accounts.Nodup := List.Nodup.of_map _ hu
  rw [hdel]
  refine ⟨rfl, rfl, ?_, ?_, ?_, rfl⟩
  · intro v hv
    unfold listAccounts at hv
    obtain ⟨b, hb, rfl⟩ := List.mem_map.1 hv
    have hb' : b ≠ a ∧ b ∈ s.accounts := (List.Nodup.mem_erase_iff hnodup).1 hb
    intro hid
    have h1 := findAccountById_of_unique hu hb'.2
    have hid' : b._id = a._id := hid
    rw [hid', hfind] at h1
    exact hb'.1 (Option.some.inj h1).symm
  · intro b hb hne
    have hmem : b ∈ s.accounts.erase a := (List.Nodup.mem_erase_iff hnodup).2 ⟨hne, hb⟩
    have hpop := populateParent_erase s a b (hno b hb)
    refine ⟨hmem, hpop, ?_⟩
    unfold listAccounts
    rw [← hpop]
    exact List.mem_map_of_mem _ hmem
  · unfold listAccounts
    simp only [List.length_map]
    rw [List.length_erase_of_mem ha]
    have : 0 < s.accounts.length := List.length_pos_of_mem ha
    omega

/-- C20 on the childless account `1100` of the store where it is the child of
`1000-A`. -/
theorem C20_delete_childless_witness :
    deleteAccount familyState (.oid pettyCash._id) =
        (.deleted, ⟨familyState.accounts.erase pettyCash, familyState.transactions⟩) ∧
      listAccounts (deleteAccount familyState (.oid pettyCash._id)).2 =
        [⟨1, "1000-A", "Bank", .activo, none, false, none⟩] :=
  ⟨(C20_delete_childless familyState pettyCash (by unfold UniqueAccountIds; decide)
      (by decide) (by decide)).1,
    by decide⟩

/-! ## Lemmas on reachable stores -/

theorem danglingParentState_reachable : Reachable demoPlatform danglingParentState :=
  Reachable.step
    (Reachable.step Reachable.empty
      (Step.createAccount State.empty ⟨0, 1, .oid 77⟩ cashBody (by unfold FreshId; decide)))
    (Step.updateAccount ⟨[cash], []⟩ (.oid 1) parentNinePatch)

/-- C21, as stated, fails: in a store reached by creating an account and then
updating its parent to the id 9, no account has the id 9, and `deleteAccount`
on 9 is refused because of the children (400), not answered 404. -/
theorem C21_counterexample :
    Reachable demoPlatform danglingParentState ∧
      findAccountById danglingParentState 9 = none ∧
      deleteAccount danglingParentState (.oid 9) = (.hasChildren, danglingParentState) ∧
      (deleteAccount danglingParentState (.oid 9)).1.status = 400 :=
  ⟨danglingParentState_reachable, by decide, by decide, by decide⟩

/-- C21, amended: for every well-formed id that resolves to no stored Account
and that no stored account holds in its parent field, `deleteAccount` answers
404; when some account's parent field holds that id it is refused because of
the children instead; in both cases the store is unchanged. -/
theorem C21_delete_unknown (s : State) (id : ObjectId) (hfind : findAccountById s id = none) :
    ((∀ a ∈ s.accounts, a.parent ≠ some id) →
        deleteAccount s (.oid id) = (.notFound, s) ∧
          (deleteAccount s (.oid id)).1.status = 404) ∧
      ((∃ a ∈ s.accounts, a.parent = some id) →
        deleteAccount s (.oid id) = (.hasChildren, s)) ∧
      (deleteAccount s (.oid id)).2 = s := by
  have h1 : (∀ a ∈ s.accounts, a.parent ≠ some id) →
      deleteAccount s (.oid id) = (.notFound, s) := by
    intro hno
    have hany : s.accounts.any (fun a => a.parent == some id) = false := by
      rw [List.any_eq_false]
      intro b hb
      simpa using hno b hb
    unfold deleteAccount
    simp only [hany, hfind, Bool.false_eq_true, if_false]
  have h2 : (∃ a ∈ s.accounts, a.parent = some id) →
      deleteAccount s (.oid id) = (.hasChildren, s) := by
    intro ⟨a, ha, hp⟩
    have hany : s.accounts.any (fun a => a.parent == some id) = true := by
      rw [List.any_eq_true]
      exact ⟨a, ha, by rw [hp]; simp⟩
    unfold deleteAccount
    simp only [hany, if_true]
  refine ⟨fun hno => by rw [h1 hno]; exact ⟨rfl, rfl⟩, h2, ?_⟩
  by_cases hex : ∃ a ∈ s.accounts, a.parent = some id
  · rw [h2 hex]
  · have hno : ∀ a ∈ s.accounts, a.parent ≠ some id := fun a ha hp => hex ⟨a, ha, hp⟩
    rw [h1 hno]

/-- C21 amended on the sample store, where the id 9 is neither an account nor
a parent. -/
theorem C21_delete_unknown_witness :
    deleteAccount demoState (.oid 9) = (.notFound, demoState) ∧
      (deleteAccount demoState (.oid 9)).1.status = 404 :=
  (C21_delete_unknown demoState 9 (by decide)).1 (by decide)

theorem buildAccount_code_fresh {P : Platform} {ctx : Ctx} {s : State} {code name type : String}
    {parent : Option ObjectId} {isGroup : Option Bool} {description : Option String}
    {a : Account}
    (h : buildAccount P ctx s code name type parent isGroup description = some a) :
    ∀ b ∈ s.accounts, b.code ≠ a.code := by
  unfold buildAccount at h
  split at h
  · cases h
  · split at h
    · cases h
    · split at h
      · cases h
      · rename_i hany
        simp only [Option.some.injEq] at h
        rw [← h]
        intro b hb hcode
        apply hany
        rw [List.any_eq_true]
        exact ⟨b, hb, by simpa using hcode⟩

/-- Every run of `updateAccount` either leaves the store as it was or found
the document, passed the unique index and replaced that document. -/
theorem updateAccount_cases (P : Platform) (s : State) (id : IdValue) (patch : AccountPatch) :
    (updateAccount P s id patch).2 = s ∨
      ∃ aid u a, id = .oid aid ∧ castPatch P patch = some u ∧
        findAccountById s aid = some a ∧
        (∀ b ∈ s.accounts, b._id ≠ aid → b.code ≠ (applyUpdate u a).code) ∧
        updateAccount P s id patch =
          (.updated (applyUpdate u a),
            ⟨s.accounts.map (fun b => if b._id = aid then applyUpdate u a else b),
              s.transactions⟩) := by
  unfold updateAccount
  split
  · rename_i aid
    split
    · exact Or.inl rfl
    · rename_i u hu
      split
      · exact Or.inl rfl
      · rename_i a ha
        split
        · exact Or.inl rfl
        · rename_i hany
          right
          refine ⟨aid, u, a, rfl, hu, ha, ?_, rfl⟩
          intro b hb hid hcode
          apply hany
          rw [List.any_eq_true]
          exact ⟨b, hb, by simp [hid, hcode]⟩
  · exact Or.inl rfl

theorem map_update_of_no_id (aid : ObjectId) (a' : Account) :
    ∀ L : List Account, (∀ b ∈ L, b._id ≠ aid) →
      L.map (fun b => if b._id = aid then a' else b) = L
  | [], _ => rfl
  | x :: rest, h => by
    rw [List.map_cons, map_update_of_no_id aid a' rest
      (fun b hb => h b (List.mem_cons_of_mem _ hb))]
    rw [if_neg (h x (List.mem_cons_self _ _))]

/-- Replacing the one document of a given id by a document whose code no other
document has keeps the codes pairwise distinct. -/
theorem nodup_codes_map_update (aid : ObjectId) (a' : Account) :
    ∀ L : List Account, (L.map (fun b => b._id)).Nodup → (L.map (fun b => b.code)).Nodup →
      (∀ b ∈ L, b._id ≠ aid → b.code ≠ a'.code) →
      ((L.map (fun b => if b._id = aid then a' else b)).map (fun b => b.code)).Nodup
  | [], _, _, _ => List.nodup_nil
  | x :: rest, hids, hcodes, hcheck => by
    rw [List.map_cons, List.nodup_cons] at hids hcodes
    have hrest : ∀ b ∈ rest, b._id ≠ aid → b.code ≠ a'.code :=
      fun b hb => hcheck b (List.mem_cons_of_mem _ hb)
    by_cases hx : x._id = aid
    · have hno : ∀ b ∈ rest, b._id ≠ aid := by
        intro b hb hbid
        exact hids.1 (by rw [hx, ← hbid]; exact List.mem_map_of_mem _ hb)
      rw [List.map_cons, map_update_of_no_id aid a' rest hno, if_pos hx, List.map_cons,
        List.nodup_cons]
      refine ⟨?_, hcodes.2⟩
      intro hmem
      obtain ⟨b, hb, hbc⟩ := List.mem_map.1 hmem
      exact hrest b hb (hno b hb) hbc
    · rw [List.map_cons, if_neg hx, List.map_cons, List.nodup_cons]
      refine ⟨?_, nodup_codes_map_update aid a' rest hids.2 hcodes.2 hrest⟩
      intro hmem
      obtain ⟨y, hy, hyc⟩ := List.mem_map.1 hmem
      obtain ⟨b, hb, hby⟩ := List.mem_map.1 hy
      by_cases hbid : b._id = aid
      · rw [if_pos hbid] at hby
        rw [← hby] at hyc
        exact hcheck x (List.mem_cons_self _ _) hx hyc.symm
      · rw [if_neg hbid] at hby
        rw [← hby] at hyc
        exact hcodes.1 (by rw [← hyc]; exact List.mem_map_of_mem _ hb)

/-- The stored codes are pairwise distinct in every reachable state. -/
theorem reachable_uniqueCodes (P : Platform) (s : State) (h : Reachable P s) :
    UniqueCodes s := by
  induction h with
  | empty => exact List.nodup_nil
  | step hs hstep ih =>
    have hu := reachable_uniqueAccountIds P _ hs
    unfold UniqueCodes at ih ⊢
    cases hstep with
    | createAccount ctx body _ =>
      rcases createAccount_state P ctx _ body with h | ⟨b, hb⟩
      · rw [h]; exact ih
      · obtain ⟨_, _, _, _, _, _, _, _, _, hbuild, heq⟩ := createAccount_created P ctx _ body b hb
        rw [heq]
        simp only [List.map_append, List.map_singleton]
        apply List.Nodup.append ih (List.nodup_singleton _)
        intro x hx hx'
        rw [List.mem_singleton] at hx'
        subst hx'
        obtain ⟨c, hc, hce⟩ := List.mem_map.1 hx
        exact buildAccount_code_fresh hbuild c hc hce
    | updateAccount id patch =>
      rcases updateAccount_cases P _ id patch with h | ⟨aid, u, a, _, _, _, hcheck, heq⟩
      · rw [h]; exact ih
      · rw [heq]
        exact nodup_codes_map_update aid _ _ hu ih hcheck
    | deleteAccount id =>
      exact List.Nodup.sublist ((deleteAccount_accounts_sublist _ id).map _) ih
    | recordTransaction ctx body _ => rw [recordTransaction_accounts]; exact ih
    | deleteTransaction id => rw [deleteTransaction_accounts]; exact ih

/-- C22: in every reachable state no two distinct stored Accounts have the same
code, the stored code being the upper-cased and trimmed one; and where the
normalization of codes is idempotent, no two have the same normalized code. -/
theorem C22_codes_unique (P : Platform) (s : State) (h : Reachable P s) :
    (s.accounts.map (fun a => a.code)).Nodup ∧
      (∀ a ∈ s.accounts, ∀ b ∈ s.accounts, a._id ≠ b._id → a.code ≠ b.code) ∧
      ((∀ x, normalizeCode P (normalizeCode P x) = normalizeCode P x) →
        ∀ a ∈ s.accounts, ∀ b ∈ s.accounts, a._id ≠ b._id →
          normalizeCode P a.code ≠ normalizeCode P b.code) := by
  have hn := reachable_uniqueCodes P s h
  have hpair : ∀ a ∈ s.accounts, ∀ b ∈ s.accounts, a._id ≠ b._id → a.code ≠ b.code := by
    intro a ha b hb hid hcode
    have := List.inj_on_of_nodup_map hn ha hb hcode
    exact hid (by rw [this])
  refine ⟨hn, hpair, fun hidem a ha b hb hid => ?_⟩
  rw [reachable_codes_normalized P hidem s h a ha, reachable_codes_normalized P hidem s h b hb]
  exact hpair a ha b hb hid

/-- C22 on the sample store, reached by two account creations. -/
theorem C22_codes_unique_witness :
    Reachable demoPlatform demoState ∧
      (demoState.accounts.map (fun a => a.code)).Nodup ∧
      (∀ a ∈ demoState.accounts, ∀ b ∈ demoState.accounts, a._id ≠ b._id → a.code ≠ b.code) :=
  ⟨demoState_reachable,
    (C22_codes_unique demoPlatform demoState demoState_reachable).1,
    (C22_codes_unique demoPlatform demoState demoState_reachable).2.1⟩

/-- C23 fails on the code: `updateAccount` applies a well-formed parent without
looking it up. From the store holding `cash`, the update of its parent to the id
9 succeeds; the store reached has an account whose parent is no stored
account. -/
theorem C23_update_dangling_parent :
    updateAccount demoPlatform ⟨[cash], []⟩ (.oid 1) parentNinePatch =
        (.updated ⟨1, "CASH", "Cash", .activo, some 9, false, none⟩, danglingParentState) ∧
      Reachable demoPlatform danglingParentState ∧
      ¬ ParentsExist danglingParentState := by
  refine ⟨by decide, danglingParentState_reachable, ?_⟩
  intro h
  have := h ⟨1, "CASH", "Cash", .activo, some 9, false, none⟩ (by decide) 9 rfl
  revert this
  decide

theorem reachableBy_reachable (P : Platform) (allowed : Request → Prop) (s : State)
    (h : ReachableBy P allowed s) : Reachable P s := by
  induction h with
  | empty => exact Reachable.empty
  | step _ r _ hf ih =>
    cases r with
    | createAccount ctx body => exact Reachable.step ih (Step.createAccount _ ctx body hf)
    | updateAccount id patch => exact Reachable.step ih (Step.updateAccount _ id patch)
    | deleteAccount id => exact Reachable.step ih (Step.deleteAccount _ id)
    | recordTransaction ctx body =>
      exact Reachable.step ih (Step.recordTransaction _ ctx body hf)
    | deleteTransaction id => exact Reachable.step ih (Step.deleteTransaction _ id)

/-- Every run of `deleteAccount` either leaves the store as it was or found a
document nobody names as parent and removed it. -/
theorem deleteAccount_cases (s : State) (id : IdValue) :
    (deleteAccount s id).2 = s ∨
      ∃ aid c, id = .oid aid ∧ findAccountById s aid = some c ∧
        (∀ b ∈ s.accounts, b.parent ≠ some aid) ∧
        deleteAccount s id = (.deleted, ⟨s.accounts.erase c, s.transactions⟩) := by
  unfold deleteAccount
  split
  · rename_i aid
    split
    · exact Or.inl rfl
    · rename_i hany
      split
      · exact Or.inl rfl
      · rename_i c hc
        right
        refine ⟨aid, c, rfl, hc, ?_, rfl⟩
        intro b hb hp
        apply hany
        rw [List.any_eq_true]
        exact ⟨b, hb, by rw [hp]; simp⟩
  · exact Or.inl rfl

theorem findAccountById_append_isSome (accs : List Account) (txs txs' : List Transaction)
    (a : Account) (p : ObjectId) (h : (findAccountById ⟨accs, txs⟩ p).isSome = true) :
    (findAccountById ⟨accs ++ [a], txs'⟩ p).isSome = true := by
  unfold findAccountById at h ⊢
  simp only at h ⊢
  rw [List.find?_append]
  obtain ⟨x, hx⟩ := Option.isSome_iff_exists.1 h
  rw [hx]
  rfl

theorem parentsExist_congr {s s' : State} (h : s'.accounts = s.accounts)
    (hp : ParentsExist s) : ParentsExist s' := by
  intro a ha p hpar
  have := hp a (by rw [← h]; exact ha) p hpar
  unfold findAccountById at this ⊢
  rw [h]
  exact this

/-- Serving a request other than an account update keeps every named parent
stored. -/
theorem parentsExist_step (P : Platform) (s : State) (r : Request)
    (hr : r.isUpdateAccount = false) (hp : ParentsExist s) : ParentsExist (r.run P s) := by
  cases r with
  | updateAccount id patch => cases hr
  | recordTransaction ctx body =>
    exact parentsExist_congr (recordTransaction_accounts P ctx s body) hp
  | deleteTransaction id => exact parentsExist_congr (deleteTransaction_accounts s id) hp
  | createAccount ctx body =>
    show ParentsExist (createAccount P ctx s body).2
    rcases createAccount_state P ctx s body with h | ⟨b, hb⟩
    · rw [h]; exact hp
    · obtain ⟨_, _, _, parent, _, _, _, _, hpar, hbuild, heq⟩ :=
        createAccount_created P ctx s body b hb
      obtain ⟨_, _, hb'⟩ := buildAccount_eq hbuild
      have hbp : b.parent = parent := by rw [hb']
      rw [heq]
      intro a ha p hap
      simp only [List.mem_append, List.mem_singleton] at ha
      apply findAccountById_append_isSome s.accounts s.transactions
      rcases ha with ha | rfl
      · exact hp a ha p hap
      · rcases hpar with ⟨_, h2⟩ | ⟨q, _, h2, h3⟩
        · rw [hbp, h2] at hap
          cases hap
        · rw [hbp, h2] at hap
          cases hap
          exact h3
  | deleteAccount id =>
    show ParentsExist (deleteAccount s id).2
    rcases deleteAccount_cases s id with h | ⟨aid, c, _, hc, hno, heq⟩
    · rw [h]; exact hp
    · rw [heq]
      intro a ha p hap
      have ha' : a ∈ s.accounts := List.mem_of_mem_erase ha
      have hne : c._id ≠ p := by
        rw [(findAccountById_id hc).1]
        intro h
        exact hno a ha' (by rw [hap, h])
      have : findAccountById ⟨s.accounts.erase c, s.transactions⟩ p = findAccountById s p :=
        find?_erase_of_ne p c hne s.accounts
      rw [this]
      exact hp a ha' p hap

/-- Serving a request other than an account update keeps a ranking of the ids
under which every parent ranks below its child. -/
theorem ranked_step (P : Platform) (s : State) (r : Request)
    (hr : r.isUpdateAccount = false) (hf : r.Admissible s) (hp : ParentsExist s)
    (hrank : ∃ rank : ObjectId → Nat,
      ∀ a ∈ s.accounts, ∀ p, a.parent = some p → rank p < rank a._id) :
    ∃ rank : ObjectId → Nat,
      ∀ a ∈ (r.run P s).accounts, ∀ p, a.parent = some p → rank p < rank a._id := by
  obtain ⟨rank, hrk⟩ := hrank
  cases r with
  | updateAccount id patch => cases hr
  | recordTransaction ctx body =>
    refine ⟨rank, ?_⟩
    show ∀ a ∈ (recordTransaction P ctx s body).2.accounts, _
    rw [recordTransaction_accounts]
    exact hrk
  | deleteTransaction id =>
    refine ⟨rank, ?_⟩
    show ∀ a ∈ (deleteTransaction s id).2.accounts, _
    rw [deleteTransaction_accounts]
    exact hrk
  | deleteAccount id =>
    refine ⟨rank, ?_⟩
    intro a ha
    exact hrk a ((deleteAccount_accounts_sublist s id).subset ha)
  | createAccount ctx body =>
    show ∃ rank : ObjectId → Nat,
      ∀ a ∈ (createAccount P ctx s body).2.accounts, ∀ p, a.parent = some p → rank p < rank a._id
    rcases createAccount_state P ctx s body with h | ⟨b, hb⟩
    · rw [h]; exact ⟨rank, hrk⟩
    · obtain ⟨_, _, _, parent, _, _, _, _, hpar, hbuild, heq⟩ :=
        createAccount_created P ctx s body b hb
      obtain ⟨_, _, hb'⟩ := buildAccount_eq hbuild
      have hbp : b.parent = parent := by rw [hb']
      have hbid : b._id = ctx.newId := by rw [hb']
      have hstored : ∀ q, (findAccountById s q).isSome = true → q ≠ ctx.newId := by
        intro q hq
        obtain ⟨x, hx⟩ := Option.isSome_iff_exists.1 hq
        obtain ⟨hxid, hxmem⟩ := findAccountById_id hx
        rw [← hxid]
        exact hf.1 x hxmem
      rw [heq]
      refine ⟨fun id => if id = ctx.newId then
        (b.parent.map (fun q => rank q + 1)).getD 0 else rank id, ?_⟩
      intro a ha p hap
      simp only [List.mem_append, List.mem_singleton] at ha
      rcases ha with ha | rfl
      · have h1 : a._id ≠ ctx.newId := hf.1 a ha
        have h2 : p ≠ ctx.newId := hstored p (hp a ha p hap)
        simp only [h1, h2, if_false]
        exact hrk a ha p hap
      · rcases hpar with ⟨_, h2⟩ | ⟨q, _, h2, h3⟩
        · rw [hbp, h2] at hap
          cases hap
        · have hap' := hap
          rw [hbp, h2] at hap'
          cases hap'
          have h4 : p ≠ ctx.newId := hstored p h3
          simp only [hbid, h4, if_false, if_true, hap, Option.map_some', Option.getD_some]
          omega

/-- In every state reached without account updates, every named parent is
stored and the ids can be ranked with every parent below its child. -/
theorem reachableBy_noUpdate_ranked (P : Platform) (s : State)
    (h : ReachableBy P (fun r => r.isUpdateAccount = false) s) :
    ParentsExist s ∧ ∃ rank : ObjectId → Nat,
      ∀ a ∈ s.accounts, ∀ p, a.parent = some p → rank p < rank a._id := by
  induction h with
  | empty =>
    exact ⟨fun a ha => (by cases ha), fun _ => 0, fun a ha => (by cases ha)⟩
  | step _ r ha hf ih =>
    exact ⟨parentsExist_step P _ r ha ih.1, ranked_step P _ r ha hf ih.1 ih.2⟩

theorem nthAncestor_rank (s : State) (rank : ObjectId → Nat)
    (hrk : ∀ a ∈ s.accounts, ∀ p, a.parent = some p → rank p < rank a._id) :
    ∀ (n : Nat) (id id' : ObjectId), nthAncestor s (n + 1) id = some id' → rank id' < rank id
  | n, id, id', h => by
    unfold nthAncestor at h
    cases hpid : parentId s id with
    | none => rw [hpid] at h; cases h
    | some p =>
      rw [hpid] at h
      simp only at h
      have hlt : rank p < rank id := by
        unfold parentId at hpid
        cases hfind : findAccountById s id with
        | none => rw [hfind] at hpid; cases hpid
        | some b =>
          rw [hfind] at hpid
          simp only at hpid
          obtain ⟨hbid, hbmem⟩ := findAccountById_id hfind
          rw [← hbid]
          exact hrk b hbmem p hpid
      cases n with
      | zero =>
        simp only [nthAncestor, Option.some.injEq] at h
        rw [← h]
        exact hlt
      | succ m =>
        have := nthAncestor_rank s rank hrk m p id' h
        omega

theorem selfParentState_reachable : Reachable demoPlatform selfParentState :=
  Reachable.step
    (Reachable.step Reachable.empty
      (Step.createAccount State.empty ⟨0, 1, .oid 77⟩ cashBody (by unfold FreshId; decide)))
    (Step.updateAccount ⟨[cash], []⟩ (.oid 1) parentOnePatch)

/-- C24, as stated, fails: creating an account and then updating its parent to
its own id gives a reachable store in which one step along the parent
reference leads from the account back to itself. -/
theorem C24_counterexample :
    Reachable demoPlatform selfParentState ∧
      updateAccount demoPlatform ⟨[cash], []⟩ (.oid 1) parentOnePatch =
        (.updated ⟨1, "CASH", "Cash", .activo, some 1, false, none⟩, selfParentState) ∧
      nthAncestor selfParentState 1 1 = some 1 ∧ ¬ Forest selfParentState := by
  refine ⟨selfParentState_reachable, by decide, by decide, ?_⟩
  intro h
  exact h ⟨1, "CASH", "Cash", .activo, some 1, false, none⟩ (by decide) 1 (by decide)
    (by decide)

/-- C24, amended: in every state reached from the empty store by createAccount
and deleteAccount calls (and the transaction operations), without
updateAccount, the parent relation is a forest: following parent references
from a stored Account any positive number of times never returns to that
account, and no account is its own parent. -/
theorem C24_forest_without_update (P : Platform) (s : State)
    (h : ReachableBy P (fun r => r.isUpdateAccount = false) s) :
    Forest s ∧ ∀ a ∈ s.accounts, a.parent ≠ some a._id := by
  obtain ⟨_, rank, hrk⟩ := reachableBy_noUpdate_ranked P s h
  constructor
  · intro a _ n hn hret
    obtain ⟨m, rfl⟩ : ∃ m, n = m + 1 := ⟨n - 1, by omega⟩
    have := nthAncestor_rank s rank hrk m a._id a._id hret
    omega
  · intro a ha hself
    have := hrk a ha a._id hself
    omega

theorem codedState_reachableBy :
    ReachableBy demoPlatform (fun r => r.isUpdateAccount = false) codedState :=
  @ReachableBy.step demoPlatform (fun r => r.isUpdateAccount = false) State.empty
    ReachableBy.empty (.createAccount ⟨0, 1, .oid 77⟩ bankBody) rfl
    (by unfold Request.Admissible FreshId; decide)

theorem familyState_reachableBy :
    ReachableBy demoPlatform (fun r => r.isUpdateAccount = false) familyState :=
  @ReachableBy.step demoPlatform (fun r => r.isUpdateAccount = false) codedState
    codedState_reachableBy (.createAccount demoCtx paddedBody) rfl
    (by unfold Request.Admissible FreshId; decide)

/-- C24 amended on the store where `1100` is the child of `1000-A`, reached by
two account creations. -/
theorem C24_forest_without_update_witness :
    ReachableBy demoPlatform (fun r => r.isUpdateAccount = false) familyState ∧
      Forest familyState ∧ ∀ a ∈ familyState.accounts, a.parent ≠ some a._id :=
  ⟨familyState_reachableBy,
    C24_forest_without_update demoPlatform familyState familyState_reachableBy⟩

theorem eq_of_id_eq {s : State} (hu : UniqueAccountIds s) {a a' : Account}
    (ha : a ∈ s.accounts) (ha' : a' ∈ s.accounts) (hid : a'._id = a._id) : a' = a :=
  List.inj_on_of_nodup_map hu ha' ha hid

theorem castPatch_type {P : Platform} {patch : AccountPatch} {u : AccountUpdate}
    (h : castPatch P patch = some u) :
    (patch.type = none → u.type = none) ∧
      (∀ t, patch.type = some t → ∃ ty, castAccountType t = some ty ∧ u.type = some ty) := by
  unfold castPatch at h
  simp only at h
  split at h
  · rename_i c n t p _ _ ht _
    simp only [Option.some.injEq] at h
    subst h
    simp only
    constructor
    · intro hnone
      rw [hnone] at ht
      simp only [Option.some.injEq] at ht
      exact ht.symm
    · intro x hx
      rw [hx] at ht
      simp only at ht
      cases hc : castAccountType x with
      | none => rw [hc] at ht; cases ht
      | some ty =>
        rw [hc] at ht
        simp only [Option.map_some', Option.some.injEq] at ht
        exact ⟨ty, rfl, ht.symm⟩
  · cases h

theorem updateAccount_updated {P : Platform} {s : State} {id : IdValue} {patch : AccountPatch}
    {a' : Account} (h : (updateAccount P s id patch).1 = .updated a') :
    ∃ aid u a0, id = .oid aid ∧ castPatch P patch = some u ∧
      findAccountById s aid = some a0 ∧ a' = applyUpdate u a0 := by
  unfold updateAccount at h
  split at h
  · rename_i aid
    split at h
    · cases h
    · rename_i u hu
      split at h
      · cases h
      · rename_i a0 ha0
        split at h
        · cases h
        · simp only [AccResponse.updated.injEq] at h
          exact ⟨aid, u, a0, rfl, hu, ha0, h.symm⟩
  · cases h

/-- C25, as stated, fails: `cash` is created with type `activo`, and an update
whose body has `type: 'pasivo'` succeeds and stores it with type `pasivo`. -/
theorem C25_counterexample :
    createAccount demoPlatform ⟨0, 1, .oid 77⟩ State.empty cashBody =
        (.created cash, ⟨[cash], []⟩) ∧
      cash.type = .activo ∧
      updateAccount demoPlatform ⟨[cash], []⟩ (.oid 1) typePatch =
        (.updated ⟨1, "CASH", "Cash", .pasivo, none, false, none⟩, retypedState) ∧
      (∀ a ∈ retypedState.accounts, a._id = cash._id ∧ a.type ≠ cash.type) := by
  decide

/-- C25, amended: in a store whose accounts have distinct ids, every operation
other than an updateAccount whose body has a `type` leaves the type of every
stored Account as it was, for as long as the account is stored; an
updateAccount whose body has a `type` and that succeeds stores the account with
the type of the body, any one of the five. -/
theorem C25_type_fixed (P : Platform) (s : State) (r : Request) (hu : UniqueAccountIds s)
    (hf : r.Admissible s) :
    (r.setsType = false →
        ∀ a ∈ s.accounts, ∀ a' ∈ (r.run P s).accounts, a'._id = a._id → a'.type = a.type) ∧
      (∀ id patch t a', r = .updateAccount id patch → patch.type = some t →
        (updateAccount P s id patch).1 = .updated a' → castAccountType t = some a'.type) := by
  constructor
  · intro hset a ha a' ha' hid
    cases r with
    | recordTransaction ctx body =>
      have : (recordTransaction P ctx s body).2.accounts = s.accounts :=
        recordTransaction_accounts P ctx s body
      rw [show (Request.recordTransaction ctx body).run P s = (recordTransaction P ctx s body).2
        from rfl, this] at ha'
      rw [eq_of_id_eq hu ha ha' hid]
    | deleteTransaction id =>
      rw [show (Request.deleteTransaction id).run P s = (deleteTransaction s id).2 from rfl,
        deleteTransaction_accounts] at ha'
      rw [eq_of_id_eq hu ha ha' hid]
    | deleteAccount id =>
      have ha'' : a' ∈ s.accounts := (deleteAccount_accounts_sublist s id).subset ha'
      rw [eq_of_id_eq hu ha ha'' hid]
    | createAccount ctx body =>
      have ha'' : a' ∈ (createAccount P ctx s body).2.accounts := ha'
      rcases createAccount_accounts P ctx s body with h | ⟨b, hb, h⟩
      · rw [h] at ha''
        rw [eq_of_id_eq hu ha ha'' hid]
      · rw [h] at ha''
        simp only [List.mem_append, List.mem_singleton] at ha''
        rcases ha'' with ha'' | rfl
        · rw [eq_of_id_eq hu ha ha'' hid]
        · exact absurd (hid.symm.trans hb) (hf.1 a ha)
    | updateAccount id patch =>
      have hnone : patch.type = none := by
        cases hpt : patch.type with
        | none => rfl
        | some t =>
          have : (Request.updateAccount id patch).setsType = true := by
            simp [Request.setsType, hpt]
          rw [this] at hset
          cases hset
      have ha'' : a' ∈ (updateAccount P s id patch).2.accounts := ha'
      rcases updateAccount_cases P s id patch with h | ⟨aid, u, a0, _, hcast, hfind, _, heq⟩
      · rw [h] at ha''
        rw [eq_of_id_eq hu ha ha'' hid]
      · rw [heq] at ha''
        simp only [List.mem_map] at ha''
        obtain ⟨b, hb, hba⟩ := ha''
        obtain ⟨h0id, h0mem⟩ := findAccountById_id hfind
        by_cases hbid : b._id = aid
        · rw [if_pos hbid] at hba
          have hutype := (castPatch_type hcast).1 hnone
          have hid' : a0._id = a._id := by
            rw [← hid, ← hba]
            rfl
          have : a0 = a := eq_of_id_eq hu ha h0mem hid'
          rw [← hba, ← this]
          simp [applyUpdate, hutype]
        · rw [if_neg hbid] at hba
          rw [← hba] at hid ⊢
          rw [eq_of_id_eq hu ha hb hid]
  · intro id patch t a' _ hpt hresp
    obtain ⟨aid, u, a0, _, hcast, _, ha'⟩ := updateAccount_updated hresp
    obtain ⟨ty, hty, huty⟩ := (castPatch_type hcast).2 t hpt
    rw [ha', hty]
    simp [applyUpdate, huty]

/-- C25 amended on the store holding `cash`: an update of the parent leaves the
type, an update with `type: 'pasivo'` stores `pasivo`. -/
theorem C25_type_fixed_witness :
    (∀ a ∈ [cash], ∀ a' ∈ danglingParentState.accounts, a'._id = a._id → a'.type = a.type) ∧
      castAccountType "pasivo" = some AccountType.pasivo :=
  ⟨(C25_type_fixed demoPlatform ⟨[cash], []⟩ (.updateAccount (.oid 1) parentNinePatch)
      (by unfold UniqueAccountIds; decide) trivial).1 rfl,
    (C25_type_fixed demoPlatform ⟨[cash], []⟩ (.updateAccount (.oid 1) typePatch)
      (by unfold UniqueAccountIds; decide) trivial).2 (.oid 1) typePatch "pasivo"
      ⟨1, "CASH", "Cash", .pasivo, none, false, none⟩ rfl rfl (by decide)⟩

theorem findAccountById_isSome_iff (s : State) (p : ObjectId) :
    (findAccountById s p).isSome = true ↔ p ∈ s.accounts.map (fun a => a._id) := by
  unfold findAccountById
  rw [List.find?_isSome, List.mem_map]
  constructor
  · rintro ⟨x, hx, hp⟩
    exact ⟨x, hx, by simpa using hp⟩
  · rintro ⟨x, hx, hp⟩
    exact ⟨x, hx, by simpa using hp⟩

/-- Lines keep resolving when no stored id is lost and no transaction is
added. -/
theorem linesResolve_of {s s' : State}
    (hacc : ∀ p, p ∈ s.accounts.map (fun a => a._id) → p ∈ s'.accounts.map (fun a => a._id))
    (htx : ∀ t ∈ s'.transactions, t ∈ s.transactions) (h : LinesResolve s) :
    LinesResolve s' := by
  intro t ht l hl
  rw [findAccountById_isSome_iff]
  exact hacc _ ((findAccountById_isSome_iff s _).1 (h t (htx t ht) l hl))

theorem recordTransaction_new_lines {P : Platform} {ctx : Ctx} {s : State}
    {body : TransactionBody} {t : Transaction}
    (h : (recordTransaction P ctx s body).1 = .created t) :
    ∀ l' ∈ t.lines, (findAccountById s l'.account).isSome = true ∧
      (∀ n, l'.debit = some n → 0 ≤ n) ∧ (∀ n, l'.credit = some n → 0 ≤ n) := by
  rcases recordTransaction_cases P ctx s body with
    ⟨_, hne⟩ | ⟨d, ls, t', _, _, _, _, hv, _, hb, heq⟩
  · exact absurd h (hne t)
  · rw [heq] at h
    simp only [TxResponse.created.injEq] at h
    subst h
    obtain ⟨_, ls', _, _, hcast, _, rfl⟩ := buildTransaction_eq hb
    intro l' hl'
    obtain ⟨l, hmem, ⟨hacc, _, _⟩, hdn, hcn⟩ :=
      forall₂_exists_left (castLines_forall₂ hcast) l' hl'
    obtain ⟨_, _, hpass⟩ := validateLines_ok s ls 0 0 0 _ _ hv
    obtain ⟨⟨id, hid, hsome⟩, _⟩ := hpass l hmem
    rw [hacc] at hid
    simp only [IdValue.oid.injEq] at hid
    rw [hid]
    exact ⟨hsome, hdn, hcn⟩

/-- Serving a request other than an account deletion keeps every stored line
posting to a stored account. -/
theorem linesResolve_step (P : Platform) (s : State) (r : Request)
    (hr : r.isDeleteAccount = false) (h : LinesResolve s) : LinesResolve (r.run P s) := by
  cases r with
  | deleteAccount id => cases hr
  | createAccount ctx body =>
    apply linesResolve_of _ _ h
    · intro p hp
      show p ∈ (createAccount P ctx s body).2.accounts.map (fun a => a._id)
      rcases createAccount_accounts P ctx s body with h1 | ⟨b, _, h1⟩
      · rw [h1]; exact hp
      · rw [h1, List.map_append]
        exact List.mem_append_left _ hp
    · intro t ht
      have : (createAccount P ctx s body).2.transactions = s.transactions :=
        createAccount_transactions P ctx s body
      rw [← this]
      exact ht
  | updateAccount id patch =>
    apply linesResolve_of _ _ h
    · intro p hp
      show p ∈ (updateAccount P s id patch).2.accounts.map (fun a => a._id)
      rw [updateAccount_account_ids]
      exact hp
    · intro t ht
      have : (updateAccount P s id patch).2.transactions = s.transactions :=
        updateAccount_transactions P s id patch
      rw [← this]
      exact ht
  | deleteTransaction id =>
    apply linesResolve_of _ _ h
    · intro p hp
      show p ∈ (deleteTransaction s id).2.accounts.map (fun a => a._id)
      rw [deleteTransaction_accounts]
      exact hp
    · exact deleteTransaction_transactions_subset s id
  | recordTransaction ctx body =>
    intro t ht l hl
    have hacc : (recordTransaction P ctx s body).2.accounts = s.accounts :=
      recordTransaction_accounts P ctx s body
    have hfind : ∀ p, findAccountById (recordTransaction P ctx s body).2 p =
        findAccountById s p := by
      intro p
      unfold findAccountById
      rw [hacc]
    show (findAccountById (recordTransaction P ctx s body).2 l.account).isSome = true
    rw [hfind]
    rcases recordTransaction_transactions P ctx s body t ht with h1 | h1
    · exact h t h1 l hl
    · exact (recordTransaction_new_lines h1 l hl).1

theorem reachableBy_noDeleteAccount_linesResolve (P : Platform) (s : State)
    (h : ReachableBy P (fun r => r.isDeleteAccount = false) s) : LinesResolve s := by
  induction h with
  | empty => intro t ht; cases ht
  | step _ r ha _ ih => exact linesResolve_step P _ r ha ih

/-- No stored debit or credit is a negative number, in every reachable
state. -/
theorem reachable_amountsNonNegative (P : Platform) (s : State) (h : Reachable P s) :
    AmountsNonNegative s := by
  induction h with
  | empty => intro t ht; cases ht
  | step _ hstep ih =>
    unfold AmountsNonNegative at ih ⊢
    cases hstep with
    | createAccount ctx body _ => rw [createAccount_transactions]; exact ih
    | updateAccount id patch => rw [updateAccount_transactions]; exact ih
    | deleteAccount id => rw [deleteAccount_transactions]; exact ih
    | recordTransaction ctx body _ =>
      intro t ht l hl
      rcases recordTransaction_transactions P ctx _ body t ht with h1 | h1
      · exact ih t h1 l hl
      · exact (recordTransaction_new_lines h1 l hl).2
    | deleteTransaction id =>
      intro t ht
      exact ih t (deleteTransaction_transactions_subset _ id t ht)

theorem orphanLineState_reachable : Reachable demoPlatform orphanLineState :=
  Reachable.step demoState_opening_reachable
    (Step.deleteAccount ⟨[cash, equity], [openingTransaction]⟩ (.oid 1))

/-- C26, as stated, fails: after the opening entry is recorded, `deleteAccount`
on `cash`, which has no children, succeeds, and the stored transaction keeps
its line on the account 1, which is no longer stored. -/
theorem C26_counterexample :
    Reachable demoPlatform orphanLineState ∧
      deleteAccount ⟨[cash, equity], [openingTransaction]⟩ (.oid 1) =
        (.deleted, orphanLineState) ∧
      (⟨1, some 1000, some 0⟩ : Line) ∈ openingTransaction.lines ∧
      findAccountById orphanLineState 1 = none ∧ ¬ LinesResolve orphanLineState := by
  refine ⟨orphanLineState_reachable, by decide, by decide, by decide, ?_⟩
  intro h
  have := h openingTransaction (by decide) ⟨1, some 1000, some 0⟩ (by decide)
  revert this
  decide

/-- C26, amended: in every reachable state no stored debit or credit is a
negative number; and in every state reached without deleteAccount (by
createAccount, updateAccount, recordTransaction and deleteTransaction calls)
every line of every stored Transaction references an Account that is stored:
`recordTransaction` establishes both and those operations preserve them. -/
theorem C26_lines_resolve (P : Platform) (s : State) (h : Reachable P s) :
    AmountsNonNegative s ∧
      (ReachableBy P (fun r => r.isDeleteAccount = false) s → LinesResolve s) :=
  ⟨reachable_amountsNonNegative P s h, reachableBy_noDeleteAccount_linesResolve P s⟩

theorem openingState_reachableBy :
    ReachableBy demoPlatform (fun r => r.isDeleteAccount = false)
      ⟨[cash, equity], [openingTransaction]⟩ :=
  @ReachableBy.step demoPlatform (fun r => r.isDeleteAccount = false) demoState
    (@ReachableBy.step demoPlatform (fun r => r.isDeleteAccount = false) ⟨[cash], []⟩
      (@ReachableBy.step demoPlatform (fun r => r.isDeleteAccount = false) State.empty
        ReachableBy.empty (.createAccount ⟨0, 1, .oid 77⟩ cashBody) rfl
        (by unfold Request.Admissible FreshId; decide))
      (.createAccount ⟨0, 2, .oid 77⟩ equityBody) rfl
      (by unfold Request.Admissible FreshId; decide))
    (.recordTransaction demoCtx openingBody) rfl
    (by unfold Request.Admissible FreshId; decide)

/-- C26 amended on the store holding the sample accounts and the opening
entry. -/
theorem C26_lines_resolve_witness :
    Reachable demoPlatform ⟨[cash, equity], [openingTransaction]⟩ ∧
      AmountsNonNegative ⟨[cash, equity], [openingTransaction]⟩ ∧
      LinesResolve ⟨[cash, equity], [openingTransaction]⟩ :=
  ⟨demoState_opening_reachable,
    (C26_lines_resolve demoPlatform _ demoState_opening_reachable).1,
    (C26_lines_resolve demoPlatform _ demoState_opening_reachable).2 openingState_reachableBy⟩

/-- Both reports are produced when every stored line posts to a stored
account. -/
theorem reports_of_linesResolve (s : State) (hr : LinesResolve s) :
    (∃ bs, generateBalanceSheet s = some bs) ∧
      (∃ inc, generateIncomeStatement s = some inc) := by
  obtain ⟨m, hm, _⟩ := foldTransactions_posted s balanceSheetDelta (balanceSheetLine s)
    (balanceSheetLine_eq s) s.transactions
    (initSaldos (findAccountsByType s balanceSheetTypes)) hr
  obtain ⟨m', hm', _⟩ := foldTransactions_posted s incomeStatementDelta (incomeStatementLine s)
    (incomeStatementLine_eq s) s.transactions
    (initSaldos (findAccountsByType s incomeStatementTypes)) hr
  exact ⟨⟨_, generateBalanceSheet_eq s m hm⟩, ⟨_, generateIncomeStatement_eq s m' hm'⟩⟩

/-- C29, as stated, fails: the store reached by recording the opening entry and
then deleting `cash` is reachable, and on it both reports end in the `catch`
(status 500): the line on account 1 has no populated account. -/
theorem C29_counterexample :
    Reachable demoPlatform orphanLineState ∧
      generateBalanceSheet orphanLineState = none ∧
      generateIncomeStatement orphanLineState = none :=
  ⟨orphanLineState_reachable, by decide, by decide⟩

/-- C29, amended: on every state reached by createAccount, updateAccount,
recordTransaction and deleteTransaction calls, without deleteAccount, both
`generateBalanceSheet` and `generateIncomeStatement` return a report; more
generally they do on every store in which each stored line's account is
stored, so that the dereference of the populated account never fails. -/
theorem C29_reports_total (P : Platform) (s : State)
    (h : ReachableBy P (fun r => r.isDeleteAccount = false) s) :
    ((∃ bs, generateBalanceSheet s = some bs) ∧
        (∃ inc, generateIncomeStatement s = some inc)) ∧
      ∀ s' : State, LinesResolve s' →
        (∃ bs, generateBalanceSheet s' = some bs) ∧
          (∃ inc, generateIncomeStatement s' = some inc) :=
  ⟨reports_of_linesResolve s (reachableBy_noDeleteAccount_linesResolve P s h),
    reports_of_linesResolve⟩

/-- C29 amended on the store holding the sample accounts and the opening
entry. -/
theorem C29_reports_total_witness :
    ReachableBy demoPlatform (fun r => r.isDeleteAccount = false)
        ⟨[cash, equity], [openingTransaction]⟩ ∧
      (∃ bs, generateBalanceSheet ⟨[cash, equity], [openingTransaction]⟩ = some bs) ∧
      (∃ inc, generateIncomeStatement ⟨[cash, equity], [openingTransaction]⟩ = some inc) :=
  ⟨openingState_reachableBy,
    (C29_reports_total demoPlatform _ openingState_reachableBy).1⟩

theorem lineRejected_of_oneSided {l : LineInput} (h : l.OneSided) :
    lineRejected (destructureDefault l.debit) (destructureDefault l.credit) = false := by
  rcases h with ⟨d, hd, hdeb, hcred | hcred⟩ | ⟨c, hc, hcred, hdeb | hdeb⟩
  all_goals
    have hd' : ¬ (0 : Int) < 0 := by omega
    simp [hdeb, hcred, lineRejected, destructureDefault, jsGtZero, jsStrictEqZero]
  all_goals omega

theorem castLine_of_oneSided {s : State} {l : LineInput}
    (h : AccountResolves s l ∧ l.OneSided) : ∃ l', castLine l = some l' := by
  obtain ⟨⟨id, hid, _⟩, hone⟩ := h
  rcases hone with ⟨d, hd, hdeb, hcred | hcred⟩ | ⟨c, hc, hcred, hdeb | hdeb⟩
  · exact ⟨⟨id, some d, some 0⟩, by
      simp [castLine, hid, hdeb, hcred, castAmount, le_of_lt hd]⟩
  · exact ⟨⟨id, some d, some 0⟩, by
      simp [castLine, hid, hdeb, hcred, castAmount, le_of_lt hd]⟩
  · exact ⟨⟨id, some 0, some c⟩, by
      simp [castLine, hid, hdeb, hcred, castAmount, le_of_lt hc]⟩
  · exact ⟨⟨id, some 0, some c⟩, by
      simp [castLine, hid, hdeb, hcred, castAmount, le_of_lt hc]⟩

theorem castLines_of_oneSided {s : State} : ∀ (lines : List LineInput),
    (∀ l ∈ lines, AccountResolves s l ∧ l.OneSided) → ∃ ls', castLines lines = some ls'
  | [], _ => ⟨[], rfl⟩
  | l :: rest, h => by
    obtain ⟨l', hl'⟩ := castLine_of_oneSided (h l (List.mem_cons_self _ _))
    obtain ⟨rest', hrest'⟩ := castLines_of_oneSided rest
      (fun x hx => h x (List.mem_cons_of_mem _ hx))
    exact ⟨l' :: rest', by rw [castLines, hl', hrest']⟩

/-- C27, as stated, fails: this request has a non-blank description, two lines
on stored accounts, each with one side strictly positive and the other zero,
equal totals and a well-formed acting identity; its date is a number beyond
the range of dates, the save throws and the answer is 500. -/
theorem C27_counterexample :
    farDateBody.description = some "opening" ∧ jsTrim "opening" ≠ "" ∧
      farDateBody.lines =
        some [⟨.oid 1, .num 1000, .num 0⟩, ⟨.oid 2, .num 0, .num 1000⟩] ∧
      (findAccountById demoState 1).isSome = true ∧
      (findAccountById demoState 2).isSome = true ∧
      requestDebit [⟨.oid 1, .num 1000, .num 0⟩, ⟨.oid 2, .num 0, .num 1000⟩] =
        requestCredit [⟨.oid 1, .num 1000, .num 0⟩, ⟨.oid 2, .num 0, .num 1000⟩] ∧
      demoCtx.userId = .oid 77 ∧
      recordTransaction demoPlatform demoCtx demoState farDateBody =
        (.serverError, demoState) ∧
      (recordTransaction demoPlatform demoCtx demoState farDateBody).1.status = 500 := by
  decide

/-- C27, amended: every request with a non-blank description and at least two
lines, in which each line references a stored Account and has one of
debit/credit strictly positive and the other exactly zero (or absent), whose
total debit equals its total credit, made under a well-formed acting identity
and whose date is absent, falsy or casts to a valid date, is accepted (201) and
persisted as one more transaction. -/
theorem C27_no_false_rejection (P : Platform) (ctx : Ctx) (s : State) (body : TransactionBody)
    (description : String) (lines : List LineInput) (user : ObjectId) (d : Int)
    (hd : body.description = some description) (hne : jsTrim description ≠ "")
    (hl : body.lines = some lines) (hlen : 2 ≤ lines.length)
    (hlines : ∀ l ∈ lines, AccountResolves s l ∧ l.OneSided)
    (hbal : requestDebit lines = requestCredit lines)
    (hu : ctx.userId = .oid user) (hdate : resolveDate P ctx body.date = some d) :
    ∃ t, recordTransaction P ctx s body =
        (.created t, ⟨s.accounts, s.transactions ++ [t]⟩) ∧
      (recordTransaction P ctx s body).1.status = 201 ∧ t ∈
        (recordTransaction P ctx s body).2.transactions := by
  have hpass : ∀ l ∈ lines, LinePasses s l :=
    fun l hmem => ⟨(hlines l hmem).1, lineRejected_of_oneSided (hlines l hmem).2⟩
  obtain ⟨ls', hcast⟩ := castLines_of_oneSided lines hlines
  have hbuild : buildTransaction P ctx body.date description lines =
      some ⟨ctx.newId, d, jsTrim description, ls', user⟩ := by
    unfold buildTransaction
    rw [hdate, hcast, hu]
    simp only [hne, if_false]
  have key : recordTransaction P ctx s body =
      (.created ⟨ctx.newId, d, jsTrim description, ls', user⟩,
        ⟨s.accounts, s.transactions ++ [⟨ctx.newId, d, jsTrim description, ls', user⟩]⟩) := by
    unfold recordTransaction
    rw [hd, hl]
    simp only
    have : ¬ (jsTrim description = "" ∨ lines.length < 2) := by
      rintro (h | h)
      · exact hne h
      · omega
    rw [if_neg this, validateLines_all_pass s lines hpass]
    simp only
    rw [if_neg (not_not.2 hbal), hbuild]
  refine ⟨_, key, ?_, ?_⟩
  · rw [key]; rfl
  · rw [key]; simp

/-- C27 amended on the opening entry. -/
theorem C27_no_false_rejection_witness :
    ∃ t, recordTransaction demoPlatform demoCtx demoState openingBody =
        (.created t, ⟨demoState.accounts, demoState.transactions ++ [t]⟩) ∧
      (recordTransaction demoPlatform demoCtx demoState openingBody).1.status = 201 ∧ t ∈
        (recordTransaction demoPlatform demoCtx demoState openingBody).2.transactions :=
  C27_no_false_rejection demoPlatform demoCtx demoState openingBody "opening"
    [⟨.oid 1, .num 1000, .num 0⟩, ⟨.oid 2, .num 0, .num 1000⟩] 77 5 rfl (by decide) rfl
    (by decide)
    (fun l hl => by
      simp only [List.mem_cons, List.mem_singleton, List.not_mem_nil, or_false] at hl
      rcases hl with rfl | rfl
      · exact ⟨⟨1, rfl, rfl⟩, Or.inl ⟨1000, by decide, rfl, Or.inl rfl⟩⟩
      · exact ⟨⟨2, rfl, rfl⟩, Or.inr ⟨1000, by decide, rfl, Or.inl rfl⟩⟩)
    (by decide) rfl rfl

/-! ## Lemmas on sums of balances -/

theorem debitMinusCredit_nil (id : ObjectId) : debitMinusCredit [] id = 0 := rfl

theorem debitMinusCredit_cons (l : Line) (ls : List Line) (id : ObjectId) :
    debitMinusCredit (l :: ls) id =
      (if l.account = id then orZero l.debit - orZero l.credit else 0) +
        debitMinusCredit ls id := by
  unfold debitMinusCredit
  by_cases h : l.account = id
  · simp [List.filter_cons, h]
  · simp [List.filter_cons, h]

theorem debitMinusCredit_append (l₁ l₂ : List Line) (id : ObjectId) :
    debitMinusCredit (l₁ ++ l₂) id = debitMinusCredit l₁ id + debitMinusCredit l₂ id := by
  unfold debitMinusCredit
  simp [List.filter_append]

theorem creditMinusDebit_eq_neg (ls : List Line) (id : ObjectId) :
    creditMinusDebit ls id = - debitMinusCredit ls id := by
  unfold creditMinusDebit debitMinusCredit
  induction ls.filter (fun l => l.account = id) with
  | nil => rfl
  | cons l rest ih =>
    simp only [List.map_cons, List.sum_cons, ih]
    ring

theorem creditMinusDebit_append (l₁ l₂ : List Line) (id : ObjectId) :
    creditMinusDebit (l₁ ++ l₂) id = creditMinusDebit l₁ id + creditMinusDebit l₂ id := by
  rw [creditMinusDebit_eq_neg, creditMinusDebit_eq_neg, creditMinusDebit_eq_neg,
    debitMinusCredit_append]
  ring

/-- Over accounts with distinct ids, an amount posted to a stored id is counted
once. -/
theorem sum_ite_id (x : Int) (k : ObjectId) :
    ∀ A : List Account, (A.map (fun a => a._id)).Nodup → k ∈ A.map (fun a => a._id) →
      (A.map (fun a => if k = a._id then x else 0)).sum = x
  | [], _, h => by cases h
  | a :: rest, hn, hk => by
    rw [List.map_cons, List.nodup_cons] at hn
    rw [List.map_cons, List.sum_cons]
    by_cases hka : k = a._id
    · have hzero : (rest.map (fun b => if k = b._id then x else 0)).sum = 0 := by
        have : ∀ b ∈ rest, (if k = b._id then x else 0) = (0 : Int) := by
          intro b hb
          have : k ≠ b._id := by
            intro h
            exact hn.1 (by rw [← hka, h]; exact List.mem_map_of_mem _ hb)
          rw [if_neg this]
        rw [List.map_congr_left this]
        simp
      rw [if_pos hka, hzero, add_zero]
    · have hk' : k ∈ rest.map (fun a => a._id) := by
        rcases List.mem_cons.1 hk with h | h
        · exact absurd h hka
        · exact h
      rw [if_neg hka, zero_add, sum_ite_id x k rest hn.2 hk']

theorem sum_map_add_int {α : Type} (f g : α → Int) :
    ∀ A : List α, (A.map (fun a => f a + g a)).sum = (A.map f).sum + (A.map g).sum
  | [] => rfl
  | a :: rest => by
    simp only [List.map_cons, List.sum_cons, sum_map_add_int f g rest]
    ring

/-- Summed over the stored accounts, debit minus credit of the lines posting to
each is debit minus credit of all the lines, when every line posts to a stored
account and ids are distinct. -/
theorem sum_debitMinusCredit (A : List Account) (hn : (A.map (fun a => a._id)).Nodup) :
    ∀ L : List Line, (∀ l ∈ L, l.account ∈ A.map (fun a => a._id)) →
      (A.map (fun a => debitMinusCredit L a._id)).sum =
        (L.map (fun l => orZero l.debit - orZero l.credit)).sum
  | [], _ => by
    simp [debitMinusCredit_nil]
  | l :: rest, h => by
    have ih := sum_debitMinusCredit A hn rest (fun x hx => h x (List.mem_cons_of_mem _ hx))
    have hfun : (fun a : Account => debitMinusCredit (l :: rest) a._id) =
        (fun a => (if l.account = a._id then orZero l.debit - orZero l.credit else 0) +
          debitMinusCredit rest a._id) := by
      funext a
      exact debitMinusCredit_cons l rest a._id
    rw [hfun, sum_map_add_int, ih, sum_ite_id _ l.account A hn (h l (List.mem_cons_self _ _)),
      List.map_cons, List.sum_cons]

theorem sum_allLines_of_balanced : ∀ txs : List Transaction, (∀ t ∈ txs, t.Balanced) →
    ((allLines txs).map (fun l => orZero l.debit - orZero l.credit)).sum = 0
  | [], _ => rfl
  | t :: rest, h => by
    have ih := sum_allLines_of_balanced rest (fun x hx => h x (List.mem_cons_of_mem _ hx))
    have hsplit : allLines (t :: rest) = t.lines ++ allLines rest := rfl
    have ht : (t.lines.map (fun l => orZero l.debit - orZero l.credit)).sum = 0 := by
      have hb := h t (List.mem_cons_self _ _)
      unfold Transaction.Balanced Transaction.totalDebit Transaction.totalCredit at hb
      have : ∀ ls : List Line, (ls.map (fun l => orZero l.debit - orZero l.credit)).sum =
          (ls.map (fun l => orZero l.debit)).sum - (ls.map (fun l => orZero l.credit)).sum := by
        intro ls
        induction ls with
        | nil => rfl
        | cons x xs ihx =>
          simp only [List.map_cons, List.sum_cons, ihx]
          ring
      rw [this, hb, sub_self]
    rw [hsplit, List.map_append, List.sum_append, ht, ih, add_zero]

/-- A sum over the accounts splits into the sums over the five types. -/
theorem sum_by_type (f : Account → Int) : ∀ A : List Account,
    (A.map f).sum =
      ((A.filter (fun c => c.type = .activo)).map f).sum +
      ((A.filter (fun c => c.type = .pasivo)).map f).sum +
      ((A.filter (fun c => c.type = .capital)).map f).sum +
      ((A.filter (fun c => c.type = .ingreso)).map f).sum +
      ((A.filter (fun c => c.type = .gasto)).map f).sum
  | [] => rfl
  | a :: rest => by
    have ih := sum_by_type f rest
    rw [List.map_cons, List.sum_cons, ih]
    cases ht : a.type <;> simp [List.filter_cons, ht] <;> ring

theorem filter_findAccountsByType (s : State) (types : List AccountType) (ty : AccountType)
    (hty : ty ∈ types) :
    (findAccountsByType s types).filter (fun c => c.type = ty) =
      s.accounts.filter (fun c => c.type = ty) := by
  unfold findAccountsByType
  rw [List.filter_filter]
  apply List.filter_congr
  intro c _
  by_cases h : c.type = ty
  · simp [h, hty]
  · simp [h]

theorem total_eq (s : State) (m : Saldos) (types : List AccountType) (ty : AccountType)
    (hty : ty ∈ types) (F : Account → Int)
    (h : ∀ c ∈ s.accounts, c.type = ty → m.getOrZero c._id = F c) :
    (((findAccountsByType s types).filter (fun c => c.type = ty)).map
        (fun c => m.getOrZero c._id)).sum =
      ((s.accounts.filter (fun c => c.type = ty)).map F).sum := by
  rw [filter_findAccountsByType s types ty hty]
  congr 1
  apply List.map_congr_left
  intro c hc
  obtain ⟨hc1, hc2⟩ := List.mem_filter.1 hc
  exact h c hc1 (by simpa using hc2)

theorem sum_map_neg_int {α : Type} (f : α → Int) :
    ∀ A : List α, (A.map (fun a => - f a)).sum = - (A.map f).sum
  | [] => rfl
  | a :: rest => by
    simp only [List.map_cons, List.sum_cons, sum_map_neg_int f rest]
    ring

theorem lines_in_accounts {s : State} (hr : LinesResolve s) :
    ∀ l ∈ allLines s.transactions, l.account ∈ s.accounts.map (fun a => a._id) :=
  fun l hl => (findAccountById_isSome_iff s l.account).1 (allLines_resolve hr l hl)

/-- C28: in a store whose accounts have distinct ids, in which every stored
transaction is balanced and every line posts to a stored Account, both reports
are produced and `totalActivo + totalPasivo + totalCapital` equals
`totalIngreso − totalGasto`, which is `utilidadNeta`. -/
theorem C28_accounting_identity (s : State) (hu : UniqueAccountIds s) (hr : LinesResolve s)
    (hbal : ∀ t ∈ s.transactions, t.Balanced) :
    ∃ bs inc, generateBalanceSheet s = some bs ∧ generateIncomeStatement s = some inc ∧
      bs.totalActivo + bs.totalPasivo + bs.totalCapital = inc.totalIngreso - inc.totalGasto ∧
      inc.totalIngreso - inc.totalGasto = inc.utilidadNeta := by
  obtain ⟨m, hm, hb⟩ := balanceSheetSaldos_eq s hr
  obtain ⟨m', hm', hb'⟩ := incomeStatementSaldos_eq s hu hr
  refine ⟨_, _, generateBalanceSheet_eq s m hm, generateIncomeStatement_eq s m' hm', ?_, rfl⟩
  simp only
  have hA := total_eq s m balanceSheetTypes .activo (by decide)
    (fun a => debitMinusCredit (allLines s.transactions) a._id)
    (fun c hc ht => hb c hc (by rw [ht]; decide))
  have hP := total_eq s m balanceSheetTypes .pasivo (by decide)
    (fun a => debitMinusCredit (allLines s.transactions) a._id)
    (fun c hc ht => hb c hc (by rw [ht]; decide))
  have hC := total_eq s m balanceSheetTypes .capital (by decide)
    (fun a => debitMinusCredit (allLines s.transactions) a._id)
    (fun c hc ht => hb c hc (by rw [ht]; decide))
  have hI := total_eq s m' incomeStatementTypes .ingreso (by decide)
    (fun a => - debitMinusCredit (allLines s.transactions) a._id)
    (fun c hc ht => by rw [(hb' c hc).1 ht, creditMinusDebit_eq_neg])
  have hG := total_eq s m' incomeStatementTypes .gasto (by decide)
    (fun a => debitMinusCredit (allLines s.transactions) a._id)
    (fun c hc ht => (hb' c hc).2 ht)
  rw [hA, hP, hC, hI, hG, sum_map_neg_int]
  have hsum := sum_by_type (fun a => debitMinusCredit (allLines s.transactions) a._id) s.accounts
  rw [sum_debitMinusCredit s.accounts hu (allLines s.transactions) (lines_in_accounts hr),
    sum_allLines_of_balanced s.transactions hbal] at hsum
  linarith

/-- C28 on the sample ledger: 1680 − 500 − 1000 = 300 − 120 = 180. -/
theorem C28_accounting_identity_witness :
    UniqueAccountIds ledgerState ∧ LinesResolve ledgerState ∧
      (∀ t ∈ ledgerState.transactions, t.Balanced) ∧
      generateBalanceSheet ledgerState = some ledgerBalanceSheet ∧
      generateIncomeStatement ledgerState = some ledgerIncomeStatement ∧
      ∃ bs inc, generateBalanceSheet ledgerState = some bs ∧
        generateIncomeStatement ledgerState = some inc ∧
        bs.totalActivo + bs.totalPasivo + bs.totalCapital =
          inc.totalIngreso - inc.totalGasto ∧
        inc.totalIngreso - inc.totalGasto = inc.utilidadNeta :=
  have hbal : ∀ t ∈ ledgerState.transactions, t.Balanced := by
    intro t ht
    simp only [ledgerState, List.mem_cons, List.mem_singleton, List.not_mem_nil, or_false] at ht
    rcases ht with rfl | rfl | rfl | rfl <;> (unfold Transaction.Balanced; decide)
  ⟨by unfold UniqueAccountIds; decide, by unfold LinesResolve; decide, hbal, by decide,
    by decide,
    C28_accounting_identity ledgerState (by unfold UniqueAccountIds; decide)
      (by unfold LinesResolve; decide) hbal⟩

/-! ## Lemmas on incremental balances -/

theorem allLines_append (txs : List Transaction) (t : Transaction) :
    allLines (txs ++ [t]) = allLines txs ++ t.lines := by
  induction txs with
  | nil => simp [allLines]
  | cons x rest ih =>
    have h1 : allLines (x :: rest ++ [t]) = x.lines ++ allLines (rest ++ [t]) := rfl
    have h2 : allLines (x :: rest) = x.lines ++ allLines rest := rfl
    rw [h1, h2, ih, List.append_assoc]

theorem mem_allLines_of {txs : List Transaction} {t : Transaction} {l : Line}
    (ht : t ∈ txs) (hl : l ∈ t.lines) : l ∈ allLines txs := by
  induction txs with
  | nil => cases ht
  | cons x rest ih =>
    have h2 : allLines (x :: rest) = x.lines ++ allLines rest := rfl
    rw [h2, List.mem_append]
    rcases List.mem_cons.1 ht with rfl | ht
    · exact Or.inl hl
    · exact Or.inr (ih ht)

theorem debitMinusCredit_perm {l₁ l₂ : List Line} (h : l₁.Perm l₂) (id : ObjectId) :
    debitMinusCredit l₁ id = debitMinusCredit l₂ id := by
  unfold debitMinusCredit
  exact List.Perm.sum_eq ((h.filter _).map _)

theorem generateBalanceSheet_from (s : State) (m : Saldos)
    (hm : balanceSheetSaldos s = some m) :
    generateBalanceSheet s =
      some (balanceSheetFrom (findAccountsByType s balanceSheetTypes) m) :=
  generateBalanceSheet_eq s m hm

theorem generateIncomeStatement_from (s : State) (m : Saldos)
    (hm : incomeStatementSaldos s = some m) :
    generateIncomeStatement s =
      some (incomeStatementFrom (findAccountsByType s incomeStatementTypes) m) :=
  generateIncomeStatement_eq s m hm

theorem map_reportItem_congr (m₁ m₂ : Saldos) (L : List Account)
    (h : ∀ c ∈ L, m₁.getOrZero c._id = m₂.getOrZero c._id) (p : Account → Bool) :
    (L.filter p).map (reportItem m₁) = (L.filter p).map (reportItem m₂) ∧
      ((L.filter p).map (fun c => m₁.getOrZero c._id)).sum =
        ((L.filter p).map (fun c => m₂.getOrZero c._id)).sum := by
  have h1 : ∀ c ∈ L.filter p, m₁.getOrZero c._id = m₂.getOrZero c._id :=
    fun c hc => h c (List.mem_of_mem_filter hc)
  constructor
  · apply List.map_congr_left
    intro c hc
    unfold reportItem
    rw [h1 c hc]
  · congr 1
    exact List.map_congr_left h1

theorem balanceSheetFrom_congr (cuentas : List Account) (m₁ m₂ : Saldos)
    (h : ∀ c ∈ cuentas, m₁.getOrZero c._id = m₂.getOrZero c._id) :
    balanceSheetFrom cuentas m₁ = balanceSheetFrom cuentas m₂ := by
  unfold balanceSheetFrom
  rw [(map_reportItem_congr m₁ m₂ cuentas h _).1, (map_reportItem_congr m₁ m₂ cuentas h _).2,
    (map_reportItem_congr m₁ m₂ cuentas h (fun c => c.type = .pasivo)).1,
    (map_reportItem_congr m₁ m₂ cuentas h (fun c => c.type = .pasivo)).2,
    (map_reportItem_congr m₁ m₂ cuentas h (fun c => c.type = .capital)).1,
    (map_reportItem_congr m₁ m₂ cuentas h (fun c => c.type = .capital)).2]

theorem incomeStatementFrom_congr (cuentas : List Account) (m₁ m₂ : Saldos)
    (h : ∀ c ∈ cuentas, m₁.getOrZero c._id = m₂.getOrZero c._id) :
    incomeStatementFrom cuentas m₁ = incomeStatementFrom cuentas m₂ := by
  unfold incomeStatementFrom
  rw [(map_reportItem_congr m₁ m₂ cuentas h _).1, (map_reportItem_congr m₁ m₂ cuentas h _).2,
    (map_reportItem_congr m₁ m₂ cuentas h (fun c => c.type = .gasto)).1,
    (map_reportItem_congr m₁ m₂ cuentas h (fun c => c.type = .gasto)).2]

theorem findAccountsByType_nodup {s : State} (hu : UniqueAccountIds s)
    (types : List AccountType) :
    ((findAccountsByType s types).map (fun a => a._id)).Nodup := by
  unfold findAccountsByType
  exact List.Nodup.sublist ((List.filter_sublist _).map _) hu

/-- The balance a balance sheet reports for a queried account is the one the
`saldos` object holds for it. -/
theorem balanceSheetFrom_balanceOf (cuentas : List Account) (m : Saldos)
    (hn : (cuentas.map (fun a => a._id)).Nodup) (a : Account) (ha : a ∈ cuentas)
    (ht : a.type ∈ balanceSheetTypes) :
    (balanceSheetFrom cuentas m).balanceOf a._id = some (m.getOrZero a._id) := by
  unfold BalanceSheet.balanceOf balanceSheetFrom
  simp only
  rw [← List.filter_head?, List.filter_append, List.filter_append,
    filter_id_reportItems m _ cuentas a hn ha, filter_id_reportItems m _ cuentas a hn ha,
    filter_id_reportItems m _ cuentas a hn ha]
  cases hty : a.type with
  | activo => simp [reportItem]
  | pasivo => simp [reportItem]
  | capital => simp [reportItem]
  | ingreso => rw [hty] at ht; exact absurd ht (by decide)
  | gasto => rw [hty] at ht; exact absurd ht (by decide)

/-- The balance an income statement reports for a queried account. -/
theorem incomeStatementFrom_balanceOf (cuentas : List Account) (m : Saldos)
    (hn : (cuentas.map (fun a => a._id)).Nodup) (a : Account) (ha : a ∈ cuentas)
    (ht : a.type ∈ incomeStatementTypes) :
    (incomeStatementFrom cuentas m).balanceOf a._id = some (m.getOrZero a._id) := by
  unfold IncomeStatement.balanceOf incomeStatementFrom
  simp only
  rw [← List.filter_head?, List.filter_append,
    filter_id_reportItems m _ cuentas a hn ha, filter_id_reportItems m _ cuentas a hn ha]
  cases hty : a.type with
  | ingreso => simp [reportItem]
  | gasto => simp [reportItem]
  | activo => rw [hty] at ht; exact absurd ht (by decide)
  | pasivo => rw [hty] at ht; exact absurd ht (by decide)
  | capital => rw [hty] at ht; exact absurd ht (by decide)

theorem contribution_append (a : Account) (l₁ l₂ : List Line) :
    contribution a (l₁ ++ l₂) = contribution a l₁ + contribution a l₂ := by
  unfold contribution
  cases a.type <;> simp only [debitMinusCredit_append, creditMinusDebit_append]

theorem contribution_perm (a : Account) {l₁ l₂ : List Line} (h : l₁.Perm l₂) :
    contribution a l₁ = contribution a l₂ := by
  unfold contribution
  cases a.type <;>
    simp only [creditMinusDebit_eq_neg, debitMinusCredit_perm h]

theorem contribution_of_no_posting (a : Account) (ls : List Line)
    (h : ∀ l ∈ ls, l.account ≠ a._id) : contribution a ls = 0 := by
  obtain ⟨h1, h2⟩ := sum_filter_eq_zero_of_no_posting ls a._id h
  unfold contribution
  cases a.type <;> simp only [h1, h2]

/-- The balance each report gives a stored account of its types is the
contribution, under the sign rule of the account's type, of all stored lines. -/
theorem reported_balances (s : State) (hu : UniqueAccountIds s) (hr : LinesResolve s) :
    ∃ bs inc, generateBalanceSheet s = some bs ∧ generateIncomeStatement s = some inc ∧
      (∀ a ∈ s.accounts, a.type ∈ balanceSheetTypes →
        bs.balanceOf a._id = some (contribution a (allLines s.transactions))) ∧
      (∀ a ∈ s.accounts, a.type ∈ incomeStatementTypes →
        inc.balanceOf a._id = some (contribution a (allLines s.transactions))) := by
  obtain ⟨m, hm, hb⟩ := balanceSheetSaldos_eq s hr
  obtain ⟨m', hm', hb'⟩ := incomeStatementSaldos_eq s hu hr
  refine ⟨_, _, generateBalanceSheet_from s m hm, generateIncomeStatement_from s m' hm', ?_, ?_⟩
  · intro a ha ht
    rw [balanceSheetFrom_balanceOf _ m (findAccountsByType_nodup hu _) a
      (mem_findAccountsByType ha ht) ht, hb a ha ht]
    unfold contribution
    cases hty : a.type with
    | ingreso => rw [hty] at ht; exact absurd ht (by decide)
    | activo => rfl
    | pasivo => rfl
    | capital => rfl
    | gasto => rfl
  · intro a ha ht
    rw [incomeStatementFrom_balanceOf _ m' (findAccountsByType_nodup hu _) a
      (mem_findAccountsByType ha ht) ht]
    unfold contribution
    cases hty : a.type with
    | ingreso => simp only; rw [(hb' a ha).1 hty]
    | gasto => simp only; rw [(hb' a ha).2 hty]
    | activo => rw [hty] at ht; exact absurd ht (by decide)
    | pasivo => rw [hty] at ht; exact absurd ht (by decide)
    | capital => rw [hty] at ht; exact absurd ht (by decide)

/-- Two stores with the same accounts whose stored lines are the same up to
order have the same reports. -/
theorem reports_perm (s₁ s₂ : State) (hacc : s₁.accounts = s₂.accounts)
    (hperm : (allLines s₁.transactions).Perm (allLines s₂.transactions))
    (hu : UniqueAccountIds s₁) (hr : LinesResolve s₁) :
    generateBalanceSheet s₁ = generateBalanceSheet s₂ ∧
      generateIncomeStatement s₁ = generateIncomeStatement s₂ := by
  have hu₂ : UniqueAccountIds s₂ := by
    unfold UniqueAccountIds at hu ⊢
    rw [← hacc]
    exact hu
  have hfind : ∀ p, findAccountById s₂ p = findAccountById s₁ p := by
    intro p
    unfold findAccountById
    rw [hacc]
  have hr₂ : LinesResolve s₂ := by
    intro t ht l hl
    rw [hfind]
    exact allLines_resolve hr l (hperm.mem_iff.2 (mem_allLines_of ht hl))
  have hcu : ∀ types, findAccountsByType s₂ types = findAccountsByType s₁ types := by
    intro types
    unfold findAccountsByType
    rw [hacc]
  obtain ⟨m₁, hm₁, hb₁⟩ := balanceSheetSaldos_eq s₁ hr
  obtain ⟨m₂, hm₂, hb₂⟩ := balanceSheetSaldos_eq s₂ hr₂
  obtain ⟨n₁, hn₁, hi₁⟩ := incomeStatementSaldos_eq s₁ hu hr
  obtain ⟨n₂, hn₂, hi₂⟩ := incomeStatementSaldos_eq s₂ hu₂ hr₂
  rw [generateBalanceSheet_from s₁ m₁ hm₁, generateBalanceSheet_from s₂ m₂ hm₂,
    generateIncomeStatement_from s₁ n₁ hn₁, generateIncomeStatement_from s₂ n₂ hn₂, hcu, hcu]
  constructor
  · congr 1
    apply balanceSheetFrom_congr
    intro c hc
    have hc₁ : c ∈ s₁.accounts := by
      unfold findAccountsByType at hc
      exact List.mem_of_mem_filter hc
    have ht := findAccountsByType_type s₁ balanceSheetTypes c hc
    rw [hb₁ c hc₁ ht, hb₂ c (by rw [← hacc]; exact hc₁) ht, debitMinusCredit_perm hperm]
  · congr 1
    apply incomeStatementFrom_congr
    intro c hc
    have hc₁ : c ∈ s₁.accounts := by
      unfold findAccountsByType at hc
      exact List.mem_of_mem_filter hc
    have hc₂ : c ∈ s₂.accounts := by rw [← hacc]; exact hc₁
    have ht := findAccountsByType_type s₁ incomeStatementTypes c hc
    cases hty : c.type with
    | ingreso =>
      rw [(hi₁ c hc₁).1 hty, (hi₂ c hc₂).1 hty, creditMinusDebit_eq_neg,
        creditMinusDebit_eq_neg, debitMinusCredit_perm hperm]
    | gasto =>
      rw [(hi₁ c hc₁).2 hty, (hi₂ c hc₂).2 hty, debitMinusCredit_perm hperm]
    | activo => rw [hty] at ht; exact absurd ht (by decide)
    | pasivo => rw [hty] at ht; exact absurd ht (by decide)
    | capital => rw [hty] at ht; exact absurd ht (by decide)

theorem allLines_perm {txs₁ txs₂ : List Transaction} (h : txs₁.Perm txs₂) :
    (allLines txs₁).Perm (allLines txs₂) := by
  induction h with
  | nil => exact List.Perm.refl _
  | cons x _ ih => exact List.Perm.append (List.Perm.refl _) ih
  | swap x y l =>
    have h1 : allLines (y :: x :: l) = y.lines ++ (x.lines ++ allLines l) := rfl
    have h2 : allLines (x :: y :: l) = x.lines ++ (y.lines ++ allLines l) := rfl
    rw [h1, h2, ← List.append_assoc, ← List.append_assoc]
    exact List.Perm.append List.perm_append_comm (List.Perm.refl _)
  | trans _ _ ih₁ ih₂ => exact ih₁.trans ih₂

/-! ## Lemmas on doubles -/

theorem pow2_eq (k : Nat) : pow2 k = 2 ^ k := by
  unfold pow2
  rw [Nat.shiftLeft_eq, Nat.one_mul]

theorem pow2_pos (k : Nat) : 0 < pow2 k := by
  rw [pow2_eq]; exact Nat.two_pow_pos k

theorem floorLog2Aux_le (a : Nat) :
    ∀ (i lo : Nat), pow2 lo ≤ a → pow2 (floorLog2Aux a i lo) ≤ a
  | 0, lo, h => h
  | i + 1, lo, h => by
    unfold floorLog2Aux
    split
    · exact floorLog2Aux_le a i _ (by assumption)
    · exact floorLog2Aux_le a i lo h

theorem floorLog2_le {a : Nat} (h : 0 < a) : pow2 (floorLog2 a) ≤ a :=
  floorLog2Aux_le a 12 0 h

theorem floorLog2Aux_lt (a : Nat) :
    ∀ (i lo : Nat), a < pow2 (lo + pow2 i) → a < pow2 (floorLog2Aux a i lo + 1)
  | 0, lo, h => by
    have : pow2 0 = 1 := rfl
    rw [this] at h
    exact h
  | i + 1, lo, h => by
    unfold floorLog2Aux
    have h2 : pow2 (i + 1) = pow2 i + pow2 i := by
      rw [pow2_eq, pow2_eq, pow_succ]; omega
    split
    · apply floorLog2Aux_lt a i
      rw [Nat.add_assoc, ← h2]; exact h
    · apply floorLog2Aux_lt a i
      omega

/-- `floorLog2 a` is the position of the leading bit of `a`. -/
theorem floorLog2_spec {a : Nat} (h : 0 < a) (hlt : a < pow2 4096) :
    pow2 (floorLog2 a) ≤ a ∧ a < pow2 (floorLog2 a + 1) :=
  ⟨floorLog2_le h, floorLog2Aux_lt a 12 0 (by simpa using hlt)⟩


theorem pow2_add (a b : Nat) : pow2 (a + b) = pow2 a * pow2 b := by
  rw [pow2_eq, pow2_eq, pow2_eq, pow_add]

theorem pow2_le_pow2 {a b : Nat} : pow2 a ≤ pow2 b ↔ a ≤ b := by
  rw [pow2_eq, pow2_eq]
  exact Nat.pow_le_pow_iff_right (by decide)

theorem pow2_lt_pow2 {a b : Nat} : pow2 a < pow2 b ↔ a < b := by
  rw [pow2_eq, pow2_eq]
  exact Nat.pow_lt_pow_iff_right (by decide)

theorem pow2_dvd_pow2 {a b : Nat} (h : a ≤ b) : pow2 a ∣ pow2 b := by
  rw [pow2_eq, pow2_eq]
  exact pow_dvd_pow 2 h

theorem pow2_dvd_of_le {c j k : Nat} (hc : c ≤ pow2 53) (hk : pow2 (k + 52) ≤ c * pow2 j) :
    pow2 k ∣ c * pow2 j := by
  have h1 : c * pow2 j ≤ pow2 (53 + j) := by
    rw [pow2_add]; exact Nat.mul_le_mul_right _ hc
  have h2 : k + 52 ≤ 53 + j := pow2_le_pow2.1 (hk.trans h1)
  by_cases hkj : k ≤ j
  · exact Dvd.dvd.mul_left (pow2_dvd_pow2 hkj) c
  · have hk1 : k = j + 1 := by omega
    subst hk1
    have h3 : pow2 53 * pow2 j ≤ c * pow2 j := by
      rw [← pow2_add]
      have : j + 1 + 52 = 53 + j := by omega
      rw [this] at hk; exact hk
    have h4 : pow2 53 ≤ c := Nat.le_of_mul_le_mul_right h3 (pow2_pos j)
    have h5 : c = pow2 53 := Nat.le_antisymm hc h4
    rw [h5, ← pow2_add]
    exact pow2_dvd_pow2 (by omega)

/-- A value with at most 53 significant bits is its own rounding. -/
theorem roundUnits_exact (c j : Nat) (hc : c ≤ pow2 53) (hj : j ≤ 2044) :
    roundUnits (c * pow2 j) 1 = some (c * pow2 j) := by
  have hlt : c * pow2 j < pow2 2098 := by
    calc c * pow2 j ≤ pow2 53 * pow2 2044 :=
          Nat.mul_le_mul hc (pow2_le_pow2.2 hj)
      _ < pow2 2098 := by rw [← pow2_add]; exact pow2_lt_pow2.2 (by decide)
  unfold roundUnits
  simp only [Nat.div_one, Nat.one_mul]
  by_cases h : c * pow2 j < pow2 53
  · have h0 : pow2 0 = 1 := rfl
    simp only [h, if_true, h0, Nat.div_one, Nat.mod_one, Nat.mul_zero, Nat.mul_one]
    have hne : ¬ (1 < 0 ∨ 0 = 1 ∧ c * pow2 j % 2 = 1) := by omega
    rw [if_neg hne, if_pos hlt]
  · simp only [h, if_false]
    have hpos : 0 < c * pow2 j := Nat.lt_of_lt_of_le (pow2_pos 53) (Nat.le_of_not_lt h)
    have hfl := floorLog2_le hpos
    have h53 : 53 ≤ floorLog2 (c * pow2 j) := by
      by_contra hcon
      have hup := (floorLog2_spec hpos (Nat.lt_trans hlt (pow2_lt_pow2.2 (by decide)))).2
      have : pow2 (floorLog2 (c * pow2 j) + 1) ≤ pow2 53 := pow2_le_pow2.2 (by omega)
      omega
    have hdvd : pow2 (floorLog2 (c * pow2 j) - 52) ∣ c * pow2 j := by
      apply pow2_dvd_of_le hc
      have : floorLog2 (c * pow2 j) - 52 + 52 = floorLog2 (c * pow2 j) := by omega
      rw [this]; exact hfl
    have hmod : c * pow2 j % pow2 (floorLog2 (c * pow2 j) - 52) = 0 := Nat.mod_eq_zero_of_dvd hdvd
    have hmul : c * pow2 j / pow2 (floorLog2 (c * pow2 j) - 52) *
        pow2 (floorLog2 (c * pow2 j) - 52) = c * pow2 j := Nat.div_mul_cancel hdvd
    have hk := pow2_pos (floorLog2 (c * pow2 j) - 52)
    have hne : ¬ (pow2 (floorLog2 (c * pow2 j) - 52) < 2 * 0 ∨
        2 * 0 = pow2 (floorLog2 (c * pow2 j) - 52) ∧
          c * pow2 j / pow2 (floorLog2 (c * pow2 j) - 52) % 2 = 1) := by
      omega
    rw [hmod, if_neg hne, hmul, if_pos hlt]

theorem Double.ofInt_zero : Double.ofInt 0 = Double.zero := by
  unfold Double.ofInt Double.zero
  rw [Int.zero_mul]

/-- A whole number of absolute value at most `2 ^ 53` is its own rounding. -/
theorem Double.ofExact_ofInt (n : Int) (h : n.natAbs ≤ pow2 53) :
    Double.ofExact (n * (pow2 1074 : Nat)) = Double.ofInt n := by
  unfold Double.ofExact Double.ofInt
  have hr : roundUnits (n * (pow2 1074 : Nat)).natAbs 1 =
      some (n * (pow2 1074 : Nat)).natAbs := by
    rw [Int.natAbs_mul, Int.natAbs_ofNat]
    exact roundUnits_exact n.natAbs 1074 h (by decide)
  rw [hr]
  simp only
  congr 1
  generalize n * ((pow2 1074 : Nat) : Int) = x
  split <;> omega

/-- The sum of two whole numbers is exact as long as it stays within
`2 ^ 53`. -/
theorem Double.add_ofInt (a b : Int) (h : (a + b).natAbs ≤ pow2 53) :
    (Double.ofInt a).add (Double.ofInt b) = Double.ofInt (a + b) := by
  have := Double.ofExact_ofInt (a + b) h
  unfold Double.ofInt at this ⊢
  unfold Double.add
  simp only
  rw [← Int.add_mul]
  exact this

theorem Double.neg_ofInt (a : Int) : (Double.ofInt a).neg = Double.ofInt (-a) := by
  unfold Double.ofInt Double.neg
  simp only
  rw [Int.neg_mul]

/-- The difference of two whole numbers is exact as long as it stays within
`2 ^ 53`. -/
theorem Double.sub_ofInt (a b : Int) (h : (a - b).natAbs ≤ pow2 53) :
    (Double.ofInt a).sub (Double.ofInt b) = Double.ofInt (a - b) := by
  unfold Double.sub
  rw [Double.neg_ofInt, Double.add_ofInt a (-b) (by rw [← Int.sub_eq_add_neg]; exact h),
    Int.sub_eq_add_neg]

theorem Double.ofInt_injective {a b : Int} (h : Double.ofInt a = Double.ofInt b) : a = b := by
  unfold Double.ofInt at h
  simp only [Double.fin.injEq] at h
  have hp : ((pow2 1074 : Nat) : Int) ≠ 0 := by
    have := pow2_pos 1074
    omega
  exact Int.eq_of_mul_eq_mul_right hp h

theorem Double.gtZero_ofInt (a : Int) : (Double.ofInt a).gtZero = decide (0 < a) := by
  unfold Double.ofInt Double.gtZero
  simp only
  have hp : (0 : Int) < ((pow2 1074 : Nat) : Int) := by exact_mod_cast pow2_pos 1074
  by_cases h : 0 < a
  · simp [h, Int.mul_pos h hp]
  · have : ¬ 0 < a * ((pow2 1074 : Nat) : Int) := by
      have := Int.mul_nonpos_of_nonpos_of_nonneg (Int.not_lt.1 h) (le_of_lt hp)
      omega
    simp [h, this]

theorem Double.geZero_ofInt (a : Int) : (Double.ofInt a).geZero = decide (0 ≤ a) := by
  unfold Double.ofInt Double.geZero
  simp only
  have hp : (0 : Int) < ((pow2 1074 : Nat) : Int) := by exact_mod_cast pow2_pos 1074
  by_cases h : 0 ≤ a
  · simp [h, Int.mul_nonneg h (le_of_lt hp)]
  · have : ¬ 0 ≤ a * ((pow2 1074 : Nat) : Int) := by
      have := Int.mul_neg_of_neg_of_pos (Int.not_le.1 h) hp
      omega
    simp [h, this]

theorem Double.isZero_ofInt (a : Int) : (Double.ofInt a).isZero = decide (a = 0) := by
  unfold Double.isZero Double.ofInt
  simp only
  have hp : ((pow2 1074 : Nat) : Int) ≠ 0 := by
    have := pow2_pos 1074
    omega
  by_cases h : a = 0
  · simp [h]
  · simp [h, hp]

theorem Double.truthy_ofInt (a : Int) : (Double.ofInt a).truthy = decide (a ≠ 0) := by
  unfold Double.truthy Double.ofInt
  simp only
  have hp : ((pow2 1074 : Nat) : Int) ≠ 0 := by
    have := pow2_pos 1074
    omega
  by_cases h : a = 0
  · simp [h]
  · simp [h, hp]

theorem Double.strictEq_ofInt (a b : Int) :
    (Double.ofInt a).strictEq (Double.ofInt b) = decide (a = b) := by
  by_cases h : a = b
  · subst h
    simp [Double.strictEq, Double.ofInt]
  · have : Double.ofInt a ≠ Double.ofInt b := fun hh => h (Double.ofInt_injective hh)
    unfold Double.ofInt at this ⊢
    simp [Double.strictEq, h, this]

/-! ## Whole-number stores in the layer of doubles -/

theorem orZero_map_ofInt (o : Option Int) :
    Js.orZero (o.map Double.ofInt) = Double.ofInt (orZero o) := by
  cases o with
  | none => exact Double.ofInt_zero.symm
  | some n =>
    simp only [Option.map_some', Js.orZero, orZero, Double.truthy_ofInt]
    by_cases h : n = 0
    · subst h; simp [Double.ofInt_zero]
    · simp [h]

theorem Saldos.toJs_set (m : Saldos) (k : ObjectId) (v : Int) :
    (m.set k v).toJs = (m.toJs).set k (Double.ofInt v) := by
  funext k'
  unfold Saldos.toJs Saldos.set Js.Saldos.set
  by_cases h : k' = k <;> simp [h]

theorem Saldos.getOrZero_toJs (m : Saldos) (k : ObjectId) :
    (m.toJs).getOrZero k = Double.ofInt (m.getOrZero k) := by
  unfold Js.Saldos.getOrZero Saldos.toJs Saldos.getOrZero
  rw [orZero_map_ofInt]
  cases m k <;> rfl

theorem findAccountById_toJs (s : State) (id : ObjectId) :
    Js.findAccountById s.toJs id = findAccountById s id := rfl

theorem findAccountsByType_toJs (s : State) (types : List AccountType) :
    Js.findAccountsByType s.toJs types = findAccountsByType s types := rfl

theorem initSaldos_toJs (cuentas : List Account) :
    Js.initSaldos cuentas = (initSaldos cuentas).toJs := by
  unfold Js.initSaldos initSaldos
  have hgen : ∀ (cs : List Account) (m : Saldos),
      cs.foldl (fun m c => Js.Saldos.set m c._id Double.zero) m.toJs =
        (cs.foldl (fun m c => m.set c._id 0) m).toJs := by
    intro cs
    induction cs with
    | nil => intro m; rfl
    | cons c rest ih =>
      intro m
      simp only [List.foldl_cons]
      rw [← ih (m.set c._id 0), Saldos.toJs_set, Double.ofInt_zero]
  exact hgen cuentas (fun _ => none)

/-- One line of the balance sheet loop adds exactly, as long as the balances
and the amounts of the line stay within `2 ^ 53`. -/
theorem balanceSheetLine_toJs (s : State) (m : Saldos) (l : Line) (B : Nat)
    (hm : ∀ k v, m k = some v → v.natAbs ≤ B) (hB : B + l.weight ≤ pow2 53) :
    Js.balanceSheetLine s.toJs m.toJs l.toJs = (balanceSheetLine s m l).map Saldos.toJs ∧
      ∀ m', balanceSheetLine s m l = some m' →
        ∀ k v, m' k = some v → v.natAbs ≤ B + l.weight := by
  unfold Js.balanceSheetLine balanceSheetLine
  rw [findAccountById_toJs]
  have hacc : l.toJs.account = l.account := rfl
  rw [hacc]
  cases hfind : findAccountById s l.account with
  | none => exact ⟨rfl, fun m' h => by cases h⟩
  | some account =>
    simp only
    have hmk : m.toJs account._id = (m account._id).map Double.ofInt := rfl
    rw [hmk]
    cases hv : m account._id with
    | none =>
      refine ⟨rfl, fun m' h k v hk => ?_⟩
      simp only [Option.some.injEq] at h
      subst h
      exact Nat.le_trans (hm k v hk) (Nat.le_add_right _ _)
    | some v =>
      have hvB := hm _ _ hv
      have hw : l.weight = (orZero l.debit).natAbs + (orZero l.credit).natAbs := rfl
      have hd : l.toJs.debit = l.debit.map Double.ofInt := rfl
      have hc : l.toJs.credit = l.credit.map Double.ofInt := rfl
      simp only [Option.map_some']
      rw [hd, hc, orZero_map_ofInt, orZero_map_ofInt,
        Double.sub_ofInt _ _ (by omega), Double.add_ofInt _ _ (by omega), Saldos.toJs_set]
      refine ⟨rfl, fun m' h k v' hk => ?_⟩
      simp only [Option.some.injEq] at h
      subst h
      unfold Saldos.set at hk
      by_cases hkk : k = account._id
      · simp only [hkk, if_true, Option.some.injEq] at hk
        subst hk
        omega
      · simp only [hkk, if_false] at hk
        exact Nat.le_trans (hm k v' hk) (Nat.le_add_right _ _)

/-- One line of the income statement loop adds exactly, as long as the
balances and the amounts of the line stay within `2 ^ 53`. -/
theorem incomeStatementLine_toJs (s : State) (m : Saldos) (l : Line) (B : Nat)
    (hm : ∀ k v, m k = some v → v.natAbs ≤ B) (hB : B + l.weight ≤ pow2 53) :
    Js.incomeStatementLine s.toJs m.toJs l.toJs =
        (incomeStatementLine s m l).map Saldos.toJs ∧
      ∀ m', incomeStatementLine s m l = some m' →
        ∀ k v, m' k = some v → v.natAbs ≤ B + l.weight := by
  unfold Js.incomeStatementLine incomeStatementLine
  rw [findAccountById_toJs]
  have hacc : l.toJs.account = l.account := rfl
  rw [hacc]
  cases hfind : findAccountById s l.account with
  | none => exact ⟨rfl, fun m' h => by cases h⟩
  | some account =>
    simp only
    have hmk : m.toJs account._id = (m account._id).map Double.ofInt := rfl
    rw [hmk]
    cases hv : m account._id with
    | none =>
      refine ⟨rfl, fun m' h k v hk => ?_⟩
      simp only [Option.some.injEq] at h
      subst h
      exact Nat.le_trans (hm k v hk) (Nat.le_add_right _ _)
    | some v =>
      have hvB := hm _ _ hv
      have hw : l.weight = (orZero l.debit).natAbs + (orZero l.credit).natAbs := rfl
      have hd : l.toJs.debit = l.debit.map Double.ofInt := rfl
      have hc : l.toJs.credit = l.credit.map Double.ofInt := rfl
      simp only [Option.map_some']
      rw [hd, hc, orZero_map_ofInt, orZero_map_ofInt]
      cases hty : account.type <;>
        simp only [decide_True, decide_False, if_true, if_false, reduceCtorEq] <;>
        first
        | (rw [Double.sub_ofInt _ _ (by omega), Double.add_ofInt _ _ (by omega), Saldos.toJs_set]
           refine ⟨rfl, fun m' h k v' hk => ?_⟩
           simp only [Option.some.injEq] at h
           subst h
           unfold Saldos.set at hk
           by_cases hkk : k = account._id
           · simp only [hkk, if_true, Option.some.injEq] at hk
             subst hk
             omega
           · simp only [hkk, if_false] at hk
             exact Nat.le_trans (hm k v' hk) (Nat.le_add_right _ _))
        | (rw [Saldos.toJs_set]
           refine ⟨rfl, fun m' h k v' hk => ?_⟩
           simp only [Option.some.injEq] at h
           subst h
           unfold Saldos.set at hk
           by_cases hkk : k = account._id
           · simp only [hkk, if_true, Option.some.injEq] at hk
             subst hk
             omega
           · simp only [hkk, if_false] at hk
             exact Nat.le_trans (hm k v' hk) (Nat.le_add_right _ _))

theorem foldLines_toJs (f : Saldos → Line → Option Saldos)
    (g : Js.Saldos → Js.Line → Option Js.Saldos)
    (hstep : ∀ (m : Saldos) (l : Line) (B : Nat), (∀ k v, m k = some v → v.natAbs ≤ B) →
      B + l.weight ≤ pow2 53 →
      g m.toJs l.toJs = (f m l).map Saldos.toJs ∧
        ∀ m', f m l = some m' → ∀ k v, m' k = some v → v.natAbs ≤ B + l.weight) :
    ∀ (ls : List Line) (m : Saldos) (B : Nat), (∀ k v, m k = some v → v.natAbs ≤ B) →
      B + (ls.map Line.weight).sum ≤ pow2 53 →
      Js.foldLines g m.toJs (ls.map Line.toJs) = (foldLines f m ls).map Saldos.toJs ∧
        ∀ m', foldLines f m ls = some m' →
          ∀ k v, m' k = some v → v.natAbs ≤ B + (ls.map Line.weight).sum
  | [], m, B, hm, _ => by
    refine ⟨rfl, fun m' h k v hk => ?_⟩
    simp only [foldLines, Option.some.injEq] at h
    subst h
    simpa using hm k v hk
  | l :: rest, m, B, hm, hB => by
    simp only [List.map_cons, List.sum_cons] at hB ⊢
    obtain ⟨h1, h2⟩ := hstep m l B hm (by omega)
    simp only [Js.foldLines, foldLines]
    rw [h1]
    cases hf : f m l with
    | none => exact ⟨rfl, fun m' h => by cases h⟩
    | some m1 =>
      simp only [Option.map_some']
      obtain ⟨h3, h4⟩ := foldLines_toJs f g hstep rest m1 (B + l.weight) (h2 m1 hf) (by omega)
      refine ⟨h3, fun m' h k v hk => ?_⟩
      have := h4 m' h k v hk
      omega

theorem foldTransactions_toJs (f : Saldos → Line → Option Saldos)
    (g : Js.Saldos → Js.Line → Option Js.Saldos)
    (hstep : ∀ (m : Saldos) (l : Line) (B : Nat), (∀ k v, m k = some v → v.natAbs ≤ B) →
      B + l.weight ≤ pow2 53 →
      g m.toJs l.toJs = (f m l).map Saldos.toJs ∧
        ∀ m', f m l = some m' → ∀ k v, m' k = some v → v.natAbs ≤ B + l.weight) :
    ∀ (txs : List Transaction) (m : Saldos) (B : Nat), (∀ k v, m k = some v → v.natAbs ≤ B) →
      B + weight txs ≤ pow2 53 →
      Js.foldTransactions g m.toJs (txs.map Transaction.toJs) =
        (foldTransactions f m txs).map Saldos.toJs
  | [], m, B, _, _ => rfl
  | t :: rest, m, B, hm, hB => by
    have hw : weight (t :: rest) = (t.lines.map Line.weight).sum + weight rest := by
      unfold weight
      have : allLines (t :: rest) = t.lines ++ allLines rest := rfl
      rw [this, List.map_append, List.sum_append]
    rw [hw] at hB
    obtain ⟨h1, h2⟩ := foldLines_toJs f g hstep t.lines m B hm (by omega)
    simp only [List.map_cons, Js.foldTransactions, foldTransactions]
    have hl : (Transaction.toJs t).lines = t.lines.map Line.toJs := rfl
    rw [hl, h1]
    cases hf : foldLines f m t.lines with
    | none => rfl
    | some m1 =>
      simp only [Option.map_some']
      exact foldTransactions_toJs f g hstep rest m1 _ (h2 m1 hf) (by omega)

theorem initSaldos_bound (cuentas : List Account) :
    ∀ k v, initSaldos cuentas k = some v → v.natAbs ≤ 0 := by
  intro k v h
  rw [initSaldos_apply] at h
  split at h
  · simp only [Option.some.injEq] at h
    subst h
    rfl
  · cases h

theorem balanceSheetSaldos_toJs (s : State) (hw : weight s.transactions ≤ pow2 53) :
    Js.balanceSheetSaldos s.toJs = (balanceSheetSaldos s).map Saldos.toJs := by
  unfold Js.balanceSheetSaldos balanceSheetSaldos
  rw [findAccountsByType_toJs, initSaldos_toJs]
  exact foldTransactions_toJs (balanceSheetLine s) (Js.balanceSheetLine s.toJs)
    (balanceSheetLine_toJs s) s.transactions _ 0 (initSaldos_bound _) (by omega)

theorem incomeStatementSaldos_toJs (s : State) (hw : weight s.transactions ≤ pow2 53) :
    Js.incomeStatementSaldos s.toJs = (incomeStatementSaldos s).map Saldos.toJs := by
  unfold Js.incomeStatementSaldos incomeStatementSaldos
  rw [findAccountsByType_toJs, initSaldos_toJs]
  exact foldTransactions_toJs (incomeStatementLine s) (Js.incomeStatementLine s.toJs)
    (incomeStatementLine_toJs s) s.transactions _ 0 (initSaldos_bound _) (by omega)

theorem reportItem_toJs (m : Saldos) (c : Account) :
    (reportItem m c).toJs = Js.reportItem m.toJs c := by
  unfold reportItem ReportItem.toJs Js.reportItem
  rw [Saldos.getOrZero_toJs]

/-- The second loop of the balance sheet adds exactly, as long as the totals
and the balances still to be added stay within `2 ^ 53`. -/
theorem balanceSheetPush_toJs (m : Saldos) :
    ∀ (cuentas : List Account) (r : BalanceSheet),
      r.totalActivo.natAbs + r.totalPasivo.natAbs + r.totalCapital.natAbs +
        (cuentas.map (fun c => (m.getOrZero c._id).natAbs)).sum ≤ pow2 53 →
      Js.balanceSheetPush m.toJs r.toJs cuentas =
        (balanceSheetPush m r cuentas).map BalanceSheet.toJs
  | [], r, _ => rfl
  | c :: rest, r, h => by
    simp only [List.map_cons, List.sum_cons] at h
    unfold Js.balanceSheetPush balanceSheetPush
    cases hty : c.type with
    | activo =>
      simp only
      rw [← balanceSheetPush_toJs m rest _ (by simp only; omega)]
      congr 1
      simp only [BalanceSheet.toJs, List.map_append, List.map_cons, List.map_nil,
        reportItem_toJs, Saldos.getOrZero_toJs]
      rw [Double.add_ofInt _ _ (by omega)]
    | pasivo =>
      simp only
      rw [← balanceSheetPush_toJs m rest _ (by simp only; omega)]
      congr 1
      simp only [BalanceSheet.toJs, List.map_append, List.map_cons, List.map_nil,
        reportItem_toJs, Saldos.getOrZero_toJs]
      rw [Double.add_ofInt _ _ (by omega)]
    | capital =>
      simp only
      rw [← balanceSheetPush_toJs m rest _ (by simp only; omega)]
      congr 1
      simp only [BalanceSheet.toJs, List.map_append, List.map_cons, List.map_nil,
        reportItem_toJs, Saldos.getOrZero_toJs]
      rw [Double.add_ofInt _ _ (by omega)]
    | ingreso => rfl
    | gasto => rfl

/-- The second loop of the income statement adds exactly, as long as the
totals and the balances still to be added stay within `2 ^ 53`. -/
theorem incomeStatementPush_toJs (m : Saldos) :
    ∀ (cuentas : List Account) (r : IncomeStatement),
      r.totalIngreso.natAbs + r.totalGasto.natAbs +
        (cuentas.map (fun c => (m.getOrZero c._id).natAbs)).sum ≤ pow2 53 →
      Js.incomeStatementPush m.toJs r.toJs cuentas =
        (incomeStatementPush m r cuentas).map IncomeStatement.toJs
  | [], r, _ => rfl
  | c :: rest, r, h => by
    simp only [List.map_cons, List.sum_cons] at h
    unfold Js.incomeStatementPush incomeStatementPush
    cases hty : c.type with
    | ingreso =>
      simp only
      rw [← incomeStatementPush_toJs m rest _ (by simp only; omega)]
      congr 1
      simp only [IncomeStatement.toJs, List.map_append, List.map_cons, List.map_nil,
        reportItem_toJs, Saldos.getOrZero_toJs]
      rw [Double.add_ofInt _ _ (by omega)]
    | gasto =>
      simp only
      rw [← incomeStatementPush_toJs m rest _ (by simp only; omega)]
      congr 1
      simp only [IncomeStatement.toJs, List.map_append, List.map_cons, List.map_nil,
        reportItem_toJs, Saldos.getOrZero_toJs]
      rw [Double.add_ofInt _ _ (by omega)]
    | activo => rfl
    | pasivo => rfl
    | capital => rfl

theorem sum_ite_le (x : Nat) (k : ObjectId) :
    ∀ A : List Account, (A.map (fun a => a._id)).Nodup →
      (A.map (fun a => if k = a._id then x else 0)).sum ≤ x
  | [], _ => by simp
  | a :: rest, hn => by
    rw [List.map_cons, List.nodup_cons] at hn
    rw [List.map_cons, List.sum_cons]
    by_cases hka : k = a._id
    · have hzero : (rest.map (fun b => if k = b._id then x else 0)).sum = 0 := by
        apply List.sum_eq_zero
        intro y hy
        obtain ⟨b, hb, rfl⟩ := List.mem_map.1 hy
        have : k ≠ b._id := by
          intro hkb
          apply hn.1
          rw [← hka, hkb]
          exact List.mem_map.2 ⟨b, hb, rfl⟩
        simp [this]
      rw [hzero]
      simp [hka]
    · have := sum_ite_le x k rest hn.2
      simp only [hka, if_false]
      omega

theorem sum_map_add_nat {α : Type} (f g : α → Nat) :
    ∀ A : List α, (A.map (fun a => f a + g a)).sum = (A.map f).sum + (A.map g).sum
  | [] => rfl
  | a :: rest => by
    simp only [List.map_cons, List.sum_cons, sum_map_add_nat f g rest]
    omega

theorem sum_map_le_nat {α : Type} (f g : α → Nat) :
    ∀ A : List α, (∀ a ∈ A, f a ≤ g a) → (A.map f).sum ≤ (A.map g).sum
  | [], _ => Nat.le_refl _
  | a :: rest, h => by
    simp only [List.map_cons, List.sum_cons]
    have h1 := h a (List.mem_cons_self _ _)
    have h2 := sum_map_le_nat f g rest (fun x hx => h x (List.mem_cons_of_mem _ hx))
    omega

/-- Summed over accounts with distinct ids, the absolute values of debit minus
credit of the lines posting to each stay within the absolute values of all the
amounts. -/
theorem sum_natAbs_debitMinusCredit_le (A : List Account)
    (hn : (A.map (fun a => a._id)).Nodup) :
    ∀ L : List Line,
      (A.map (fun a => (debitMinusCredit L a._id).natAbs)).sum ≤ (L.map Line.weight).sum
  | [] => by
    have : (A.map (fun a => (debitMinusCredit [] a._id).natAbs)) = A.map (fun _ => 0) := by
      apply List.map_congr_left
      intro a _
      rw [debitMinusCredit_nil]; rfl
    rw [this]
    simp
  | l :: rest => by
    have ih := sum_natAbs_debitMinusCredit_le A hn rest
    have hle : (A.map (fun a => (debitMinusCredit (l :: rest) a._id).natAbs)).sum ≤
        (A.map (fun a => (if l.account = a._id then l.weight else 0) +
          (debitMinusCredit rest a._id).natAbs)).sum := by
      apply sum_map_le_nat
      intro a _
      rw [debitMinusCredit_cons]
      have hw : l.weight = (orZero l.debit).natAbs + (orZero l.credit).natAbs := rfl
      by_cases h : l.account = a._id
      · simp only [h, if_true]
        omega
      · simp only [h, if_false]
        omega
    rw [sum_map_add_nat] at hle
    have h1 := sum_ite_le l.weight l.account A hn
    simp only [List.map_cons, List.sum_cons]
    omega

theorem mem_of_mem_findAccountsByType {s : State} {types : List AccountType} {a : Account}
    (h : a ∈ findAccountsByType s types) : a ∈ s.accounts := by
  unfold findAccountsByType at h
  exact (List.mem_filter.1 h).1

/-- The balances of the queried accounts together stay within the absolute
values of all stored amounts. -/
theorem sum_natAbs_saldos_le (s : State) (hu : UniqueAccountIds s) (types : List AccountType)
    (m : Saldos)
    (hm : ∀ a ∈ s.accounts, a.type ∈ types →
      (m.getOrZero a._id).natAbs = (debitMinusCredit (allLines s.transactions) a._id).natAbs) :
    ((findAccountsByType s types).map (fun c => (m.getOrZero c._id).natAbs)).sum ≤
      weight s.transactions := by
  have hcongr : (findAccountsByType s types).map (fun c => (m.getOrZero c._id).natAbs) =
      (findAccountsByType s types).map
        (fun c => (debitMinusCredit (allLines s.transactions) c._id).natAbs) := by
    apply List.map_congr_left
    intro a ha
    exact hm a (mem_of_mem_findAccountsByType ha) (findAccountsByType_type s types a ha)
  rw [hcongr]
  exact sum_natAbs_debitMinusCredit_le _ (findAccountsByType_nodup hu types) _

/-- On a store of whole numbers whose absolute values sum to at most `2 ^ 53`,
the balance sheet computed in doubles is the one computed in whole numbers. -/
theorem generateBalanceSheet_toJs (s : State) (hu : UniqueAccountIds s) (hr : LinesResolve s)
    (hw : weight s.transactions ≤ pow2 53) :
    Js.generateBalanceSheet s.toJs = (generateBalanceSheet s).map BalanceSheet.toJs := by
  obtain ⟨m, hm, hb⟩ := balanceSheetSaldos_eq s hr
  unfold Js.generateBalanceSheet generateBalanceSheet
  rw [balanceSheetSaldos_toJs s hw, hm]
  simp only [Option.map_some']
  rw [findAccountsByType_toJs]
  have hz : (⟨[], [], [], Double.zero, Double.zero, Double.zero⟩ : Js.BalanceSheet) =
      BalanceSheet.toJs ⟨[], [], [], 0, 0, 0⟩ := by
    simp [BalanceSheet.toJs, Double.ofInt_zero]
  rw [hz]
  apply balanceSheetPush_toJs
  have := sum_natAbs_saldos_le s hu balanceSheetTypes m (fun a ha ht => by rw [hb a ha ht])
  simp only [Int.natAbs_zero]
  omega

theorem incomeStatementPush_bound (m : Saldos) :
    ∀ (cuentas : List Account) (r r' : IncomeStatement),
      incomeStatementPush m r cuentas = some r' →
      r'.totalIngreso.natAbs + r'.totalGasto.natAbs ≤
        r.totalIngreso.natAbs + r.totalGasto.natAbs +
          (cuentas.map (fun c => (m.getOrZero c._id).natAbs)).sum
  | [], r, r', h => by
    simp only [incomeStatementPush, Option.some.injEq] at h
    subst h
    simp
  | c :: rest, r, r', h => by
    unfold incomeStatementPush at h
    simp only [List.map_cons, List.sum_cons]
    cases hty : c.type with
    | ingreso =>
      rw [hty] at h
      have := incomeStatementPush_bound m rest _ r' h
      simp only at this
      omega
    | gasto =>
      rw [hty] at h
      have := incomeStatementPush_bound m rest _ r' h
      simp only at this
      omega
    | activo => rw [hty] at h; cases h
    | pasivo => rw [hty] at h; cases h
    | capital => rw [hty] at h; cases h

/-- On a store of whole numbers whose absolute values sum to at most `2 ^ 53`,
the income statement computed in doubles is the one computed in whole
numbers. -/
theorem generateIncomeStatement_toJs (s : State) (hu : UniqueAccountIds s)
    (hr : LinesResolve s) (hw : weight s.transactions ≤ pow2 53) :
    Js.generateIncomeStatement s.toJs =
      (generateIncomeStatement s).map IncomeStatement.toJs := by
  obtain ⟨m, hm, hb⟩ := incomeStatementSaldos_eq s hu hr
  unfold Js.generateIncomeStatement generateIncomeStatement
  rw [incomeStatementSaldos_toJs s hw, hm]
  simp only [Option.map_some']
  rw [findAccountsByType_toJs]
  have hz : (⟨[], [], Double.zero, Double.zero, Double.zero⟩ : Js.IncomeStatement) =
      IncomeStatement.toJs ⟨[], [], 0, 0, 0⟩ := by
    simp [IncomeStatement.toJs, Double.ofInt_zero]
  have hsum := sum_natAbs_saldos_le s hu incomeStatementTypes m (fun a ha ht => by
    cases hty : a.type with
    | ingreso => rw [(hb a ha).1 hty, creditMinusDebit_eq_neg, Int.natAbs_neg]
    | gasto => rw [(hb a ha).2 hty]
    | activo => rw [hty] at ht; exact absurd ht (by decide)
    | pasivo => rw [hty] at ht; exact absurd ht (by decide)
    | capital => rw [hty] at ht; exact absurd ht (by decide))
  rw [hz, incomeStatementPush_toJs m _ _ (by simp only [Int.natAbs_zero]; omega)]
  cases hp : incomeStatementPush m ⟨[], [], 0, 0, 0⟩
      (findAccountsByType s incomeStatementTypes) with
  | none => rfl
  | some r =>
    have hbd := incomeStatementPush_bound m _ _ r hp
    simp only [Int.natAbs_zero] at hbd
    simp only [Option.map_some', IncomeStatement.toJs]
    rw [Double.sub_ofInt _ _ (by omega)]

theorem balanceSheet_balanceOf_toJs (r : BalanceSheet) (id : ObjectId) :
    r.toJs.balanceOf id = (r.balanceOf id).map Double.ofInt := by
  unfold Js.BalanceSheet.balanceOf BalanceSheet.balanceOf BalanceSheet.toJs
  simp only [← List.map_append, List.find?_map, Option.map_map]
  rfl

theorem incomeStatement_balanceOf_toJs (r : IncomeStatement) (id : ObjectId) :
    r.toJs.balanceOf id = (r.balanceOf id).map Double.ofInt := by
  unfold Js.IncomeStatement.balanceOf IncomeStatement.balanceOf IncomeStatement.toJs
  simp only [← List.map_append, List.find?_map, Option.map_map]
  rfl

/-! ## Lemmas on `Js.recordTransaction` -/

theorem jsValidateLines_resolves (P : Js.Platform) (s : Js.State) :
    ∀ (lines : List Js.LineInput) (index : Nat) (totalDebit totalCredit : Js.Value)
      (r : Js.Value × Js.Value),
      Js.validateLines P s index totalDebit totalCredit lines = .ok r →
      ∀ l ∈ lines, ∃ id, l.account = .oid id ∧ (Js.findAccountById s id).isSome = true
  | [], _, _, _, _, _ => fun l hl => by cases hl
  | line :: rest, index, totalDebit, totalCredit, r, h => by
    unfold Js.validateLines at h
    simp only at h
    cases hacc : line.account with
    | missing => rw [hacc] at h; cases h
    | malformed => rw [hacc] at h; cases h
    | oid account =>
      rw [hacc] at h
      simp only at h
      cases hfind : Js.findAccountById s account with
      | none => rw [hfind] at h; cases h
      | some a =>
        rw [hfind] at h
        simp only at h
        split at h
        · cases h
        · intro l hl
          rcases List.mem_cons.1 hl with rfl | hl
          · exact ⟨account, hacc, by rw [hfind]; rfl⟩
          · exact jsValidateLines_resolves P s rest _ _ _ r h l hl

theorem jsCastLines_accounts (P : Js.Platform) :
    ∀ (lines : List Js.LineInput) (ls : List Js.Line), Js.castLines P lines = some ls →
      ∀ l' ∈ ls, ∃ l ∈ lines, l.account = .oid l'.account
  | [], ls, h => by
    simp only [Js.castLines, Option.some.injEq] at h
    subst h
    intro l' hl'
    cases hl'
  | line :: rest, ls, h => by
    unfold Js.castLines at h
    cases h1 : Js.castLine P line with
    | none => rw [h1] at h; cases h
    | some l1 =>
      cases h2 : Js.castLines P rest with
      | none => rw [h1, h2] at h; cases h
      | some rest' =>
        rw [h1, h2] at h
        simp only [Option.some.injEq] at h
        subst h
        intro l' hl'
        rcases List.mem_cons.1 hl' with rfl | hl'
        · refine ⟨line, List.mem_cons_self _ _, ?_⟩
          unfold Js.castLine at h1
          cases hacc : line.account with
          | missing => rw [hacc] at h1; cases h1
          | malformed => rw [hacc] at h1; cases h1
          | oid account =>
            rw [hacc] at h1
            cases hd : Js.castAmount P line.debit with
            | none => rw [hd] at h1; cases h1
            | some d =>
              cases hc : Js.castAmount P line.credit with
              | none => rw [hd, hc] at h1; cases h1
              | some c =>
                rw [hd, hc] at h1
                simp only [Option.some.injEq] at h1
                subst h1
                rfl
        · obtain ⟨l, hl, hla⟩ := jsCastLines_accounts P rest rest' h2 l' hl'
          exact ⟨l, List.mem_cons_of_mem _ hl, hla⟩

/-- A `201` of `Js.recordTransaction` appends the document it answers with,
and every line of that document names a stored account. -/
theorem jsRecordTransaction_created {P : Js.Platform} {ctx : Ctx} {s : Js.State}
    {body : Js.TransactionBody} {t : Js.Transaction}
    (h : (Js.recordTransaction P ctx s body).1 = .created t) :
    (Js.recordTransaction P ctx s body).2 = { s with transactions := s.transactions ++ [t] } ∧
      ∀ l' ∈ t.lines, (Js.findAccountById s l'.account).isSome = true := by
  unfold Js.recordTransaction at h ⊢
  cases hd : body.description with
  | none => rw [hd] at h; cases h
  | some description =>
    cases hl : body.lines with
    | none => rw [hd, hl] at h; cases h
    | some lines =>
      rw [hd, hl] at h
      simp only at h ⊢
      split at h
      · cases h
      · rename_i hreq
        rw [if_neg hreq]
        cases hv : Js.validateLines P s 0 (.num Double.zero) (.num Double.zero) lines with
        | error r =>
          rw [hv] at h
          simp only at h
          rw [h] at hv
          exact absurd hv (by
            intro hv
            have : ∀ (ls : List Js.LineInput) (i : Nat) (a b : Js.Value) (t : Js.Transaction),
                Js.validateLines P s i a b ls ≠ .error (.created t) := by
              intro ls
              induction ls with
              | nil => intro i a b t hh; cases hh
              | cons x rest ih =>
                intro i a b t hh
                unfold Js.validateLines at hh
                simp only at hh
                cases hacc : x.account with
                | missing => rw [hacc] at hh; cases hh
                | malformed => rw [hacc] at hh; cases hh
                | oid account =>
                  rw [hacc] at hh
                  simp only at hh
                  cases hfind : Js.findAccountById s account with
                  | none => rw [hfind] at hh; cases hh
                  | some a' =>
                    rw [hfind] at hh
                    simp only at hh
                    split at hh
                    · cases hh
                    · exact ih _ _ _ _ hh
            exact this _ _ _ _ _ hv)
        | ok r =>
          obtain ⟨totalDebit, totalCredit⟩ := r
          rw [hv] at h
          simp only at h ⊢
          split at h
          · cases h
          · rename_i hne
            rw [if_neg hne]
            cases hb : Js.buildTransaction P ctx body.date description lines with
            | none => rw [hb] at h; cases h
            | some t' =>
              rw [hb] at h
              simp only [Js.TxResponse.created.injEq] at h
              subst h
              refine ⟨rfl, fun l' hl' => ?_⟩
              unfold Js.buildTransaction at hb
              cases hdate : resolveDate P.toPlatform ctx body.date with
              | none => rw [hdate] at hb; cases hb
              | some d =>
                cases hcl : Js.castLines P lines with
                | none => rw [hdate, hcl] at hb; cases hb
                | some ls =>
                  cases hu : ctx.userId with
                  | missing => rw [hdate, hcl, hu] at hb; cases hb
                  | malformed => rw [hdate, hcl, hu] at hb; cases hb
                  | oid user =>
                    rw [hdate, hcl, hu] at hb
                    simp only at hb
                    split at hb
                    · cases hb
                    · simp only [Option.some.injEq] at hb
                      subst hb
                      obtain ⟨l, hlm, hla⟩ := jsCastLines_accounts P lines ls hcl l' hl'
                      obtain ⟨id, hid, hfound⟩ :=
                        jsValidateLines_resolves P s lines _ _ _ _ hv l hlm
                      rw [hla] at hid
                      simp only [IdValue.oid.injEq] at hid
                      rw [hid]
                      exact hfound

/-! ## The whole-number handler as the handler over JavaScript values -/

theorem jsGtZero_toJs (P : Js.Platform) (v : NumValue) :
    Js.jsGtZero P (Js.destructureDefault v.toJs) = jsGtZero (destructureDefault v) := by
  cases v with
  | absent =>
    simp only [NumValue.toJs, Js.destructureDefault, Js.jsGtZero, Js.toNumber, destructureDefault,
      jsGtZero, ← Double.ofInt_zero, Double.gtZero_ofInt]
  | null => rfl
  | num n =>
    simp only [NumValue.toJs, Js.destructureDefault, Js.jsGtZero, Js.toNumber, destructureDefault,
      jsGtZero, Double.gtZero_ofInt]

theorem jsStrictEqZero_toJs (v : NumValue) :
    Js.jsStrictEqZero (Js.destructureDefault v.toJs) = jsStrictEqZero (destructureDefault v) := by
  cases v with
  | absent =>
    simp only [NumValue.toJs, Js.destructureDefault, Js.jsStrictEqZero, destructureDefault,
      jsStrictEqZero, ← Double.ofInt_zero, Double.isZero_ofInt]
  | null => rfl
  | num n =>
    simp only [NumValue.toJs, Js.destructureDefault, Js.jsStrictEqZero, destructureDefault,
      jsStrictEqZero, Double.isZero_ofInt]

theorem jsAdd_toJs (P : Js.Platform) (total : Int) (v : NumValue)
    (h : (total + jsToNumber (destructureDefault v)).natAbs ≤ pow2 53) :
    Js.jsAdd P (.num (Double.ofInt total)) (Js.destructureDefault v.toJs) =
      .num (Double.ofInt (total + jsToNumber (destructureDefault v))) := by
  cases v with
  | absent =>
    simp only [NumValue.toJs, Js.destructureDefault, Js.jsAdd, Js.toNumber, destructureDefault,
      jsToNumber, ← Double.ofInt_zero] at h ⊢
    rw [Double.add_ofInt _ _ h]
  | null =>
    simp only [NumValue.toJs, Js.destructureDefault, Js.jsAdd, Js.toNumber, destructureDefault,
      jsToNumber, ← Double.ofInt_zero] at h ⊢
    rw [Double.add_ofInt _ _ h]
  | num n =>
    simp only [NumValue.toJs, Js.destructureDefault, Js.jsAdd, Js.toNumber, destructureDefault,
      jsToNumber] at h ⊢
    rw [Double.add_ofInt _ _ h]

/-- The loop over request lines of whole numbers computes in doubles what it
computes in whole numbers, as long as the totals stay within `2 ^ 53`. -/
theorem validateLines_toJs (P : Js.Platform) (s : State) :
    ∀ (lines : List LineInput) (index : Nat) (totalDebit totalCredit : Int),
      totalDebit.natAbs + totalCredit.natAbs + requestWeight lines ≤ pow2 53 →
      Js.validateLines P s.toJs index (.num (Double.ofInt totalDebit))
          (.num (Double.ofInt totalCredit)) (lines.map LineInput.toJs) =
        match validateLines s index totalDebit totalCredit lines with
        | .error r => .error r.toJs
        | .ok (a, b) => .ok (.num (Double.ofInt a), .num (Double.ofInt b))
  | [], _, _, _, _ => rfl
  | line :: rest, index, totalDebit, totalCredit, h => by
    have hw : requestWeight (line :: rest) =
        (jsToNumber (destructureDefault line.debit)).natAbs +
          (jsToNumber (destructureDefault line.credit)).natAbs + requestWeight rest := by
      unfold requestWeight
      simp only [List.map_cons, List.sum_cons]
    rw [hw] at h
    simp only [List.map_cons]
    unfold Js.validateLines validateLines
    have hacc : (LineInput.toJs line).account = line.account := rfl
    have hd : (LineInput.toJs line).debit = line.debit.toJs := rfl
    have hc : (LineInput.toJs line).credit = line.credit.toJs := rfl
    simp only [hacc, hd, hc]
    cases hla : line.account with
    | missing => rfl
    | malformed => rfl
    | oid account =>
      simp only [findAccountById_toJs]
      cases hfind : findAccountById s account with
      | none => rfl
      | some a =>
        simp only
        have hrej : Js.lineRejected P (Js.destructureDefault line.debit.toJs)
            (Js.destructureDefault line.credit.toJs) =
            lineRejected (destructureDefault line.debit) (destructureDefault line.credit) := by
          unfold Js.lineRejected lineRejected
          rw [jsGtZero_toJs, jsGtZero_toJs, jsStrictEqZero_toJs, jsStrictEqZero_toJs]
        rw [hrej]
        by_cases hr : lineRejected (destructureDefault line.debit)
            (destructureDefault line.credit) = true
        · simp only [hr, if_true]
          rfl
        · simp only [hr, if_false]
          rw [jsAdd_toJs P totalDebit line.debit (by omega),
            jsAdd_toJs P totalCredit line.credit (by omega)]
          exact validateLines_toJs P s rest (index + 1) _ _ (by omega)

theorem castAmount_toJs (P : Js.Platform) (v : NumValue) :
    Js.castAmount P v.toJs = (castAmount v).map (fun o => o.map Double.ofInt) := by
  cases v with
  | absent =>
    simp only [NumValue.toJs, Js.castAmount, castAmount, Option.map_some', Double.ofInt_zero]
  | null => rfl
  | num n =>
    simp only [NumValue.toJs, Js.castAmount, castAmount, Double.geZero_ofInt, decide_eq_true_eq]
    by_cases h : 0 ≤ n <;> simp [h]

theorem castLine_toJs (P : Js.Platform) (l : LineInput) :
    Js.castLine P l.toJs = (castLine l).map Line.toJs := by
  unfold Js.castLine castLine
  have hacc : (LineInput.toJs l).account = l.account := rfl
  have hd : (LineInput.toJs l).debit = l.debit.toJs := rfl
  have hc : (LineInput.toJs l).credit = l.credit.toJs := rfl
  rw [hacc, hd, hc, castAmount_toJs, castAmount_toJs]
  cases l.account <;> cases castAmount l.debit <;> cases castAmount l.credit <;> rfl

theorem castLines_toJs (P : Js.Platform) :
    ∀ lines : List LineInput,
      Js.castLines P (lines.map LineInput.toJs) =
        (castLines lines).map (fun ls => ls.map Line.toJs)
  | [] => rfl
  | l :: rest => by
    simp only [List.map_cons]
    unfold Js.castLines castLines
    rw [castLine_toJs, castLines_toJs P rest]
    cases castLine l <;> cases castLines rest <;> rfl

theorem buildTransaction_toJs (P : Js.Platform) (ctx : Ctx) (date : DateValue)
    (description : String) (lines : List LineInput) :
    Js.buildTransaction P ctx date description (lines.map LineInput.toJs) =
      (buildTransaction P.toPlatform ctx date description lines).map Transaction.toJs := by
  unfold Js.buildTransaction buildTransaction
  rw [castLines_toJs]
  cases resolveDate P.toPlatform ctx date <;> cases castLines lines <;> cases ctx.userId <;>
    try rfl
  simp only [Option.map_some']
  split <;> rfl

/-- On a store and a request of whole numbers, with the absolute values of the
request's amounts summing to at most `2 ^ 53`, the handler over JavaScript
values answers and stores what the whole-number handler does. -/
theorem recordTransaction_toJs (P : Js.Platform) (ctx : Ctx) (s : State)
    (body : TransactionBody)
    (hw : ∀ lines, body.lines = some lines → requestWeight lines ≤ 2 ^ 53) :
    Js.recordTransaction P ctx s.toJs body.toJs =
      ((recordTransaction P.toPlatform ctx s body).1.toJs,
        (recordTransaction P.toPlatform ctx s body).2.toJs) := by
  unfold Js.recordTransaction recordTransaction
  have hdesc : body.toJs.description = body.description := rfl
  have hlines : body.toJs.lines = body.lines.map (fun ls => ls.map LineInput.toJs) := rfl
  have hdate : body.toJs.date = body.date := rfl
  rw [hdesc, hlines, hdate]
  cases hd : body.description with
  | none => cases body.lines <;> rfl
  | some description =>
    cases hl : body.lines with
    | none => rfl
    | some lines =>
      have hwl := hw lines hl
      rw [← pow2_eq] at hwl
      simp only [Option.map_some', List.length_map]
      by_cases hreq : jsTrim description = "" ∨ lines.length < 2
      · simp only [hreq, if_true]
        rfl
      · simp only [hreq, if_false]
        have hv := validateLines_toJs P s lines 0 0 0 (by simp only [Int.natAbs_zero]; omega)
        rw [Double.ofInt_zero] at hv
        rw [hv]
        cases hval : validateLines s 0 0 0 lines with
        | error r => rfl
        | ok r =>
          obtain ⟨a, b⟩ := r
          simp only [Js.jsStrictNe, Double.strictEq_ofInt]
          by_cases hab : a = b
          · subst hab
            simp only [decide_True, Bool.not_true, ne_eq, not_true_eq_false, if_false,
              Bool.false_eq_true]
            rw [buildTransaction_toJs]
            cases buildTransaction P.toPlatform ctx body.date description lines with
            | none => rfl
            | some t =>
              simp only [Option.map_some', State.toJs, List.map_append, List.map_cons,
                List.map_nil]
              rfl
          · simp only [hab, decide_False, Bool.not_false, ne_eq, not_false_eq_true, if_true]
            rfl

theorem jsDemoState_reachable : Js.Reachable jsDemoPlatform demoState.toJs :=
  Js.Reachable.step
    (Js.Reachable.step Js.Reachable.empty
      (Js.Step.createAccount Js.State.empty ⟨0, 1, .oid 77⟩ cashBody
        (by unfold Js.FreshId; decide)))
    (Js.Step.createAccount ⟨[cash], []⟩ ⟨0, 2, .oid 77⟩ equityBody
      (by unfold Js.FreshId; decide))

/-- With any platform on which `String(0)` is `"0"`, `Number("5")` is 5 and
`Number("50")` is 50, the request with the string amounts `"5"` and `"50"` is
answered 201 and stored as 5 against 50. -/
theorem jsRecordTransaction_string_amounts (P : Js.Platform)
    (h0 : P.numberToString Double.zero = "0")
    (h5 : P.stringToNumber "5" = Double.ofInt 5)
    (h50 : P.stringToNumber "50" = Double.ofInt 50) :
    Js.recordTransaction P demoCtx demoState.toJs stringBody =
      (.created stringTransaction, ⟨[cash, equity], [stringTransaction]⟩) := by
  have hf1 : Js.findAccountById demoState.toJs 1 = some cash := by decide
  have hf2 : Js.findAccountById demoState.toJs 2 = some equity := by decide
  have hz : Double.zero.add Double.zero = Double.zero := by decide
  have hg5 : (Double.ofInt 5).gtZero = true := by decide
  have hg50 : (Double.ofInt 50).gtZero = true := by decide
  have hge5 : (Double.ofInt 5).geZero = true := by decide
  have hge50 : (Double.ofInt 50).geZero = true := by decide
  have hgz : Double.zero.gtZero = false := by decide
  have ht : jsTrim "sale" = "sale" := by decide
  simp only [Js.recordTransaction, stringBody, Js.validateLines, Js.destructureDefault,
    Js.lineRejected, Js.jsGtZero, Js.jsStrictEqZero, Js.toNumber, Js.jsAdd, Js.toText,
    Js.jsStrictNe, Js.buildTransaction, Js.castLines, Js.castLine, Js.castAmount,
    hf1, hf2, hz, h0, h5, h50, hg5, hg50, hge5, hge50, hgz, ht, resolveDate, DateValue.truthy,
    demoCtx]
  simp
  decide

/-- C1 fails on the code: a request whose amounts are the strings `"5"` and
`"50"` passes the balance check, because `+=` concatenates both totals to
`"050"`, and is stored as a transaction with 5 debited and 50 credited. The
store before and the store after are reachable. -/
theorem C1_string_amounts_unbalanced :
    Js.Reachable jsDemoPlatform demoState.toJs ∧
    Js.recordTransaction jsDemoPlatform demoCtx demoState.toJs stringBody =
      (.created stringTransaction, ⟨[cash, equity], [stringTransaction]⟩) ∧
    Js.Reachable jsDemoPlatform ⟨[cash, equity], [stringTransaction]⟩ ∧
    stringTransaction.totalDebit = Double.ofInt 5 ∧
    stringTransaction.totalCredit = Double.ofInt 50 ∧
    ¬ stringTransaction.Balanced := by
  have hrec : Js.recordTransaction jsDemoPlatform demoCtx demoState.toJs stringBody =
      (.created stringTransaction, ⟨[cash, equity], [stringTransaction]⟩) := by decide
  refine ⟨jsDemoState_reachable, hrec, ?_, by decide, by decide, ?_⟩
  · have hstep := Js.Reachable.step jsDemoState_reachable
      (Js.Step.recordTransaction demoState.toJs demoCtx stringBody
        (by unfold Js.FreshId; decide))
    rw [hrec] at hstep
    exact hstep
  · unfold Js.Transaction.Balanced
    decide

/-- The balance check compares rounded sums: `2 ^ 53` and 1 debited against
`2 ^ 53` credited is answered 201, the debit total `2 ^ 53 + 1` rounding to
`2 ^ 53`. -/
theorem jsRecordTransaction_rounded_totals :
    Js.recordTransaction jsDemoPlatform demoCtx demoState.toJs roundedBody =
      (.created roundedTransaction, ⟨[cash, equity], [roundedTransaction]⟩) ∧
    (Double.ofInt 9007199254740992).add (Double.ofInt 1) = Double.ofInt 9007199254740992 ∧
    roundedTransaction.totalDebit = Double.ofInt 9007199254740992 ∧
    roundedTransaction.totalCredit = Double.ofInt 9007199254740992 := by
  refine ⟨by decide, by decide, by decide, by decide⟩

/-- C30, as stated, fails in the arithmetic of the code. Entries of 0.1, 0.2
and 0.3 between `cash` and `equity` recorded in this order give `cash` the
balance 0.6000000000000001, and recorded in the opposite order the balance
0.6. And on the store holding the entry of 0.1, recording a transaction with
the two debits 0.2 and 0.3 to `cash` takes its balance from 0.1 to
0.6000000000000001, while 0.1 plus the contribution 0.5 of the transaction
is 0.6. -/
theorem C30_counterexample :
    Js.recordTransaction jsDemoPlatform ⟨5, 10, .oid 77⟩ demoState.toJs (decimalBody "a" 1 10) =
      (.created (decimalTransaction 10 5 "a" 1 10),
        ⟨[cash, equity], [decimalTransaction 10 5 "a" 1 10]⟩) ∧
    Js.recordTransaction jsDemoPlatform ⟨6, 11, .oid 77⟩
        ⟨[cash, equity], [decimalTransaction 10 5 "a" 1 10]⟩ (decimalBody "b" 2 10) =
      (.created (decimalTransaction 11 6 "b" 2 10),
        ⟨[cash, equity], [decimalTransaction 10 5 "a" 1 10,
          decimalTransaction 11 6 "b" 2 10]⟩) ∧
    Js.recordTransaction jsDemoPlatform ⟨7, 12, .oid 77⟩
        ⟨[cash, equity], [decimalTransaction 10 5 "a" 1 10,
          decimalTransaction 11 6 "b" 2 10]⟩ (decimalBody "c" 3 10) =
      (.created (decimalTransaction 12 7 "c" 3 10),
        ⟨[cash, equity], [decimalTransaction 10 5 "a" 1 10,
          decimalTransaction 11 6 "b" 2 10, decimalTransaction 12 7 "c" 3 10]⟩) ∧
    Js.recordTransaction jsDemoPlatform ⟨7, 12, .oid 77⟩ demoState.toJs (decimalBody "c" 3 10) =
      (.created (decimalTransaction 12 7 "c" 3 10),
        ⟨[cash, equity], [decimalTransaction 12 7 "c" 3 10]⟩) ∧
    Js.recordTransaction jsDemoPlatform ⟨6, 11, .oid 77⟩
        ⟨[cash, equity], [decimalTransaction 12 7 "c" 3 10]⟩ (decimalBody "b" 2 10) =
      (.created (decimalTransaction 11 6 "b" 2 10),
        ⟨[cash, equity], [decimalTransaction 12 7 "c" 3 10,
          decimalTransaction 11 6 "b" 2 10]⟩) ∧
    Js.recordTransaction jsDemoPlatform ⟨5, 10, .oid 77⟩
        ⟨[cash, equity], [decimalTransaction 12 7 "c" 3 10,
          decimalTransaction 11 6 "b" 2 10]⟩ (decimalBody "a" 1 10) =
      (.created (decimalTransaction 10 5 "a" 1 10),
        ⟨[cash, equity], [decimalTransaction 12 7 "c" 3 10,
          decimalTransaction 11 6 "b" 2 10, decimalTransaction 10 5 "a" 1 10]⟩) ∧
    (Js.generateBalanceSheet ⟨[cash, equity], [decimalTransaction 10 5 "a" 1 10,
        decimalTransaction 11 6 "b" 2 10, decimalTransaction 12 7 "c" 3 10]⟩).bind
      (fun r => r.balanceOf 1) = some (Double.nearest 6000000000000001 10000000000000000) ∧
    (Js.generateBalanceSheet ⟨[cash, equity], [decimalTransaction 12 7 "c" 3 10,
        decimalTransaction 11 6 "b" 2 10, decimalTransaction 10 5 "a" 1 10]⟩).bind
      (fun r => r.balanceOf 1) = some (Double.nearest 6 10) ∧
    Double.nearest 6000000000000001 10000000000000000 ≠ Double.nearest 6 10 ∧
    Js.recordTransaction jsDemoPlatform ⟨6, 11, .oid 77⟩
        ⟨[cash, equity], [decimalTransaction 10 5 "a" 1 10]⟩ splitBody =
      (.created splitTransaction,
        ⟨[cash, equity], [decimalTransaction 10 5 "a" 1 10, splitTransaction]⟩) ∧
    (Js.generateBalanceSheet ⟨[cash, equity], [decimalTransaction 10 5 "a" 1 10]⟩).bind
      (fun r => r.balanceOf 1) = some (Double.nearest 1 10) ∧
    Js.contribution cash splitTransaction.lines = Double.nearest 5 10 ∧
    (Js.generateBalanceSheet
        ⟨[cash, equity], [decimalTransaction 10 5 "a" 1 10, splitTransaction]⟩).bind
      (fun r => r.balanceOf 1) = some (Double.nearest 6000000000000001 10000000000000000) ∧
    (Double.nearest 1 10).add (Double.nearest 5 10) = Double.nearest 6 10 := by
  refine ⟨by decide, by decide, by decide, by decide, by decide, by decide, by decide,
    by decide, by decide, by decide, by decide, by decide, by decide, by decide⟩

theorem weight_append (txs : List Transaction) (t : Transaction) :
    weight (txs ++ [t]) = weight txs + (t.lines.map Line.weight).sum := by
  unfold weight
  rw [allLines_append, List.map_append, List.sum_append]

theorem weight_perm {txs₁ txs₂ : List Transaction}
    (h : (allLines txs₁).Perm (allLines txs₂)) : weight txs₁ = weight txs₂ := by
  unfold weight
  exact (h.map Line.weight).sum_eq

theorem mem_allLines {txs : List Transaction} {l : Line} (h : l ∈ allLines txs) :
    ∃ t ∈ txs, l ∈ t.lines := by
  induction txs with
  | nil => cases h
  | cons x rest ih =>
    have h2 : allLines (x :: rest) = x.lines ++ allLines rest := rfl
    rw [h2, List.mem_append] at h
    rcases h with h | h
    · exact ⟨x, List.mem_cons_self _ _, h⟩
    · obtain ⟨t, ht, hl⟩ := ih h
      exact ⟨t, List.mem_cons_of_mem _ ht, hl⟩

theorem linesResolve_of_perm {s₁ s₂ : State} (hacc : s₁.accounts = s₂.accounts)
    (hperm : (allLines s₁.transactions).Perm (allLines s₂.transactions))
    (hr : LinesResolve s₁) : LinesResolve s₂ := by
  intro t ht l hl
  have h1 : l ∈ allLines s₁.transactions := hperm.mem_iff.2 (mem_allLines_of ht hl)
  obtain ⟨t', ht', hl'⟩ := mem_allLines h1
  have := hr t' ht' l hl'
  unfold findAccountById at this ⊢
  rw [← hacc]
  exact this

theorem natAbs_contribution_le (a : Account) (L : List Line) :
    (contribution a L).natAbs ≤ (L.map Line.weight).sum := by
  have h := sum_natAbs_debitMinusCredit_le [a] (by simp) L
  simp only [List.map_cons, List.map_nil, List.sum_cons, List.sum_nil, Nat.add_zero] at h
  unfold contribution
  cases a.type <;> simp only [creditMinusDebit_eq_neg, Int.natAbs_neg] <;> exact h

/-- C30: on a store of whole numbers, with distinct account ids and every line
posting to a stored account, whose amounts and those of an accepted
transaction T sum in absolute value to at most `2 ^ 53`, every addition of the
reports is exact: recording T changes the balance each report gives an account
A by the contribution of the lines of T posting to A under the sign rule of
the type of A, which is 0 when T has no line on A; and two such stores with
the same accounts and the same transactions, or the same lines, in another
order have the same reports. -/
theorem C30_incremental (P : Js.Platform) (ctx : Ctx) (s : State) (body : Js.TransactionBody)
    (t : Transaction) (hu : UniqueAccountIds s) (hr : LinesResolve s)
    (hw : weight (s.transactions ++ [t]) ≤ 2 ^ 53)
    (h : (Js.recordTransaction P ctx s.toJs body).1 = .created t.toJs) :
    (∃ bs bs' inc inc',
      Js.generateBalanceSheet s.toJs = some bs ∧
      Js.generateBalanceSheet (Js.recordTransaction P ctx s.toJs body).2 = some bs' ∧
      Js.generateIncomeStatement s.toJs = some inc ∧
      Js.generateIncomeStatement (Js.recordTransaction P ctx s.toJs body).2 = some inc' ∧
      (∀ a ∈ s.accounts, a.type ∈ balanceSheetTypes →
        ∃ B : Int, bs.balanceOf a._id = some (Double.ofInt B) ∧
          bs'.balanceOf a._id = some ((Double.ofInt B).add (Double.ofInt (contribution a t.lines))) ∧
          (Double.ofInt B).add (Double.ofInt (contribution a t.lines)) =
            Double.ofInt (B + contribution a t.lines)) ∧
      (∀ a ∈ s.accounts, a.type ∈ incomeStatementTypes →
        ∃ B : Int, inc.balanceOf a._id = some (Double.ofInt B) ∧
          inc'.balanceOf a._id = some ((Double.ofInt B).add (Double.ofInt (contribution a t.lines))) ∧
          (Double.ofInt B).add (Double.ofInt (contribution a t.lines)) =
            Double.ofInt (B + contribution a t.lines))) ∧
    (∀ a : Account, (∀ l ∈ t.lines, l.account ≠ a._id) → contribution a t.lines = 0) ∧
    (∀ s₁ s₂ : State, s₁.accounts = s₂.accounts → UniqueAccountIds s₁ → LinesResolve s₁ →
      weight s₁.transactions ≤ 2 ^ 53 →
      (s₁.transactions.Perm s₂.transactions ∨
        (allLines s₁.transactions).Perm (allLines s₂.transactions)) →
      Js.generateBalanceSheet s₁.toJs = Js.generateBalanceSheet s₂.toJs ∧
        Js.generateIncomeStatement s₁.toJs = Js.generateIncomeStatement s₂.toJs) := by
  rw [← pow2_eq] at hw
  refine ⟨?_, fun a ha => contribution_of_no_posting a t.lines ha, ?_⟩
  · obtain ⟨hstate, hres⟩ := jsRecordTransaction_created h
    have hs' : (Js.recordTransaction P ctx s.toJs body).2 =
        State.toJs ⟨s.accounts, s.transactions ++ [t]⟩ := by
      rw [hstate]
      simp only [State.toJs, List.map_append, List.map_cons, List.map_nil]
    have hr' : LinesResolve ⟨s.accounts, s.transactions ++ [t]⟩ := by
      intro t' ht' l hl
      rcases List.mem_append.1 ht' with ht' | ht'
      · exact hr t' ht' l hl
      · simp only [List.mem_singleton] at ht'
        subst ht'
        exact hres l.toJs (List.mem_map.2 ⟨l, hl, rfl⟩)
    have hu' : UniqueAccountIds ⟨s.accounts, s.transactions ++ [t]⟩ := hu
    have hw0 : weight s.transactions ≤ pow2 53 := by
      rw [weight_append] at hw
      omega
    obtain ⟨bs, inc, hbs, hinc, h1, h2⟩ := reported_balances s hu hr
    obtain ⟨bs', inc', hbs', hinc', h1', h2'⟩ :=
      reported_balances ⟨s.accounts, s.transactions ++ [t]⟩ hu' hr'
    have hbound : ∀ a : Account,
        (contribution a (allLines s.transactions) + contribution a t.lines).natAbs ≤
          pow2 53 := by
      intro a
      rw [← contribution_append, ← allLines_append]
      exact Nat.le_trans (natAbs_contribution_le a _) hw
    refine ⟨bs.toJs, bs'.toJs, inc.toJs, inc'.toJs, ?_, ?_, ?_, ?_, ?_, ?_⟩
    · rw [generateBalanceSheet_toJs s hu hr hw0, hbs]; rfl
    · rw [hs', generateBalanceSheet_toJs _ hu' hr' hw, hbs']; rfl
    · rw [generateIncomeStatement_toJs s hu hr hw0, hinc]; rfl
    · rw [hs', generateIncomeStatement_toJs _ hu' hr' hw, hinc']; rfl
    · intro a ha ht
      refine ⟨contribution a (allLines s.transactions), ?_, ?_, ?_⟩
      · rw [balanceSheet_balanceOf_toJs, h1 a ha ht]; rfl
      · rw [balanceSheet_balanceOf_toJs, h1' a ha ht, Double.add_ofInt _ _ (hbound a)]
        simp only [allLines_append, contribution_append, Option.map_some']
      · exact Double.add_ofInt _ _ (hbound a)
    · intro a ha ht
      refine ⟨contribution a (allLines s.transactions), ?_, ?_, ?_⟩
      · rw [incomeStatement_balanceOf_toJs, h2 a ha ht]; rfl
      · rw [incomeStatement_balanceOf_toJs, h2' a ha ht, Double.add_ofInt _ _ (hbound a)]
        simp only [allLines_append, contribution_append, Option.map_some']
      · exact Double.add_ofInt _ _ (hbound a)
  · intro s₁ s₂ hacc hu₁ hr₁ hw₁ hperm
    rw [← pow2_eq] at hw₁
    have hperm' : (allLines s₁.transactions).Perm (allLines s₂.transactions) := by
      rcases hperm with hperm | hperm
      · exact allLines_perm hperm
      · exact hperm
    have hu₂ : UniqueAccountIds s₂ := by
      unfold UniqueAccountIds at hu₁ ⊢
      rw [← hacc]
      exact hu₁
    have hr₂ := linesResolve_of_perm hacc hperm' hr₁
    have hw₂ : weight s₂.transactions ≤ pow2 53 := by
      rw [← weight_perm hperm']
      exact hw₁
    obtain ⟨e1, e2⟩ := reports_perm s₁ s₂ hacc hperm' hu₁ hr₁
    rw [generateBalanceSheet_toJs s₁ hu₁ hr₁ hw₁, generateBalanceSheet_toJs s₂ hu₂ hr₂ hw₂,
      generateIncomeStatement_toJs s₁ hu₁ hr₁ hw₁,
      generateIncomeStatement_toJs s₂ hu₂ hr₂ hw₂, e1, e2]
    exact ⟨rfl, rfl⟩

/-- C30 on the sample store holding the opening entry, where the drawing of 250
is recorded: `cash` gets −250 from it, and the reports are the same with the two
transactions stored in the other order. -/
theorem C30_incremental_witness :
    Js.recordTransaction jsDemoPlatform ⟨6, 11, .oid 77⟩
        (State.toJs ⟨[cash, equity], [openingTransaction]⟩) drawingBody.toJs =
      (.created drawingTransaction.toJs,
        State.toJs ⟨[cash, equity], [openingTransaction, drawingTransaction]⟩) ∧
    contribution cash drawingTransaction.lines = -250 ∧
    (∃ bs bs' inc inc',
      Js.generateBalanceSheet (State.toJs ⟨[cash, equity], [openingTransaction]⟩) = some bs ∧
      Js.generateBalanceSheet (Js.recordTransaction jsDemoPlatform ⟨6, 11, .oid 77⟩
        (State.toJs ⟨[cash, equity], [openingTransaction]⟩) drawingBody.toJs).2 = some bs' ∧
      Js.generateIncomeStatement (State.toJs ⟨[cash, equity], [openingTransaction]⟩) =
        some inc ∧
      Js.generateIncomeStatement (Js.recordTransaction jsDemoPlatform ⟨6, 11, .oid 77⟩
        (State.toJs ⟨[cash, equity], [openingTransaction]⟩) drawingBody.toJs).2 = some inc' ∧
      (∀ a ∈ [cash, equity], a.type ∈ balanceSheetTypes →
        ∃ B : Int, bs.balanceOf a._id = some (Double.ofInt B) ∧
          bs'.balanceOf a._id =
            some ((Double.ofInt B).add (Double.ofInt (contribution a drawingTransaction.lines))) ∧
          (Double.ofInt B).add (Double.ofInt (contribution a drawingTransaction.lines)) =
            Double.ofInt (B + contribution a drawingTransaction.lines)) ∧
      (∀ a ∈ [cash, equity], a.type ∈ incomeStatementTypes →
        ∃ B : Int, inc.balanceOf a._id = some (Double.ofInt B) ∧
          inc'.balanceOf a._id =
            some ((Double.ofInt B).add (Double.ofInt (contribution a drawingTransaction.lines))) ∧
          (Double.ofInt B).add (Double.ofInt (contribution a drawingTransaction.lines)) =
            Double.ofInt (B + contribution a drawingTransaction.lines))) ∧
    Js.generateBalanceSheet
        (State.toJs ⟨[cash, equity], [openingTransaction, drawingTransaction]⟩) =
      Js.generateBalanceSheet
        (State.toJs ⟨[cash, equity], [drawingTransaction, openingTransaction]⟩) :=
  have h := C30_incremental jsDemoPlatform ⟨6, 11, .oid 77⟩
    ⟨[cash, equity], [openingTransaction]⟩ drawingBody.toJs drawingTransaction
    (by unfold UniqueAccountIds; decide) (by unfold LinesResolve; decide) (by decide)
    (by decide)
  ⟨by decide, by decide, h.1,
    (h.2.2 ⟨[cash, equity], [openingTransaction, drawingTransaction]⟩
      ⟨[cash, equity], [drawingTransaction, openingTransaction]⟩ rfl
      (by unfold UniqueAccountIds; decide) (by unfold LinesResolve; decide) (by decide)
      (Or.inl (List.Perm.swap _ _ _))).1⟩

end Erp
